import Mathlib

/-!
# Card and slot management of the PKCS#11 module (`src/pkcs11/slot.c`)

A shallow embedding of `slot.c`.

* The two global tables of the module (`card_table`, `virtual_slots`) and the
  global `context` pointer are the fields of `State`.  A pointer into a table
  is the index of the entry, NULL is `none`; the sizes of the tables are the
  lengths of the lists.
* A function whose C code can dereference NULL or leave an array returns an
  `Option`: `none` stands for that undefined behaviour.
* The calls to the collaborators (reader transport, session layer, object
  pool, object release hooks, frameworks) are recorded in call order in the
  field `log`, together with the debug lines "Card absent", "Card changed" and
  "SmartCard removed", which mark the branch taken.  The other debug lines
  are dropped.  The collaborators called during a teardown
  (`C_CloseAllSessions`, release hooks, `release_token`, `unbind`,
  `sc_disconnect_card`) do not write to the two tables.
* The answers of the transport are a parameter of `card_detect`
  (`Transport`); the registry `frameworks`, the configured slots-per-card,
  `SC_PKCS11_DEF_SLOTS_PER_CARD` and `sc_to_cryptoki_error` are the fields of
  `Config`.
-/

namespace Slot

/-! ## Constants of `pkcs11.h` and `opensc.h` -/

abbrev CK_RV := Nat

abbrev CKR_OK : CK_RV := 0
abbrev CKR_SLOT_ID_INVALID : CK_RV := 3
abbrev CKR_FUNCTION_FAILED : CK_RV := 6
abbrev CKR_TOKEN_NOT_PRESENT : CK_RV := 224
abbrev CKR_TOKEN_NOT_RECOGNIZED : CK_RV := 225
abbrev CKR_CRYPTOKI_NOT_INITIALIZED : CK_RV := 400

abbrev CKF_TOKEN_PRESENT : Nat := 1
abbrev CKF_REMOVABLE_DEVICE : Nat := 2
abbrev CKF_HW_SLOT : Nat := 4

abbrev SC_SUCCESS : Int := 0
abbrev SC_SLOT_CARD_CHANGED : Nat := 2

/-! ## Data model -/

/-- Connected card handle (`struct sc_card`); `reader_name` is
`card->reader->name`. -/
structure sc_card where
  handle : Nat
  reader_name : List Char
deriving DecidableEq, Repr

/-- Entry of `card_table` (`struct sc_pkcs11_card`).  `framework` is the index
of the bound framework in the registry `frameworks`, `none` is NULL. -/
structure sc_pkcs11_card where
  reader : Nat
  card : Option sc_card
  framework : Option Nat
  fw_data : Option Nat
  max_slots : Nat
  num_slots : Nat
deriving DecidableEq, Repr

structure CK_VERSION where
  major : Nat
  minor : Nat
deriving DecidableEq, Repr

structure CK_SLOT_INFO where
  slotDescription : List Char
  manufacturerID : List Char
  flags : Nat
  hardwareVersion : CK_VERSION
  firmwareVersion : CK_VERSION
deriving DecidableEq, Repr

/-- Object held in a slot's object pool; `has_release` says whether
`object->ops->release` is a non-NULL hook. -/
structure sc_pkcs11_object where
  ident : Nat
  has_release : Bool
deriving DecidableEq, Repr

structure sc_pkcs11_pool_item where
  handle : Nat
  item : sc_pkcs11_object
deriving DecidableEq, Repr

abbrev sc_pkcs11_pool := List sc_pkcs11_pool_item

/-- Entry of `virtual_slots` (`struct sc_pkcs11_slot`), with the fields that
`slot.c` reads or writes.  `card` is the index of the referenced entry of
`card_table`, `none` is NULL. -/
structure sc_pkcs11_slot where
  id : Int
  login_user : Int
  slot_info : CK_SLOT_INFO
  card : Option Nat
  fw_data : Option Nat
  object_pool : sc_pkcs11_pool
deriving DecidableEq, Repr

structure sc_context where
  reader_count : Nat
deriving DecidableEq, Repr

/-- Calls to collaborators, and the debug lines "Card absent", "Card changed"
and "SmartCard removed". -/
inductive Event where
  | detect_card_presence (reader : Nat)
  | debug_card_absent (reader : Nat)
  | debug_card_changed (reader : Nat)
  | connect_card (reader : Nat)
  | bind (fw : Nat) (reader : Nat)
  | create_tokens (fw : Nat) (reader : Nat)
  | debug_smartcard_removed (reader : Nat)
  | close_all_sessions (id : Int)
  | pool_delete (object : sc_pkcs11_object)
  | object_release (object : sc_pkcs11_object)
  | release_token (fw : Nat) (card : Nat) (fw_data : Nat)
  | unbind (fw : Nat) (reader : Nat)
  | disconnect_card (card : sc_card)
deriving DecidableEq, Repr

structure State where
  context : Option sc_context
  card_table : List sc_pkcs11_card
  virtual_slots : List sc_pkcs11_slot
  log : List Event
deriving DecidableEq, Repr

/-- One `slot_allocate` made by a framework's `create_tokens`: the framework
context it stores in the new slot and whether it marks a token present. -/
structure token_request where
  fw_data : Option Nat
  token_present : Bool
deriving DecidableEq, Repr

/-- Modelled from the spec: the framework operations (`struct
sc_pkcs11_framework_ops`, whose implementations are not among the sources).
`bind` may be NULL; it inspects the connected card and returns its result and
the value it leaves in `card->fw_data`.  `create_tokens` allocates virtual slots through
`slot_allocate`, one per request, and then returns the given result. -/
structure sc_pkcs11_framework_ops where
  bind : Option (sc_card → CK_RV × Option Nat)
  create_tokens : sc_pkcs11_card → List token_request × CK_RV

/-- What `slot.c` takes from its surroundings: the registry `frameworks`,
`sc_pkcs11_conf.num_slots`, `SC_PKCS11_DEF_SLOTS_PER_CARD` and
`sc_to_cryptoki_error`. -/
structure Config where
  frameworks : List sc_pkcs11_framework_ops
  conf_num_slots : Nat
  SC_PKCS11_DEF_SLOTS_PER_CARD : Nat
  sc_to_cryptoki_error : Int → Nat → CK_RV

/-- Behaviour of the reader transport during one `card_detect`:
`sc_detect_card_presence k` is the answer to the query number `k` of the call,
`sc_connect_card` the result and handle of the connection attempt. -/
structure Transport where
  sc_detect_card_presence : Nat → Int
  sc_connect_card : Int × sc_card

/-- Constant `SC_PKCS11_MAX_VIRTUAL_SLOTS`, the size of `virtual_slots`. -/
def SC_PKCS11_MAX_VIRTUAL_SLOTS (st : State) : Nat := st.virtual_slots.length

def State.emit (st : State) (e : Event) : State :=
  { st with log := st.log ++ [e] }

def State.set_slot (st : State) (i : Nat) (slot : sc_pkcs11_slot) : State :=
  { st with virtual_slots := st.virtual_slots.set i slot }

def State.set_card (st : State) (i : Nat) (card : sc_pkcs11_card) : State :=
  { st with card_table := st.card_table.set i card }

/-! ## Helpers that `slot.c` calls -/

/-- Modelled from the spec: `strcpy_bp`, the blank-padded copy of `src` into a
field of `n` characters. -/
def strcpy_bp (src : List Char) (n : Nat) : List Char :=
  src.take n ++ List.replicate (n - src.length) (Char.ofNat 32)

/-- Modelled from the spec: `pool_find_and_delete` of the object pool, the
find-and-delete step of the drain.  Handle 0 matches any entry; `none` is the
failure result, `some` is `CKR_OK` with the removed item. -/
def pool_find_and_delete (pool : sc_pkcs11_pool) (handle : Nat) :
    Option (sc_pkcs11_object × sc_pkcs11_pool) :=
  match pool with
  | [] => none
  | item :: rest =>
    if handle = 0 ∨ item.handle = handle then some (item.item, rest)
    else
      match pool_find_and_delete rest handle with
      | none => none
      | some (object, rest1) => some (object, item :: rest1)

/-! ## `slot.c` -/

def virtual_slot_text : List Char := String.toList "Virtual slot"

def manufacturer_text : List Char := String.toList "OpenSC project (www.opensc.org)"

def init_slot_info (pInfo : CK_SLOT_INFO) : CK_SLOT_INFO :=
  { pInfo with
    slotDescription := strcpy_bp virtual_slot_text 64
    manufacturerID := strcpy_bp manufacturer_text 32
    flags := CKF_REMOVABLE_DEVICE ||| CKF_HW_SLOT
    hardwareVersion := ⟨0, 0⟩
    firmwareVersion := ⟨0, 0⟩ }

/-- All-zero `struct sc_pkcs11_card`, the result of `memset`. -/
def zero_card : sc_pkcs11_card :=
  { reader := 0, card := none, framework := none, fw_data := none,
    max_slots := 0, num_slots := 0 }

/-- All-zero `CK_SLOT_INFO`. -/
def zero_slot_info : CK_SLOT_INFO :=
  { slotDescription := List.replicate 64 (Char.ofNat 0)
    manufacturerID := List.replicate 32 (Char.ofNat 0)
    flags := 0
    hardwareVersion := ⟨0, 0⟩
    firmwareVersion := ⟨0, 0⟩ }

/-- All-zero `struct sc_pkcs11_slot`, the result of `memset`. -/
def zero_slot : sc_pkcs11_slot :=
  { id := 0, login_user := 0, slot_info := zero_slot_info, card := none,
    fw_data := none, object_pool := [] }

def card_initialize (st : State) (reader : Nat) : Option (CK_RV × State) :=
  if reader < st.card_table.length then
    some (CKR_OK, st.set_card reader { zero_card with reader := reader })
  else none

def slot_get_slot (st : State) (id : Int) : CK_RV × Option Nat :=
  if st.context = none then (CKR_CRYPTOKI_NOT_INITIALIZED, none)
  else if id < 0 ∨ id ≥ (SC_PKCS11_MAX_VIRTUAL_SLOTS st : Int) then (CKR_SLOT_ID_INVALID, none)
  else (CKR_OK, some id.toNat)

def slot_get_token (st : State) (id : Int) : CK_RV × Option Nat :=
  let r := slot_get_slot st id
  if r.1 ≠ CKR_OK then (r.1, r.2)
  else
    match r.2 with
    | none => (r.1, none)
    | some i =>
      match st.virtual_slots[i]? with
      | none => (r.1, some i)
      | some slot =>
        if slot.slot_info.flags &&& CKF_TOKEN_PRESENT = 0 then (CKR_TOKEN_NOT_PRESENT, some i)
        else (CKR_OK, some i)

/-- The events of one round of the drain loop of `slot_token_removed`. -/
def drain_events (object : sc_pkcs11_object) : List Event :=
  if object.has_release then [Event.pool_delete object, Event.object_release object]
  else [Event.pool_delete object]

/-- The loop `while (pool_find_and_delete(&slot->object_pool, 0, &object) == CKR_OK)`
of `slot_token_removed`, with a bound on the number of rounds; `none` when the
bound is used up. -/
def drain_object_pool : Nat → sc_pkcs11_pool → List Event → Option (sc_pkcs11_pool × List Event)
  | 0, _, _ => none
  | fuel + 1, pool, log =>
    match pool_find_and_delete pool 0 with
    | some (object, pool1) => drain_object_pool fuel pool1 (log ++ drain_events object)
    | none => some (pool, log)

/-- The step "Release framework stuff" of `slot_token_removed`:
`slot->card->framework->release_token(slot->card, slot->fw_data)`. -/
def release_framework_stuff (st : State) (slot : sc_pkcs11_slot) : Option State :=
  match slot.card, slot.fw_data with
  | some c, some d =>
    match st.card_table[c]? with
    | none => none
    | some card =>
      match card.framework with
      | none => none
      | some fw => some (st.emit (Event.release_token fw c d))
  | _, _ => some st

/-- The slot after "Zap everything else": `memset`, `init_slot_info`,
`login_user = -1`. -/
def zapped_slot : sc_pkcs11_slot :=
  { zero_slot with slot_info := init_slot_info zero_slot.slot_info, login_user := -1 }

/-- The part of `slot_token_removed` before the final `memset`, for the slot
of index `i`: close the sessions, drain the object pool, release the token. -/
def slot_teardown (st : State) (id : Int) (i : Nat) : Option State :=
  match st.virtual_slots[i]? with
  | none => none
  | some slot =>
    let st1 := st.emit (Event.close_all_sessions id)
    match drain_object_pool (slot.object_pool.length + 1) slot.object_pool st1.log with
    | none => none
    | some (pool, log) =>
      let st2 := { st1 with log := log, virtual_slots := st1.virtual_slots.set i { slot with object_pool := pool } }
      release_framework_stuff st2 slot

def slot_token_removed (st : State) (id : Int) : Option (CK_RV × State) :=
  let r := slot_get_slot st id
  if r.1 ≠ CKR_OK then some (r.1, st)
  else
    match r.2 with
    | none => none
    | some i =>
      match slot_teardown st id i with
      | none => none
      | some st3 => some (CKR_OK, st3.set_slot i zapped_slot)

/-- The body of the loop of `card_removed` for the slot index `i`. -/
def card_removed_step (reader : Nat) (st : State) (i : Nat) : Option State :=
  match st.virtual_slots[i]? with
  | none => none
  | some slot =>
    match slot.card with
    | none => some st
    | some c =>
      match st.card_table[c]? with
      | none => none
      | some card =>
        if card.reader = reader then
          match slot_token_removed st (i : Int) with
          | none => none
          | some (_, st1) => some st1
        else some st

/-- The loop of `card_removed` over the slot indices. -/
def card_removed_slots (reader : Nat) : List Nat → State → Option State
  | [], st => some st
  | i :: rest, st =>
    match card_removed_step reader st i with
    | none => none
    | some st1 => card_removed_slots reader rest st1

def card_removed (st : State) (reader : Nat) : Option (CK_RV × State) :=
  let st0 := st.emit (Event.debug_smartcard_removed reader)
  match card_removed_slots reader (List.range (SC_PKCS11_MAX_VIRTUAL_SLOTS st0)) st0 with
  | none => none
  | some st1 =>
    match st1.card_table[reader]? with
    | none => none
    | some card =>
      let st2 := match card.framework with
        | some fw => st1.emit (Event.unbind fw reader)
        | none => st1
      let st3 := match card.card with
        | some h => st2.emit (Event.disconnect_card h)
        | none => st2
      some (CKR_OK, st3.set_card reader { card with framework := none, fw_data := none, card := none })

def slot_initialize (id : Int) (slot : sc_pkcs11_slot) : CK_RV × sc_pkcs11_slot :=
  (CKR_OK, { slot with id := id, login_user := -1, slot_info := init_slot_info slot.slot_info,
                       object_pool := [] })

/-- The scan of `slot_allocate` for the first slot, from index `i` on, whose
card reference is NULL. -/
def find_free_slot : List sc_pkcs11_slot → Nat → Option Nat
  | [], _ => none
  | slot :: rest, i => if slot.card = none then some i else find_free_slot rest (i + 1)

def slot_allocate (st : State) (c : Nat) : Option (CK_RV × Option Nat × State) :=
  match st.card_table[c]? with
  | none => none
  | some card =>
    if card.num_slots ≥ card.max_slots then some (CKR_FUNCTION_FAILED, none, st)
    else
      match find_free_slot st.virtual_slots 0 with
      | none => some (CKR_FUNCTION_FAILED, none, st)
      | some i =>
        match st.virtual_slots[i]?, card.card with
        | some slot, some h =>
          let slot1 := { slot with card := some c,
                                   slot_info := { slot.slot_info with
                                     slotDescription := strcpy_bp h.reader_name 64 } }
          let st1 := st.set_slot i slot1
          some (CKR_OK, some i, st1.set_card c { card with num_slots := card.num_slots + 1 })
        | _, _ => none

/-- The test `rc & SC_SLOT_CARD_CHANGED` of `card_detect`, made when `rc > 0`. -/
def card_changed (rc : Int) : Bool := rc.toNat &&& SC_SLOT_CARD_CHANGED != 0

/-- The loop `for (i = 0; frameworks[i]; i++)` of `card_detect`, from registry
index `i` on.  The first component of the result is the index at which the
loop was left by `break`, or `none` when it ran to the terminating NULL. -/
def bind_frameworks (reader : Nat) :
    List sc_pkcs11_framework_ops → Nat → CK_RV → State → Option (Option Nat × CK_RV × State)
  | [], _, rv, st => some (none, rv, st)
  | fw :: rest, i, rv, st =>
    match fw.bind with
    | none => bind_frameworks reader rest (i + 1) rv st
    | some b =>
      match st.card_table[reader]? with
      | none => none
      | some card =>
        match card.card with
        | none => none
        | some h =>
          let r := b h
          let st1 := (st.emit (Event.bind i reader)).set_card reader { card with fw_data := r.2 }
          if r.1 = CKR_OK then some (some i, r.1, st1)
          else bind_frameworks reader rest (i + 1) r.1 st1

/-- Modelled from the spec: the run of a framework's `create_tokens` on the
card entry `c`.  Each request calls `slot_allocate`; a failed allocation is
returned at once, a successful one stores the framework context in the new
slot and, when asked, sets `CKF_TOKEN_PRESENT`.  After the last request the
framework returns `rv`. -/
def run_create_tokens (c : Nat) : List token_request → CK_RV → State → Option (CK_RV × State)
  | [], rv, st => some (rv, st)
  | req :: rest, rv, st =>
    match slot_allocate st c with
    | none => none
    | some (rv1, none, st1) => some (rv1, st1)
    | some (_, some i, st1) =>
      match st1.virtual_slots[i]? with
      | none => none
      | some slot =>
        let flags := if req.token_present then slot.slot_info.flags ||| CKF_TOKEN_PRESENT
                     else slot.slot_info.flags
        let slot1 := { slot with fw_data := req.fw_data,
                                 slot_info := { slot.slot_info with flags := flags } }
        run_create_tokens c rest rv (st1.set_slot i slot1)

/-- The block "Detect the framework" of `card_detect`, entered when
`card_table[reader].framework == NULL`. -/
def detect_framework (cfg : Config) (st : State) (reader : Nat) : Option (CK_RV × State) :=
  match st.card_table[reader]? with
  | none => none
  | some card =>
    let max_slots := if cfg.conf_num_slots = 0 then cfg.SC_PKCS11_DEF_SLOTS_PER_CARD
                     else cfg.conf_num_slots
    let st1 := st.set_card reader { card with max_slots := max_slots, num_slots := 0 }
    match bind_frameworks reader cfg.frameworks 0 CKR_OK st1 with
    | none => none
    | some (none, _, st2) => some (CKR_TOKEN_NOT_RECOGNIZED, st2)
    | some (some i, _, st2) =>
      match cfg.frameworks[i]?, st2.card_table[reader]? with
      | some fw, some card2 =>
        let script := fw.create_tokens card2
        match run_create_tokens reader script.1 script.2 (st2.emit (Event.create_tokens i reader)) with
        | none => none
        | some (rv, st3) =>
          if rv ≠ CKR_OK then some (rv, st3)
          else
            match st3.card_table[reader]? with
            | none => none
            | some card3 => some (rv, st3.set_card reader { card3 with framework := some i })
      | _, _ => none

/-- The part of `card_detect` after the presence checks: connect the card if
it is not known already, then detect the framework if none is bound. -/
def card_detect_known (cfg : Config) (tr : Transport) (st : State) (reader : Nat) :
    Option (CK_RV × State) :=
  match st.card_table[reader]? with
  | none => none
  | some card =>
    let connected : Option State :=
      if card.card = none then
        if tr.sc_connect_card.1 ≠ SC_SUCCESS then none
        else some ((st.emit (Event.connect_card reader)).set_card reader
                     { card with card := some tr.sc_connect_card.2 })
      else some st
    match connected with
    | none => some (cfg.sc_to_cryptoki_error tr.sc_connect_card.1 reader,
                    st.emit (Event.connect_card reader))
    | some st1 =>
      match st1.card_table[reader]? with
      | none => none
      | some card1 =>
        if card1.framework = none then detect_framework cfg st1 reader
        else some (CKR_OK, st1)

/-- The presence check of `card_detect` from the label `again` on; `retry` is
the C variable of that name and `k` the number of presence queries already
made. -/
def card_detect_again (cfg : Config) (tr : Transport) (reader : Nat) :
    Nat → Nat → State → Option (CK_RV × State)
  | retry, k, st =>
    match st.context with
    | none => none
    | some ctx =>
      if ¬ reader < ctx.reader_count then none
      else
        let rc := tr.sc_detect_card_presence k
        let st1 := st.emit (Event.detect_card_presence reader)
        if rc < 0 then some (cfg.sc_to_cryptoki_error rc reader, st1)
        else if rc = 0 then
          match card_removed (st1.emit (Event.debug_card_absent reader)) reader with
          | none => none
          | some (_, st2) => some (CKR_TOKEN_NOT_PRESENT, st2)
        else if card_changed rc then
          let st2 := st1.emit (Event.debug_card_changed reader)
          match retry with
          | 0 => some (CKR_TOKEN_NOT_PRESENT, st2)
          | retry1 + 1 =>
            match card_removed st2 reader with
            | none => none
            | some (_, st3) => card_detect_again cfg tr reader retry1 (k + 1) st3
        else card_detect_known cfg tr st1 reader

def card_detect (cfg : Config) (tr : Transport) (st : State) (reader : Nat) :
    Option (CK_RV × State) :=
  card_detect_again cfg tr reader 1 0 st

/-- The loop of `card_detect_all` over the readers from `i` on; `trs i` is the
transport behaviour met by the `card_detect` of reader `i`. -/
def card_detect_readers (cfg : Config) (trs : Nat → Transport) : List Nat → State → Option State
  | [], st => some st
  | i :: rest, st =>
    match card_detect cfg (trs i) st i with
    | none => none
    | some (_, st1) => card_detect_readers cfg trs rest st1

def card_detect_all (cfg : Config) (trs : Nat → Transport) (st : State) : Option (CK_RV × State) :=
  match st.context with
  | none => some (CKR_CRYPTOKI_NOT_INITIALIZED, st)
  | some ctx =>
    match card_detect_readers cfg trs (List.range ctx.reader_count) st with
    | none => none
    | some st1 => some (CKR_OK, st1)

/-! ## Specification-side functions used in the statements -/

/-- The events of draining a whole pool, in order. -/
def pool_events : sc_pkcs11_pool → List Event
  | [] => []
  | item :: rest => drain_events item.item ++ pool_events rest

/-- The objects held in a pool, in order. -/
def pool_objects (pool : sc_pkcs11_pool) : List sc_pkcs11_object :=
  pool.map (fun item => item.item)

/-- The event of the step "Release framework stuff" for `slot`, when the step
calls `release_token`. -/
def release_events (st : State) (slot : sc_pkcs11_slot) : List Event :=
  match slot.card, slot.fw_data with
  | some c, some d =>
    match st.card_table[c]? with
    | some card =>
      match card.framework with
      | some fw => [Event.release_token fw c d]
      | none => []
    | none => []
  | _, _ => []

/-- The step "Release framework stuff" is defined for `slot`: when the slot
has a card reference and a framework context, the referenced entry exists and
has a framework. -/
def release_safe (st : State) (slot : sc_pkcs11_slot) : Bool :=
  match slot.card, slot.fw_data with
  | some c, some _ =>
    match st.card_table[c]? with
    | some card => card.framework.isSome
    | none => false
  | _, _ => true

/-- All events of the teardown of `slot` under the id `id`. -/
def teardown_events (st : State) (id : Int) (slot : sc_pkcs11_slot) : List Event :=
  Event.close_all_sessions id :: (pool_events slot.object_pool ++ release_events st slot)

/-- Slot `i` holds a card reference to an entry whose `reader` field is
`reader`: the test of the loop of `card_removed`. -/
def slot_of_reader (st : State) (reader i : Nat) : Bool :=
  match st.virtual_slots[i]? with
  | some slot =>
    match slot.card with
    | some c =>
      match st.card_table[c]? with
      | some card => decide (card.reader = reader)
      | none => false
    | none => false
  | none => false

/-- Events of the per-slot teardown: the calls made by `slot_token_removed`. -/
def is_slot_event : Event → Bool
  | Event.close_all_sessions _ => true
  | Event.pool_delete _ => true
  | Event.object_release _ => true
  | Event.release_token _ _ _ => true
  | _ => false

/-- The call of the framework's `unbind` made by `card_removed`. -/
def unbind_events (card : sc_pkcs11_card) (reader : Nat) : List Event :=
  match card.framework with
  | some fw => [Event.unbind fw reader]
  | none => []

/-- The call of `sc_disconnect_card` made by `card_removed`. -/
def disconnect_events (card : sc_pkcs11_card) : List Event :=
  match card.card with
  | some h => [Event.disconnect_card h]
  | none => []

/-- The card table entry as `card_removed` leaves it. -/
def removed_card (card : sc_pkcs11_card) : sc_pkcs11_card :=
  { card with framework := none, fw_data := none, card := none }

/-- A run of successful `slot_allocate` calls, one for each card index of the
list in turn; `none` when one of them does not return `CKR_OK`. -/
def slot_allocate_seq : List Nat → State → Option State
  | [], st => some st
  | c :: rest, st =>
    match slot_allocate st c with
    | some (rv, some _, st1) => if rv = CKR_OK then slot_allocate_seq rest st1 else none
    | _ => none

/-- The slot as `slot_allocate` leaves it when it claims it for the card entry
`c` whose connected card is `h`. -/
def claimed_slot (slot : sc_pkcs11_slot) (c : Nat) (h : sc_card) : sc_pkcs11_slot :=
  { slot with card := some c,
              slot_info := { slot.slot_info with slotDescription := strcpy_bp h.reader_name 64 } }

/-- The framework recognises the connected card `hd`: it has a `bind`
operation and this returns `CKR_OK` on the card. -/
def recognises (fw : sc_pkcs11_framework_ops) (hd : sc_card) : Bool :=
  match fw.bind with
  | some b => decide ((b hd).1 = CKR_OK)
  | none => false

/-- Events of the connection and framework detection of `card_detect`. -/
def is_binding_event : Event → Bool
  | Event.connect_card _ => true
  | Event.bind _ _ => true
  | Event.create_tokens _ _ => true
  | _ => false

/-- The slot budget that `card_detect` gives a card: the configured
slots-per-card, or the default when that is 0. -/
def slot_budget (cfg : Config) : Nat :=
  if cfg.conf_num_slots = 0 then cfg.SC_PKCS11_DEF_SLOTS_PER_CARD else cfg.conf_num_slots

def is_presence_query : Event → Bool
  | Event.detect_card_presence _ => true
  | _ => false

def is_card_changed : Event → Bool
  | Event.debug_card_changed _ => true
  | _ => false

def is_removal : Event → Bool
  | Event.debug_smartcard_removed _ => true
  | _ => false

/-- Number of presence queries in a trace. -/
def presence_queries (evs : List Event) : Nat := evs.countP is_presence_query

/-- Number of runs of `card_removed` in a trace. -/
def removals (evs : List Event) : Nat := evs.countP is_removal

/-- Number of change-triggered removals in a trace: the places where the
line "Card changed" is directly followed by the line "SmartCard removed" that
opens `card_removed`. -/
def change_removals : List Event → Nat
  | [] => 0
  | e :: rest =>
    (match rest with
      | e2 :: _ => if is_card_changed e && is_removal e2 then 1 else 0
      | [] => 0) + change_removals rest

/-- Events other than a presence query, "Card changed" and "SmartCard
removed". -/
def is_quiet (e : Event) : Bool :=
  !is_presence_query e && !is_card_changed e && !is_removal e

/-! ## Initialisation and reachable states -/

/-- The module's globals before initialisation: the context is set, the
tables are all zero. -/
def zero_state (ctx : sc_context) (n_slots : Nat) : State :=
  { context := some ctx
    card_table := List.replicate ctx.reader_count zero_card
    virtual_slots := List.replicate n_slots zero_slot
    log := [] }

/-- `card_initialize` on each reader of the list in turn. -/
def startup_cards : List Nat → State → Option State
  | [], st => some st
  | r :: rest, st =>
    match card_initialize st r with
    | none => none
    | some (_, st1) => startup_cards rest st1

/-- `slot_initialize(i, &virtual_slots[i])` on each index of the list in
turn. -/
def startup_slots : List Nat → State → Option State
  | [], st => some st
  | i :: rest, st =>
    match st.virtual_slots[i]? with
    | none => none
    | some slot => startup_slots rest (st.set_slot i ( slot_initialize (i : Int) slot).2)

/-- Initialisation: `card_initialize` on every reader, then `slot_initialize`
on every slot. -/
def startup (ctx : sc_context) (n_slots : Nat) : Option State :=
  match startup_cards (List.range ctx.reader_count) (zero_state ctx n_slots) with
  | none => none
  | some st1 => startup_slots (List.range n_slots) st1

/-- States reachable from initialisation by `slot_allocate`,
`slot_token_removed`, `card_removed` and `card_detect`, each under any
arguments and any behaviour of the transport. -/
inductive reachable (cfg : Config) : State → Prop where
  | init (ctx : sc_context) (n_slots : Nat) (st : State) :
      startup ctx n_slots = some st → reachable cfg st
  | allocate (st st' : State) (c : Nat) (rv : CK_RV) (r : Option Nat) :
      reachable cfg st → slot_allocate st c = some (rv, r, st') → reachable cfg st'
  | token_removed (st st' : State) (id : Int) (rv : CK_RV) :
      reachable cfg st → slot_token_removed st id = some (rv, st') → reachable cfg st'
  | removed (st st' : State) (reader : Nat) (rv : CK_RV) :
      reachable cfg st → card_removed st reader = some (rv, st') → reachable cfg st'
  | detect (st st' : State) (tr : Transport) (reader : Nat) (rv : CK_RV) :
      reachable cfg st → card_detect cfg tr st reader = some (rv, st') → reachable cfg st'

/-- The budget invariant: `num_slots <= max_slots` in every entry of the card
table. -/
def budget_ok (st : State) : Prop :=
  ∀ card ∈ st.card_table, card.num_slots ≤ card.max_slots

/-- Number of virtual slots whose card reference points at the entry `c`. -/
def referencing_slots (st : State) (c : Nat) : Nat :=
  st.virtual_slots.countP (fun slot => decide (slot.card = some c))

/-- The slot accounting of the spec: every entry's `num_slots` is the number
of slots that refer to it. -/
def accounting_ok (st : State) : Prop :=
  ∀ (c : Nat) (card : sc_pkcs11_card), st.card_table[c]? = some card →
    card.num_slots = referencing_slots st c

/-- The state is as the initialisation and the operations of the module leave
it: the context is set, and every card table entry carries its own index in
its `reader` field (written by `card_initialize` only). -/
def wellformed (st : State) : Prop :=
  st.context ≠ none ∧
    ∀ (c : Nat) (card : sc_pkcs11_card), st.card_table[c]? = some card → card.reader = c

/-! ## Example states -/

def ex_card : sc_card := { handle := 1, reader_name := String.toList "Reader 0" }

def ex_object_a : sc_pkcs11_object := { ident := 10, has_release := true }

def ex_object_b : sc_pkcs11_object := { ident := 11, has_release := false }

def ex_slot (id : Int) (card fw_data : Option Nat) (pool : sc_pkcs11_pool) : sc_pkcs11_slot :=
  { id := id, login_user := -1, slot_info := init_slot_info zero_slot_info, card := card,
    fw_data := fw_data, object_pool := pool }

/-- Two readers and four virtual slots; reader 0 holds a bound card that owns
slots 0 and 1, slot 0 with two objects in its pool. -/
def ex_state : State :=
  { context := some { reader_count := 2 }
    card_table :=
      [ { reader := 0, card := some ex_card, framework := some 0, fw_data := some 7,
          max_slots := 4, num_slots := 2 },
        { zero_card with reader := 1 } ]
    virtual_slots :=
      [ ex_slot 0 (some 0) (some 5) [⟨1, ex_object_a⟩, ⟨2, ex_object_b⟩],
        ex_slot 1 (some 0) none [],
        ex_slot 2 none none [],
        ex_slot 3 none none [] ]
    log := [] }

/-- The state `ex_state` after `card_removed` for reader 0. -/
def ex_state_removed : State :=
  { context := some { reader_count := 2 }
    card_table :=
      [ { reader := 0, card := none, framework := none, fw_data := none,
          max_slots := 4, num_slots := 2 },
        { zero_card with reader := 1 } ]
    virtual_slots := [zapped_slot, zapped_slot, ex_slot 2 none none [], ex_slot 3 none none []]
    log :=
      [ Event.debug_smartcard_removed 0,
        Event.close_all_sessions 0,
        Event.pool_delete ex_object_a, Event.object_release ex_object_a,
        Event.pool_delete ex_object_b,
        Event.release_token 0 0 5,
        Event.close_all_sessions 1,
        Event.unbind 0 0,
        Event.disconnect_card ex_card ] }

/-- A state whose context is not initialised while slot 0 refers to the card
table entry of reader 0. -/
def ex_state_no_context : State :=
  { context := none
    card_table := [ { reader := 0, card := none, framework := none, fw_data := none,
                      max_slots := 4, num_slots := 1 } ]
    virtual_slots := [ex_slot 0 (some 0) none []]
    log := [] }

/-- Reader 0 holds a connected card with a budget of two slots and none
allocated; the four virtual slots are free. -/
def ex_state_fresh : State :=
  { context := some { reader_count := 2 }
    card_table :=
      [ { reader := 0, card := some ex_card, framework := none, fw_data := none,
          max_slots := 2, num_slots := 0 },
        { zero_card with reader := 1 } ]
    virtual_slots :=
      [ex_slot 0 none none [], ex_slot 1 none none [], ex_slot 2 none none [],
        ex_slot 3 none none []]
    log := [] }

/-- The state `ex_state_fresh` after two allocations for reader 0. -/
def ex_state_two_slots : State :=
  { ex_state_fresh with
    card_table :=
      [ { reader := 0, card := some ex_card, framework := none, fw_data := none,
          max_slots := 2, num_slots := 2 },
        { zero_card with reader := 1 } ]
    virtual_slots :=
      [claimed_slot (ex_slot 0 none none []) 0 ex_card,
        claimed_slot (ex_slot 1 none none []) 0 ex_card,
        ex_slot 2 none none [], ex_slot 3 none none []] }

/-- A pool of two slots, both taken by reader 0, whose card has budget left. -/
def ex_state_full : State :=
  { context := some { reader_count := 2 }
    card_table :=
      [ { reader := 0, card := some ex_card, framework := some 0, fw_data := none,
          max_slots := 4, num_slots := 2 },
        { reader := 1, card := some ex_card, framework := none, fw_data := none,
          max_slots := 4, num_slots := 0 } ]
    virtual_slots := [ex_slot 0 (some 0) none [], ex_slot 1 (some 0) none []]
    log := [] }

/-- A state whose context is not initialised; slot 0 holds two objects. -/
def ex_state_no_context_pool : State :=
  { context := none
    card_table := [ { zero_card with reader := 0 } ]
    virtual_slots := [ex_slot 0 none none [⟨1, ex_object_a⟩, ⟨2, ex_object_b⟩]]
    log := [] }

/-- A transport that reports the card present and unchanged; connecting
succeeds. -/
def ex_transport_present : Transport :=
  { sc_detect_card_presence := fun _ => 1
    sc_connect_card := (SC_SUCCESS, ex_card) }

/-- A framework that recognises every card and creates one token. -/
def ex_framework_good : sc_pkcs11_framework_ops :=
  { bind := some (fun _ => (CKR_OK, some 1))
    create_tokens := fun _ => ([{ fw_data := some 9, token_present := true }], CKR_OK) }

/-- A framework that recognises no card. -/
def ex_framework_blind : sc_pkcs11_framework_ops :=
  { bind := some (fun _ => (CKR_TOKEN_NOT_RECOGNIZED, none))
    create_tokens := fun _ => ([], CKR_OK) }

/-- A framework that recognises every card, allocates one slot in
`create_tokens` and then fails with the error 5. -/
def ex_framework_failing : sc_pkcs11_framework_ops :=
  { bind := some (fun _ => (CKR_OK, some 1))
    create_tokens := fun _ => ([{ fw_data := some 9, token_present := false }], 5) }

def ex_config (frameworks : List sc_pkcs11_framework_ops) : Config :=
  { frameworks := frameworks
    conf_num_slots := 0
    SC_PKCS11_DEF_SLOTS_PER_CARD := 4
    sc_to_cryptoki_error := fun _ _ => 5 }

/-- Slot 0 of `ex_state_fresh` after a framework's `create_tokens` claimed it
for reader 0 and stored the framework context 9 in it. -/
def ex_token_slot (token_present : Bool) : sc_pkcs11_slot :=
  { id := 0, login_user := -1,
    slot_info :=
      { init_slot_info zero_slot_info with
        slotDescription := strcpy_bp ex_card.reader_name 64
        flags := if token_present then (CKF_REMOVABLE_DEVICE ||| CKF_HW_SLOT) ||| CKF_TOKEN_PRESENT
                 else CKF_REMOVABLE_DEVICE ||| CKF_HW_SLOT }
    card := some 0, fw_data := some 9, object_pool := [] }

/-- The state `ex_state_fresh` after a `card_detect` of reader 0 in which the
framework of registry index `fw` was bound and created one token. -/
def ex_state_detected (fw : Nat) (binds : List Event) : State :=
  { context := some { reader_count := 2 }
    card_table :=
      [ { reader := 0, card := some ex_card, framework := some fw, fw_data := some 1,
          max_slots := 4, num_slots := 1 },
        { zero_card with reader := 1 } ]
    virtual_slots :=
      [ex_token_slot true, ex_slot 1 none none [], ex_slot 2 none none [], ex_slot 3 none none []]
    log := Event.detect_card_presence 0 :: (binds ++ [Event.create_tokens fw 0]) }

/-- The state `ex_state_fresh` after a `card_detect` of reader 0 in which the
framework `ex_framework_failing` was bound and its `create_tokens` failed. -/
def ex_state_failed : State :=
  { context := some { reader_count := 2 }
    card_table :=
      [ { reader := 0, card := some ex_card, framework := none, fw_data := some 1,
          max_slots := 4, num_slots := 1 },
        { zero_card with reader := 1 } ]
    virtual_slots :=
      [ex_token_slot false, ex_slot 1 none none [], ex_slot 2 none none [],
        ex_slot 3 none none []]
    log := [Event.detect_card_presence 0, Event.bind 0 0, Event.create_tokens 0 0] }

/-- A transport that answers "present, changed" to every presence query. -/
def ex_transport_changed : Transport :=
  { sc_detect_card_presence := fun _ => 3
    sc_connect_card := (SC_SUCCESS, ex_card) }

/-- A transport that answers "present, changed" to the first presence query
and reports an error on the second. -/
def ex_transport_changed_then_error : Transport :=
  { sc_detect_card_presence := fun k => if k = 0 then 3 else -1
    sc_connect_card := (SC_SUCCESS, ex_card) }

/-- A transport whose presence query reports an error. -/
def ex_transport_error : Transport :=
  { sc_detect_card_presence := fun _ => -1
    sc_connect_card := (SC_SUCCESS, ex_card) }

/-- The states met by a sweep over the two readers of `ex_state` under
`ex_transport_error`: before reader 0, before reader 1, at the end. -/
def ex_sweep_states : Nat → State
  | 0 => ex_state
  | 1 => ex_state.emit (Event.detect_card_presence 0)
  | _ => (ex_state.emit (Event.detect_card_presence 0)).emit (Event.detect_card_presence 1)

/-- A transport that answers "present, changed" to the first presence query
and "present" to the second; connecting succeeds. -/
def ex_transport_swapped : Transport :=
  { sc_detect_card_presence := fun k => if k = 0 then 3 else 1
    sc_connect_card := (SC_SUCCESS, ex_card) }

/-- The state after initialisation with two readers and four slots. -/
def ex_initial : State :=
  { context := some { reader_count := 2 }
    card_table := [{ zero_card with reader := 0 }, { zero_card with reader := 1 }]
    virtual_slots :=
      [ex_slot 0 none none [], ex_slot 1 none none [], ex_slot 2 none none [],
        ex_slot 3 none none []]
    log := [] }

/-- The state `ex_initial` after `card_detect` of reader 0 bound the framework
`ex_framework_good`, which created one token in slot 0, and
`slot_token_removed(0)` then released that slot. -/
def ex_state_released : State :=
  { context := some { reader_count := 2 }
    card_table :=
      [ { reader := 0, card := some ex_card, framework := some 0, fw_data := some 1,
          max_slots := 4, num_slots := 1 },
        { zero_card with reader := 1 } ]
    virtual_slots :=
      [zapped_slot, ex_slot 1 none none [], ex_slot 2 none none [], ex_slot 3 none none []]
    log := [Event.detect_card_presence 0, Event.connect_card 0, Event.bind 0 0,
      Event.create_tokens 0 0, Event.close_all_sessions 0, Event.release_token 0 0 9] }

/-- The configuration `ex_config [ex_framework_good]` with the slots-per-card
override set to 7. -/
def ex_config_override : Config :=
  { ex_config [ex_framework_good] with conf_num_slots := 7 }

/-- The state `ex_initial` after `card_detect` of reader 0 under
`ex_config_override`: as `ex_state_detected`, with the budget 7. -/
def ex_state_detected_override : State :=
  { ex_state_detected 0 [Event.connect_card 0, Event.bind 0 0] with
    card_table :=
      [ { reader := 0, card := some ex_card, framework := some 0, fw_data := some 1,
          max_slots := 7, num_slots := 1 },
        { zero_card with reader := 1 } ] }

/-! ## Lemmas on the slot teardown -/

theorem pool_find_and_delete_zero_cons (item : sc_pkcs11_pool_item) (rest : sc_pkcs11_pool) :
    pool_find_and_delete (item :: rest) 0 = some (item.item, rest) := by
  simp [pool_find_and_delete]

theorem drain_object_pool_total (pool : sc_pkcs11_pool) :
    ∀ (fuel : Nat) (log : List Event), pool.length < fuel →
      drain_object_pool fuel pool log = some ([], log ++ pool_events pool) := by
  induction pool with
  | nil =>
    intro fuel log h
    cases fuel with
    | zero => simp at h
    | succ n => simp [drain_object_pool, pool_find_and_delete, pool_events]
  | cons item rest ih =>
    intro fuel log h
    cases fuel with
    | zero => simp at h
    | succ n =>
      have h1 : rest.length < n := by simpa using h
      simp [drain_object_pool, pool_find_and_delete_zero_cons, ih n _ h1, pool_events,
        List.append_assoc]

theorem release_framework_stuff_eq (st : State) (slot : sc_pkcs11_slot) :
    release_framework_stuff st slot =
      if release_safe st slot then some { st with log := st.log ++ release_events st slot }
      else none := by
  unfold release_framework_stuff release_events release_safe
  cases hc : slot.card with
  | none => simp
  | some c =>
    cases hd : slot.fw_data with
    | none => simp
    | some d =>
      simp only
      cases hcard : st.card_table[c]? with
      | none => simp
      | some card =>
        simp only
        cases hfw : card.framework with
        | none => simp
        | some fw => simp [State.emit]

theorem slot_get_slot_of_lt (st : State) (i : Nat) (ctx : sc_context)
    (hctx : st.context = some ctx) (hi : i < st.virtual_slots.length) :
    slot_get_slot st (i : Int) = (CKR_OK, some i) := by
  simp [slot_get_slot, hctx, SC_PKCS11_MAX_VIRTUAL_SLOTS, hi]

theorem slot_token_removed_uninitialized (st : State) (id : Int) (hctx : st.context = none) :
    slot_token_removed st id = some (CKR_CRYPTOKI_NOT_INITIALIZED, st) := by
  simp [slot_token_removed, slot_get_slot, hctx]

/-- The state that `slot_token_removed` leaves for the slot of index `i`. -/
theorem slot_token_removed_eq (st : State) (i : Nat) (slot : sc_pkcs11_slot) (ctx : sc_context)
    (hctx : st.context = some ctx) (hslot : st.virtual_slots[i]? = some slot) :
    slot_token_removed st (i : Int) =
      if release_safe st slot then
        some (CKR_OK, { st with virtual_slots := st.virtual_slots.set i zapped_slot,
                                log := st.log ++ teardown_events st (i : Int) slot })
      else none := by
  have hi : i < st.virtual_slots.length := by
    rcases List.getElem?_eq_some.1 hslot with ⟨h, _⟩
    exact h
  have hsafe : ∀ (vs : List sc_pkcs11_slot) (lg : List Event),
      release_safe { st with virtual_slots := vs, log := lg } slot = release_safe st slot := by
    intro vs lg; rfl
  have hrel : ∀ (vs : List sc_pkcs11_slot) (lg : List Event),
      release_events { st with virtual_slots := vs, log := lg } slot = release_events st slot := by
    intro vs lg; rfl
  unfold slot_token_removed
  rw [slot_get_slot_of_lt st i ctx hctx hi]
  simp only [ne_eq, not_true_eq_false, if_false]
  unfold slot_teardown
  simp only [hslot]
  rw [drain_object_pool_total slot.object_pool _ _ (Nat.lt_succ_self _)]
  simp only [release_framework_stuff_eq, State.emit, hsafe, hrel]
  by_cases hs : release_safe st slot = true
  · simp [hs, State.set_slot, teardown_events, List.append_assoc]
  · simp [hs]

theorem pool_events_slot (pool : sc_pkcs11_pool) : ∀ e ∈ pool_events pool, is_slot_event e = true := by
  induction pool with
  | nil => simp [pool_events]
  | cons item rest ih =>
    intro e he
    simp only [pool_events, List.mem_append] at he
    rcases he with he | he
    · unfold drain_events at he
      split at he
      · simp only [List.mem_cons, List.mem_singleton, List.not_mem_nil, or_false] at he
        rcases he with he | he <;> simp [he, is_slot_event]
      · simp only [List.mem_singleton] at he
        simp [he, is_slot_event]
    · exact ih e he

theorem teardown_events_slot (st : State) (id : Int) (slot : sc_pkcs11_slot) :
    ∀ e ∈ teardown_events st id slot, is_slot_event e = true := by
  intro e he
  simp only [teardown_events, List.mem_cons, List.mem_append] at he
  rcases he with he | he | he
  · simp [he, is_slot_event]
  · exact pool_events_slot _ e he
  · unfold release_events at he
    split at he
    · split at he
      · split at he
        · simp at he; simp [he, is_slot_event]
        · simp at he
      · simp at he
    · simp at he

/-! ## Lemmas on the loop of `card_removed` -/

theorem slot_of_reader_true (st : State) (reader i : Nat) (h : slot_of_reader st reader i = true) :
    ∃ slot c card, st.virtual_slots[i]? = some slot ∧ slot.card = some c ∧
      st.card_table[c]? = some card ∧ card.reader = reader := by
  unfold slot_of_reader at h
  cases hs : st.virtual_slots[i]? with
  | none => simp [hs] at h
  | some slot =>
    simp only [hs] at h
    cases hc : slot.card with
    | none => simp [hc] at h
    | some c =>
      simp only [hc] at h
      cases hk : st.card_table[c]? with
      | none => simp [hk] at h
      | some card =>
        simp only [hk, decide_eq_true_eq] at h
        exact ⟨slot, c, card, rfl, hc, hk, h⟩

theorem slot_of_reader_intro (st : State) (reader i : Nat) (slot : sc_pkcs11_slot) (c : Nat)
    (card : sc_pkcs11_card) (hs : st.virtual_slots[i]? = some slot) (hc : slot.card = some c)
    (hk : st.card_table[c]? = some card) :
    slot_of_reader st reader i = decide (card.reader = reader) := by
  simp [slot_of_reader, hs, hc, hk]

/-- One round of the loop, context initialised: either the slot belongs to
the reader and is torn down, or the state is unchanged. -/
theorem card_removed_step_cases (reader : Nat) (st st1 : State) (i : Nat) (ctx : sc_context)
    (hctx : st.context = some ctx) (h : card_removed_step reader st i = some st1) :
    (slot_of_reader st reader i = true ∧ ∃ slot, st.virtual_slots[i]? = some slot ∧
        release_safe st slot = true ∧
        st1 = { st with virtual_slots := st.virtual_slots.set i zapped_slot,
                        log := st.log ++ teardown_events st (i : Int) slot }) ∨
    (slot_of_reader st reader i = false ∧ st1 = st) := by
  unfold card_removed_step at h
  cases hs : st.virtual_slots[i]? with
  | none => simp [hs] at h
  | some slot =>
    simp only [hs] at h
    cases hc : slot.card with
    | none =>
      simp only [hc, Option.some.injEq] at h
      right
      exact ⟨by simp [slot_of_reader, hs, hc], h.symm⟩
    | some c =>
      simp only [hc] at h
      cases hk : st.card_table[c]? with
      | none => simp [hk] at h
      | some card =>
        simp only [hk] at h
        by_cases hr : card.reader = reader
        · left
          simp only [hr, if_true] at h
          rw [slot_token_removed_eq st i slot ctx hctx hs] at h
          by_cases hsafe : release_safe st slot = true
          · simp only [hsafe, if_true, Option.some.injEq] at h
            refine ⟨?_, slot, rfl, hsafe, h.symm⟩
            rw [slot_of_reader_intro st reader i slot c card hs hc hk]
            simp [hr]
          · simp [hsafe] at h
        · right
          simp only [hr, if_false, Option.some.injEq] at h
          refine ⟨?_, h.symm⟩
          rw [slot_of_reader_intro st reader i slot c card hs hc hk]
          simp [hr]

/-- One round of the loop, context not initialised: the state is unchanged. -/
theorem card_removed_step_uninitialized (reader : Nat) (st st1 : State) (i : Nat)
    (hctx : st.context = none) (h : card_removed_step reader st i = some st1) : st1 = st := by
  unfold card_removed_step at h
  cases hs : st.virtual_slots[i]? with
  | none => simp [hs] at h
  | some slot =>
    simp only [hs] at h
    cases hc : slot.card with
    | none => simp only [hc, Option.some.injEq] at h; exact h.symm
    | some c =>
      simp only [hc] at h
      cases hk : st.card_table[c]? with
      | none => simp [hk] at h
      | some card =>
        simp only [hk, slot_token_removed_uninitialized st _ hctx] at h
        split at h <;> simp at h <;> exact h.symm

theorem card_removed_step_lookup (reader : Nat) (st st1 : State) (i : Nat)
    (h : card_removed_step reader st i = some st1) :
    ∃ slot, st.virtual_slots[i]? = some slot ∧
      ∀ c, slot.card = some c → ∃ card, st.card_table[c]? = some card := by
  unfold card_removed_step at h
  cases hs : st.virtual_slots[i]? with
  | none => simp [hs] at h
  | some slot =>
    refine ⟨slot, rfl, ?_⟩
    intro c hc
    simp only [hs, hc] at h
    cases hk : st.card_table[c]? with
    | none => simp [hk] at h
    | some card => exact ⟨card, rfl⟩

theorem slot_of_reader_zapped (st : State) (reader i j : Nat) (lg : List Event) :
    slot_of_reader { st with virtual_slots := st.virtual_slots.set i zapped_slot, log := lg }
        reader j = if j = i then false else slot_of_reader st reader j := by
  unfold slot_of_reader
  by_cases hji : j = i
  · subst hji
    simp only [if_true]
    rw [List.getElem?_set]
    simp only [if_true]
    by_cases hlt : j < st.virtual_slots.length
    · simp [hlt, zapped_slot, zero_slot]
    · simp [hlt]
  · simp only [hji, if_false]
    rw [List.getElem?_set_ne (Ne.symm hji)]

/-- One round of the loop, all cases. -/
theorem card_removed_step_spec (reader : Nat) (st st1 : State) (i : Nat)
    (h : card_removed_step reader st i = some st1) :
    ((slot_of_reader st reader i = false ∨ st.context = none) ∧ st1 = st) ∨
    (st.context ≠ none ∧ slot_of_reader st reader i = true ∧
      ∃ slot, st.virtual_slots[i]? = some slot ∧ release_safe st slot = true ∧
        st1 = { st with virtual_slots := st.virtual_slots.set i zapped_slot,
                        log := st.log ++ teardown_events st (i : Int) slot }) := by
  by_cases hctx : st.context = none
  · exact Or.inl ⟨Or.inr hctx, card_removed_step_uninitialized reader st st1 i hctx h⟩
  · obtain ⟨ctx, hsome⟩ := Option.ne_none_iff_exists'.1 hctx
    rcases card_removed_step_cases reader st st1 i ctx hsome h with ⟨hsor, hrest⟩ | ⟨hsor, hst⟩
    · exact Or.inr ⟨hctx, hsor, hrest⟩
    · exact Or.inl ⟨Or.inl hsor, hst⟩

/-- The loop of `card_removed`: what it leaves when it returns. -/
theorem card_removed_slots_spec (reader : Nat) :
    ∀ (idxs : List Nat) (st st' : State), card_removed_slots reader idxs st = some st' →
      st'.context = st.context ∧ st'.card_table = st.card_table ∧
      (∀ j, st'.virtual_slots[j]? =
        if j ∈ idxs ∧ slot_of_reader st reader j = true ∧ st.context ≠ none then
          some zapped_slot else st.virtual_slots[j]?) ∧
      (∀ j ∈ idxs, ∃ slot, st.virtual_slots[j]? = some slot ∧
        ∀ c, slot.card = some c → ∃ card, st.card_table[c]? = some card) ∧
      ∃ evs, st'.log = st.log ++ evs ∧ (∀ e ∈ evs, is_slot_event e = true) ∧
        (((∀ j ∈ idxs, slot_of_reader st reader j = false) ∨ st.context = none) → evs = []) := by
  intro idxs
  induction idxs with
  | nil =>
    intro st st' h
    simp only [card_removed_slots, Option.some.injEq] at h
    subst h
    simp
  | cons i rest ih =>
    intro st st' h
    simp only [card_removed_slots] at h
    cases hstep : card_removed_step reader st i with
    | none => simp [hstep] at h
    | some st1 =>
      simp only [hstep] at h
      have hlook := card_removed_step_lookup reader st st1 i hstep
      obtain ⟨hc1, hk1, hs1, hl1, evs1, hlog1, hev1, hnil1⟩ := ih st1 st' h
      rcases card_removed_step_spec reader st st1 i hstep with
        ⟨hno, hst⟩ | ⟨hctx, hsor, slot, hslot, _, hst⟩
      · subst hst
        refine ⟨hc1, hk1, ?_, ?_, evs1, hlog1, hev1, ?_⟩
        · intro j
          rw [hs1 j]
          by_cases hji : j = i
          · subst hji
            have hfalse : ¬ (slot_of_reader st1 reader j = true ∧ st1.context ≠ none) := by
              rintro ⟨ha, hb⟩
              rcases hno with hno | hno
              · rw [hno] at ha; exact Bool.false_ne_true ha
              · exact hb hno
            have h1 : ¬ (j ∈ rest ∧ slot_of_reader st1 reader j = true ∧ st1.context ≠ none) :=
              fun hx => hfalse hx.2
            have h2 : ¬ (j ∈ j :: rest ∧ slot_of_reader st1 reader j = true ∧ st1.context ≠ none) :=
              fun hx => hfalse hx.2
            rw [if_neg h1, if_neg h2]
          · simp only [List.mem_cons, hji, false_or]
        · intro j hj
          rcases List.mem_cons.1 hj with hji | hjr
          · subst hji; exact hlook
          · exact hl1 j hjr
        · intro hprem
          apply hnil1
          rcases hprem with hprem | hprem
          · exact Or.inl (fun j hj => hprem j (List.mem_cons_of_mem _ hj))
          · exact Or.inr hprem
      · have hi : i < st.virtual_slots.length := by
          rcases List.getElem?_eq_some.1 hslot with ⟨hlt, _⟩
          exact hlt
        have hctx1 : st1.context = st.context := by rw [hst]
        have hk : st1.card_table = st.card_table := by rw [hst]
        have hvs : st1.virtual_slots = st.virtual_slots.set i zapped_slot := by rw [hst]
        have hlg : st1.log = st.log ++ teardown_events st (i : Int) slot := by rw [hst]
        have hsor1 : ∀ j, slot_of_reader st1 reader j =
            if j = i then false else slot_of_reader st reader j := by
          intro j; rw [hst]; exact slot_of_reader_zapped st reader i j _
        refine ⟨hc1.trans hctx1, hk1.trans hk, ?_, ?_, teardown_events st (i : Int) slot ++ evs1,
          ?_, ?_, ?_⟩
        · intro j
          rw [hs1 j, hsor1 j, hctx1, hvs]
          by_cases hji : j = i
          · subst hji
            have h2 : j ∈ j :: rest ∧ slot_of_reader st reader j = true ∧ st.context ≠ none :=
              ⟨List.mem_cons_self _ _, hsor, hctx⟩
            rw [if_pos h2]
            simp [hi]
          · simp only [hji, if_false, List.mem_cons, false_or]
            rw [List.getElem?_set_ne (Ne.symm hji)]
        · intro j hj
          rcases List.mem_cons.1 hj with hji | hjr
          · subst hji; exact hlook
          · by_cases hji : j = i
            · subst hji; exact hlook
            · obtain ⟨slot1, hslot1, hcard1⟩ := hl1 j hjr
              rw [hvs, List.getElem?_set_ne (Ne.symm hji)] at hslot1
              rw [hk] at hcard1
              exact ⟨slot1, hslot1, hcard1⟩
        · rw [hlog1, hlg, List.append_assoc]
        · intro e he
          rcases List.mem_append.1 he with he | he
          · exact teardown_events_slot st _ slot e he
          · exact hev1 e he
        · intro hprem
          rcases hprem with hprem | hprem
          · have := hprem i (List.mem_cons_self _ _)
            rw [hsor] at this
            exact absurd this (by simp)
          · exact absurd hprem hctx

/-- The loop of `card_removed` returns the state unchanged when every
visited slot is free, or refers to an existing entry which is either of
another reader or met with the context not initialised. -/
theorem card_removed_slots_stable (reader : Nat) (st : State) :
    ∀ (idxs : List Nat),
      (∀ j ∈ idxs, ∃ slot, st.virtual_slots[j]? = some slot ∧
        ∀ c, slot.card = some c → ∃ card, st.card_table[c]? = some card ∧
          (card.reader = reader → st.context = none)) →
      card_removed_slots reader idxs st = some st := by
  intro idxs
  induction idxs with
  | nil => intro _; rfl
  | cons i rest ih =>
    intro h
    obtain ⟨slot, hslot, hcard⟩ := h i (List.mem_cons_self _ _)
    have hstep : card_removed_step reader st i = some st := by
      unfold card_removed_step
      simp only [hslot]
      cases hc : slot.card with
      | none => rfl
      | some c =>
        obtain ⟨card, hk, hr⟩ := hcard c hc
        simp only [hk]
        by_cases hrd : card.reader = reader
        · simp [hrd, slot_token_removed_uninitialized st _ (hr hrd)]
        · simp [hrd]
    simp only [card_removed_slots, hstep]
    exact ih (fun j hj => h j (List.mem_cons_of_mem _ hj))

/-- The part of `card_removed` after its loop. -/
theorem card_removed_of_loop (st st1 : State) (reader : Nat) (card : sc_pkcs11_card)
    (hloop : card_removed_slots reader (List.range st.virtual_slots.length)
      (st.emit (Event.debug_smartcard_removed reader)) = some st1)
    (hcard : st1.card_table[reader]? = some card) :
    card_removed st reader =
      some (CKR_OK, { st1 with card_table := st1.card_table.set reader (removed_card card),
                               log := st1.log ++ (unbind_events card reader ++
                                 disconnect_events card) }) := by
  have hloop' : card_removed_slots reader
      (List.range (SC_PKCS11_MAX_VIRTUAL_SLOTS (st.emit (Event.debug_smartcard_removed reader))))
      (st.emit (Event.debug_smartcard_removed reader)) = some st1 := hloop
  unfold card_removed
  simp only [hloop', hcard]
  unfold unbind_events disconnect_events removed_card
  cases card.framework <;> cases card.card <;> simp [State.emit, State.set_card]

/-- What `card_removed` leaves when it returns. -/
theorem card_removed_spec (st st' : State) (reader : Nat) (rv : CK_RV)
    (h : card_removed st reader = some (rv, st')) :
    rv = CKR_OK ∧ st'.context = st.context ∧
    ∃ card, st.card_table[reader]? = some card ∧
      st'.card_table = st.card_table.set reader (removed_card card) ∧
      (∀ j, st'.virtual_slots[j]? =
        if j < st.virtual_slots.length ∧ slot_of_reader st reader j = true ∧ st.context ≠ none
        then some zapped_slot else st.virtual_slots[j]?) ∧
      (∀ j, j < st.virtual_slots.length → ∃ slot, st.virtual_slots[j]? = some slot ∧
        ∀ c, slot.card = some c → ∃ card1, st.card_table[c]? = some card1) ∧
      ∃ evs, (∀ e ∈ evs, is_slot_event e = true) ∧
        (((∀ j, j < st.virtual_slots.length → slot_of_reader st reader j = false) ∨
            st.context = none) → evs = []) ∧
        st'.log = st.log ++ Event.debug_smartcard_removed reader ::
          (evs ++ (unbind_events card reader ++ disconnect_events card)) := by
  unfold card_removed at h
  simp only [SC_PKCS11_MAX_VIRTUAL_SLOTS] at h
  cases hloop : card_removed_slots reader
      (List.range (st.emit (Event.debug_smartcard_removed reader)).virtual_slots.length)
      (st.emit (Event.debug_smartcard_removed reader)) with
  | none => simp [hloop] at h
  | some st1 =>
    simp only [hloop] at h
    obtain ⟨hc1, hk1, hs1, hl1, evs, hlog1, hev, hnil⟩ :=
      card_removed_slots_spec reader _ _ st1 hloop
    have hk1' : st1.card_table = st.card_table := hk1
    have hc1' : st1.context = st.context := hc1
    cases hcard : st1.card_table[reader]? with
    | none => simp [hcard] at h
    | some card =>
      simp only [hcard, Option.some.injEq, Prod.mk.injEq] at h
      obtain ⟨hrv, hst'⟩ := h
      refine ⟨hrv.symm, ?_, card, ?_, ?_, ?_, ?_, evs, hev, ?_, ?_⟩
      · rw [← hst']
        cases card.framework <;> cases card.card <;> exact hc1'
      · rw [← hk1']; exact hcard
      · rw [← hst', ← hk1']
        cases card.framework <;> cases card.card <;> rfl
      · intro j
        have : st'.virtual_slots = st1.virtual_slots := by
          rw [← hst']
          cases card.framework <;> cases card.card <;> rfl
        rw [this, hs1 j]
        simp only [List.mem_range]
        rfl
      · intro j hj
        exact hl1 j (List.mem_range.2 hj)
      · intro hprem
        apply hnil
        rcases hprem with hprem | hprem
        · exact Or.inl (fun j hj => hprem j (List.mem_range.1 hj))
        · exact Or.inr hprem
      · have hlog1' : st1.log = st.log ++ [Event.debug_smartcard_removed reader] ++ evs := hlog1
        rw [← hst']
        unfold unbind_events disconnect_events
        cases card.framework <;> cases card.card <;>
          simp [State.emit, State.set_card, hlog1']

/-! ## C2: `card_removed` twice -/

/-- C2: a second `card_removed(reader)` directly after a first one returns
`CKR_OK`, writes its debug line and calls no collaborator (no unbind, no
disconnect, no close-all-sessions, no release_token), and leaves the context,
the card table and the slot pool as the first call left them. -/
theorem card_removed_idempotent (st st1 : State) (reader : Nat) (rv : CK_RV)
    (h : card_removed st reader = some (rv, st1)) :
    card_removed st1 reader = some (CKR_OK, st1.emit (Event.debug_smartcard_removed reader)) := by
  obtain ⟨_, hc, card, hcard, hk, hs, hl, _⟩ := card_removed_spec st st1 reader rv h
  have hlt : reader < st.card_table.length := by
    rcases List.getElem?_eq_some.1 hcard with ⟨hlt, _⟩
    exact hlt
  have hstable : card_removed_slots reader
      (List.range (st1.emit (Event.debug_smartcard_removed reader)).virtual_slots.length)
      (st1.emit (Event.debug_smartcard_removed reader)) =
      some (st1.emit (Event.debug_smartcard_removed reader)) := by
    apply card_removed_slots_stable
    intro j hj
    have hj1 : j < st1.virtual_slots.length := List.mem_range.1 hj
    have hlen : j < st.virtual_slots.length := by
      by_contra hge
      have h1 : st1.virtual_slots[j]? = st.virtual_slots[j]? := by
        rw [hs j, if_neg (fun hx => hge hx.1)]
      rw [List.getElem?_eq_none (Nat.le_of_not_lt hge)] at h1
      exact absurd (List.getElem?_eq_none_iff.1 h1) (Nat.not_le_of_lt hj1)
    show ∃ slot, st1.virtual_slots[j]? = some slot ∧ ∀ c, slot.card = some c →
      ∃ card1, st1.card_table[c]? = some card1 ∧ (card1.reader = reader → st1.context = none)
    by_cases hcond : j < st.virtual_slots.length ∧ slot_of_reader st reader j = true ∧
        st.context ≠ none
    · refine ⟨zapped_slot, by rw [hs j, if_pos hcond], ?_⟩
      intro c hcz
      simp [zapped_slot, zero_slot] at hcz
    · obtain ⟨slot, hslot, hlook⟩ := hl j hlen
      refine ⟨slot, by rw [hs j, if_neg hcond]; exact hslot, ?_⟩
      intro c hcs
      obtain ⟨card0, hcard0⟩ := hlook c hcs
      have hclt : c < st.card_table.length := by
        rcases List.getElem?_eq_some.1 hcard0 with ⟨hlt0, _⟩
        exact hlt0
      have hctx_of : card0.reader = reader → st1.context = none := by
        intro hr
        rw [hc]
        by_contra hne
        apply hcond
        refine ⟨hlen, ?_, hne⟩
        rw [slot_of_reader_intro st reader j slot c card0 hslot hcs hcard0]
        simp [hr]
      by_cases hcr : c = reader
      · subst hcr
        have hcc : card0 = card := by
          rw [hcard] at hcard0
          exact (Option.some.inj hcard0).symm
        refine ⟨removed_card card, by rw [hk]; simp [hlt], ?_⟩
        intro hr
        exact hctx_of (by rw [hcc]; exact hr)
      · refine ⟨card0, by rw [hk, List.getElem?_set_ne (Ne.symm hcr)]; exact hcard0, hctx_of⟩
  have hcard1 : st1.card_table[reader]? = some (removed_card card) := by
    rw [hk]; simp [hlt]
  have hstable' : card_removed_slots reader (List.range st1.virtual_slots.length)
      (st1.emit (Event.debug_smartcard_removed reader)) =
      some (st1.emit (Event.debug_smartcard_removed reader)) := hstable
  have hcard1' : (st1.emit (Event.debug_smartcard_removed reader)).card_table[reader]? =
      some (removed_card card) := hcard1
  rw [card_removed_of_loop st1 _ reader (removed_card card) hstable' hcard1']
  have hset : st1.card_table.set reader (removed_card (removed_card card)) = st1.card_table := by
    rw [hk, List.set_set]
    rfl
  simp only [State.emit, unbind_events, disconnect_events, removed_card, List.append_nil]
  have hset' := hset
  simp only [removed_card] at hset'
  rw [hset']

theorem card_removed_idempotent_witness :
    card_removed ex_state_removed 0 =
      some (CKR_OK, ex_state_removed.emit (Event.debug_smartcard_removed 0)) :=
  card_removed_idempotent ex_state ex_state_removed 0 CKR_OK (by decide)

/-! ## Lemmas on `slot_allocate` -/

theorem strcpy_bp_length (src : List Char) (n : Nat) : (strcpy_bp src n).length = n := by
  simp only [strcpy_bp, List.length_append, List.length_take, List.length_replicate]
  omega

theorem find_free_slot_none (slots : List sc_pkcs11_slot) :
    ∀ i0, find_free_slot slots i0 = none →
      ∀ (j : Nat) (slot : sc_pkcs11_slot), slots[j]? = some slot → slot.card ≠ none := by
  induction slots with
  | nil => intro i0 _ j slot hj; simp at hj
  | cons s rest ih =>
    intro i0 h j slot hj
    simp only [find_free_slot] at h
    by_cases hs : s.card = none
    · simp [hs] at h
    · simp only [hs, if_false] at h
      cases j with
      | zero =>
        simp only [List.getElem?_cons_zero, Option.some.injEq] at hj
        rw [← hj]; exact hs
      | succ j => exact ih (i0 + 1) h j slot (by simpa using hj)

theorem find_free_slot_some (slots : List sc_pkcs11_slot) :
    ∀ i0 i, find_free_slot slots i0 = some i →
      ∃ k slot, i = i0 + k ∧ slots[k]? = some slot ∧ slot.card = none ∧
        ∀ (j : Nat) (s : sc_pkcs11_slot), j < k → slots[j]? = some s → s.card ≠ none := by
  induction slots with
  | nil => intro i0 i h; simp [find_free_slot] at h
  | cons s rest ih =>
    intro i0 i h
    simp only [find_free_slot] at h
    by_cases hs : s.card = none
    · simp only [hs, if_true, Option.some.injEq] at h
      exact ⟨0, s, by omega, by simp, hs, fun j _ hj => absurd hj (Nat.not_lt_zero j)⟩
    · simp only [hs, if_false] at h
      obtain ⟨k, slot, hik, hslot, hcard, hbefore⟩ := ih (i0 + 1) i h
      refine ⟨k + 1, slot, by omega, by simpa using hslot, hcard, ?_⟩
      intro j s0 hj hs0
      cases j with
      | zero =>
        simp only [List.getElem?_cons_zero, Option.some.injEq] at hs0
        rw [← hs0]; exact hs
      | succ j => exact hbefore j s0 (by omega) (by simpa using hs0)

/-- The three outcomes of `slot_allocate` on an existing card entry. -/
theorem slot_allocate_cases (st : State) (c : Nat) (card : sc_pkcs11_card)
    (hcard : st.card_table[c]? = some card) (rv : CK_RV) (r : Option Nat) (st' : State)
    (h : slot_allocate st c = some (rv, r, st')) :
    (rv = CKR_FUNCTION_FAILED ∧ r = none ∧ st' = st ∧
      (card.num_slots ≥ card.max_slots ∨
        ∀ (j : Nat) (slot : sc_pkcs11_slot), st.virtual_slots[j]? = some slot → slot.card ≠ none)) ∨
    (rv = CKR_OK ∧ card.num_slots < card.max_slots ∧
      ∃ i slot hd, r = some i ∧ st.virtual_slots[i]? = some slot ∧ slot.card = none ∧
        card.card = some hd ∧
        (∀ (j : Nat) (s : sc_pkcs11_slot), j < i → st.virtual_slots[j]? = some s → s.card ≠ none) ∧
        st' = { st with virtual_slots := st.virtual_slots.set i (claimed_slot slot c hd),
                        card_table := st.card_table.set c
                          { card with num_slots := card.num_slots + 1 } }) := by
  unfold slot_allocate at h
  simp only [hcard] at h
  by_cases hb : card.num_slots ≥ card.max_slots
  · simp only [hb, if_true, Option.some.injEq, Prod.mk.injEq] at h
    obtain ⟨h1, h2, h3⟩ := h
    exact Or.inl ⟨h1.symm, h2.symm, h3.symm, Or.inl hb⟩
  · simp only [hb, if_false] at h
    cases hf : find_free_slot st.virtual_slots 0 with
    | none =>
      simp only [hf, Option.some.injEq, Prod.mk.injEq] at h
      obtain ⟨h1, h2, h3⟩ := h
      exact Or.inl ⟨h1.symm, h2.symm, h3.symm, Or.inr (find_free_slot_none _ 0 hf)⟩
    | some i =>
      simp only [hf] at h
      obtain ⟨k, slot, hik, hslot, hfree, hbefore⟩ := find_free_slot_some _ 0 i hf
      have hki : k = i := by omega
      subst hki
      simp only [hslot] at h
      cases hh : card.card with
      | none => simp [hh] at h
      | some hd =>
        simp only [hh, Option.some.injEq, Prod.mk.injEq] at h
        obtain ⟨h1, h2, h3⟩ := h
        refine Or.inr ⟨h1.symm, Nat.lt_of_not_le hb, k, slot, hd, h2.symm, hslot, hfree, rfl,
          hbefore, ?_⟩
        rw [← h3]
        rfl

theorem slot_allocate_some_card (st : State) (c : Nat) (x : CK_RV × Option Nat × State)
    (h : slot_allocate st c = some x) : ∃ card, st.card_table[c]? = some card := by
  unfold slot_allocate at h
  cases hcard : st.card_table[c]? with
  | none => simp [hcard] at h
  | some card => exact ⟨card, rfl⟩

theorem slot_allocate_seq_counts (c : Nat) :
    ∀ (cs : List Nat) (st st' : State) (card : sc_pkcs11_card),
      st.card_table[c]? = some card → slot_allocate_seq cs st = some st' →
      ∃ card', st'.card_table[c]? = some card' ∧
        card'.num_slots = card.num_slots + cs.count c ∧ card'.max_slots = card.max_slots := by
  intro cs
  induction cs with
  | nil =>
    intro st st' card hcard h
    simp only [slot_allocate_seq, Option.some.injEq] at h
    subst h
    exact ⟨card, hcard, by simp, rfl⟩
  | cons c0 rest ih =>
    intro st st' card hcard h
    simp only [slot_allocate_seq] at h
    cases ha : slot_allocate st c0 with
    | none => simp [ha] at h
    | some x =>
      obtain ⟨rv, r, st1⟩ := x
      obtain ⟨card0, hcard0⟩ := slot_allocate_some_card st c0 _ ha
      rcases slot_allocate_cases st c0 card0 hcard0 rv r st1 ha with
        ⟨_, hr, _, _⟩ | ⟨hrv, _, i, slot, hd, hr, _, _, _, _, hst1⟩
      · subst hr
        simp [ha] at h
      · subst hr
        simp only [ha, hrv, if_true] at h
        have hlt0 : c0 < st.card_table.length := by
          rcases List.getElem?_eq_some.1 hcard0 with ⟨hlt, _⟩
          exact hlt
        by_cases hc : c0 = c
        · subst hc
          have hcc : card0 = card := by
            rw [hcard] at hcard0
            exact (Option.some.inj hcard0).symm
          subst hcc
          have hcard1 : st1.card_table[c0]? =
              some { card0 with num_slots := card0.num_slots + 1 } := by
            rw [hst1]
            simp [hlt0]
          obtain ⟨card', h1, h2, h3⟩ := ih st1 st' _ hcard1 h
          refine ⟨card', h1, ?_, h3⟩
          rw [h2]
          simp only [List.count_cons_self]
          omega
        · have hcard1 : st1.card_table[c]? = some card := by
            rw [hst1]
            simp only
            rw [List.getElem?_set_ne hc]
            exact hcard
          obtain ⟨card', h1, h2, h3⟩ := ih st1 st' _ hcard1 h
          refine ⟨card', h1, ?_, h3⟩
          rw [h2, List.count_cons_of_ne (Ne.symm hc)]

/-! ## C6, C7, C8: `slot_allocate` -/

/-- C6: `slot_allocate` fails with `CKR_FUNCTION_FAILED` and changes nothing
whenever `num_slots >= max_slots`; in particular, for a card entry with
`num_slots = 0`, after any run of successful allocations of which `max_slots`
were for that card, one more allocation for it fails and changes nothing. -/
theorem slot_allocate_respects_budget (st : State) (c : Nat) (card : sc_pkcs11_card)
    (hcard : st.card_table[c]? = some card) :
    (card.num_slots ≥ card.max_slots →
      slot_allocate st c = some (CKR_FUNCTION_FAILED, none, st)) ∧
    (card.num_slots = 0 → ∀ (cs : List Nat) (st' : State),
      slot_allocate_seq cs st = some st' → cs.count c = card.max_slots →
      slot_allocate st' c = some (CKR_FUNCTION_FAILED, none, st')) := by
  have hfail : ∀ (s : State) (k : sc_pkcs11_card), s.card_table[c]? = some k →
      k.num_slots ≥ k.max_slots → slot_allocate s c = some (CKR_FUNCTION_FAILED, none, s) := by
    intro s k hk hge
    unfold slot_allocate
    simp only [hk, hge, if_true]
  refine ⟨hfail st card hcard, ?_⟩
  intro hzero cs st' hseq hcount
  obtain ⟨card', h1, h2, h3⟩ := slot_allocate_seq_counts c cs st st' card hcard hseq
  apply hfail st' card' h1
  rw [h2, h3, hzero, hcount]
  simp

theorem slot_allocate_respects_budget_witness :
    slot_allocate ex_state_two_slots 0 = some (CKR_FUNCTION_FAILED, none, ex_state_two_slots) :=
  (slot_allocate_respects_budget ex_state_fresh 0
    { reader := 0, card := some ex_card, framework := none, fw_data := none,
      max_slots := 2, num_slots := 0 } (by decide)).2 (by decide) [0, 0] ex_state_two_slots
    (by decide) (by decide)

/-- C7: for a connected card entry with `num_slots < max_slots` and a pool
with a free slot, `slot_allocate` returns `CKR_OK` and the free slot of lowest
index; it stores the card reference and the reader's name, blank-padded to 64
characters, in that slot, adds one to the card's `num_slots`, and leaves every
other slot and every other card entry as they were. -/
theorem slot_allocate_first_free (st : State) (c : Nat) (card : sc_pkcs11_card) (hd : sc_card)
    (hcard : st.card_table[c]? = some card) (hconn : card.card = some hd)
    (hbudget : card.num_slots < card.max_slots)
    (hfree : ∃ (j : Nat) (slot : sc_pkcs11_slot), st.virtual_slots[j]? = some slot ∧
      slot.card = none) :
    ∃ (i : Nat) (slot : sc_pkcs11_slot) (st' : State),
      slot_allocate st c = some (CKR_OK, some i, st') ∧
      st.virtual_slots[i]? = some slot ∧ slot.card = none ∧
      (∀ (j : Nat) (s : sc_pkcs11_slot), j < i → st.virtual_slots[j]? = some s → s.card ≠ none) ∧
      st'.virtual_slots[i]? = some (claimed_slot slot c hd) ∧
      (claimed_slot slot c hd).card = some c ∧
      (claimed_slot slot c hd).slot_info.slotDescription =
        hd.reader_name.take 64 ++ List.replicate (64 - hd.reader_name.length) (Char.ofNat 32) ∧
      (claimed_slot slot c hd).slot_info.slotDescription.length = 64 ∧
      st'.card_table[c]? = some { card with num_slots := card.num_slots + 1 } ∧
      (∀ j, j ≠ i → st'.virtual_slots[j]? = st.virtual_slots[j]?) ∧
      (∀ k, k ≠ c → st'.card_table[k]? = st.card_table[k]?) ∧
      st'.context = st.context ∧ st'.log = st.log := by
  have hclt : c < st.card_table.length := by
    rcases List.getElem?_eq_some.1 hcard with ⟨hlt, _⟩
    exact hlt
  cases hf : find_free_slot st.virtual_slots 0 with
  | none =>
    obtain ⟨j, slot, hj, hnone⟩ := hfree
    exact absurd hnone (find_free_slot_none _ 0 hf j slot hj)
  | some i =>
    obtain ⟨k, slot, hik, hslot, hnone, hbefore⟩ := find_free_slot_some _ 0 i hf
    have hki : k = i := by omega
    subst hki
    have hilt : k < st.virtual_slots.length := by
      rcases List.getElem?_eq_some.1 hslot with ⟨hlt, _⟩
      exact hlt
    refine ⟨k, slot, { st with virtual_slots := st.virtual_slots.set k (claimed_slot slot c hd),
                               card_table := st.card_table.set c
                                 { card with num_slots := card.num_slots + 1 } },
      ?_, hslot, hnone, hbefore, ?_, rfl, rfl, ?_, ?_, ?_, ?_, rfl, rfl⟩
    · unfold slot_allocate
      simp only [hcard, ge_iff_le, Nat.not_le_of_lt hbudget, if_false, hf, hslot, hconn]
      rfl
    · simp [hilt]
    · exact strcpy_bp_length _ 64
    · simp [hclt]
    · intro j hj
      exact List.getElem?_set_ne (Ne.symm hj)
    · intro j hj
      exact List.getElem?_set_ne (Ne.symm hj)

theorem slot_allocate_first_free_witness :
    ∃ (i : Nat) (slot : sc_pkcs11_slot) (st' : State),
      slot_allocate ex_state_fresh 0 = some (CKR_OK, some i, st') ∧
      ex_state_fresh.virtual_slots[i]? = some slot ∧ slot.card = none ∧
      (∀ (j : Nat) (s : sc_pkcs11_slot), j < i → ex_state_fresh.virtual_slots[j]? = some s →
        s.card ≠ none) ∧
      st'.virtual_slots[i]? = some (claimed_slot slot 0 ex_card) ∧
      (claimed_slot slot 0 ex_card).card = some 0 ∧
      (claimed_slot slot 0 ex_card).slot_info.slotDescription =
        ex_card.reader_name.take 64 ++
          List.replicate (64 - ex_card.reader_name.length) (Char.ofNat 32) ∧
      (claimed_slot slot 0 ex_card).slot_info.slotDescription.length = 64 ∧
      st'.card_table[0]? = some { reader := 0, card := some ex_card, framework := none,
                                  fw_data := none, max_slots := 2, num_slots := 0 + 1 } ∧
      (∀ j, j ≠ i → st'.virtual_slots[j]? = ex_state_fresh.virtual_slots[j]?) ∧
      (∀ k, k ≠ 0 → st'.card_table[k]? = ex_state_fresh.card_table[k]?) ∧
      st'.context = ex_state_fresh.context ∧ st'.log = ex_state_fresh.log :=
  slot_allocate_first_free ex_state_fresh 0
    { reader := 0, card := some ex_card, framework := none, fw_data := none,
      max_slots := 2, num_slots := 0 } ex_card (by decide) rfl (by decide)
    ⟨0, ex_slot 0 none none [], by decide, by decide⟩

/-- C8: when every virtual slot has its card reference set, `slot_allocate`
fails with `CKR_FUNCTION_FAILED` for every card entry, whatever its
`num_slots` and `max_slots`, and changes nothing. -/
theorem slot_allocate_pool_exhausted (st : State) (c : Nat) (card : sc_pkcs11_card)
    (hcard : st.card_table[c]? = some card)
    (hfull : ∀ slot ∈ st.virtual_slots, slot.card ≠ none) :
    slot_allocate st c = some (CKR_FUNCTION_FAILED, none, st) := by
  unfold slot_allocate
  simp only [hcard]
  by_cases hb : card.num_slots ≥ card.max_slots
  · simp only [hb, if_true]
  · simp only [hb, if_false]
    cases hf : find_free_slot st.virtual_slots 0 with
    | none => rfl
    | some i =>
      obtain ⟨k, slot, _, hslot, hnone, _⟩ := find_free_slot_some _ 0 i hf
      exact absurd hnone (hfull slot (List.getElem?_mem hslot))

theorem slot_allocate_pool_exhausted_witness :
    slot_allocate ex_state_full 1 = some (CKR_FUNCTION_FAILED, none, ex_state_full) :=
  slot_allocate_pool_exhausted ex_state_full 1
    { reader := 1, card := some ex_card, framework := none, fw_data := none,
      max_slots := 4, num_slots := 0 } (by decide) (by decide)

/-! ## C9, C10: order of the teardown -/

/-- The loop of `card_removed` closes the sessions of every slot of the
reader. -/
theorem card_removed_slots_closes (reader : Nat) :
    ∀ (idxs : List Nat) (st st' : State), card_removed_slots reader idxs st = some st' →
      ∀ evs, st'.log = st.log ++ evs →
      ∀ j ∈ idxs, slot_of_reader st reader j = true → st.context ≠ none →
        Event.close_all_sessions (j : Int) ∈ evs := by
  intro idxs
  induction idxs with
  | nil => intro st st' _ evs _ j hj; simp at hj
  | cons i rest ih =>
    intro st st' h evs hevs j hj hsor hctx
    simp only [card_removed_slots] at h
    cases hstep : card_removed_step reader st i with
    | none => simp [hstep] at h
    | some st1 =>
      simp only [hstep] at h
      obtain ⟨_, _, _, _, evs1, hlog1, _, _⟩ := card_removed_slots_spec reader rest st1 st' h
      rcases card_removed_step_spec reader st st1 i hstep with
        ⟨hno, hst⟩ | ⟨_, _, slot, _, _, hst⟩
      · subst hst
        rcases List.mem_cons.1 hj with hji | hjr
        · subst hji
          rcases hno with hno | hno
          · rw [hno] at hsor; exact absurd hsor (by simp)
          · exact absurd hno hctx
        · exact ih st1 st' h evs hevs j hjr hsor hctx
      · have hlg : st1.log = st.log ++ teardown_events st (i : Int) slot := by rw [hst]
        have hevs' : evs = teardown_events st (i : Int) slot ++ evs1 := by
          rw [hlog1, hlg, List.append_assoc] at hevs
          exact (List.append_cancel_left hevs).symm
        by_cases hji : j = i
        · subst hji
          rw [hevs']
          simp [teardown_events]
        · have hjr : j ∈ rest := by
            rcases List.mem_cons.1 hj with hx | hx
            · exact absurd hx hji
            · exact hx
          have hsor1 : slot_of_reader st1 reader j = true := by
            rw [hst, slot_of_reader_zapped st reader i j _]
            simp [hji, hsor]
          have hctx1 : st1.context ≠ none := by rw [hst]; exact hctx
          rw [hevs']
          exact List.mem_append_right _ (ih st1 st' h evs1 hlog1 j hjr hsor1 hctx1)

/-- C9: the calls made by one `card_removed(reader)` are, in order: the
per-slot teardown calls (close-all-sessions, pool removals, release hooks,
release_token), among them the close-all-sessions of every slot of the reader;
then the framework's unbind, made exactly when a framework was bound; then the
transport's disconnect, made exactly when a card handle was connected. -/
theorem card_removed_teardown_order (st st' : State) (reader : Nat) (rv : CK_RV)
    (h : card_removed st reader = some (rv, st')) :
    ∃ (card : sc_pkcs11_card) (slot_calls unbind_calls disconnect_calls : List Event),
      st.card_table[reader]? = some card ∧
      st'.log = st.log ++ Event.debug_smartcard_removed reader ::
        (slot_calls ++ (unbind_calls ++ disconnect_calls)) ∧
      (∀ e ∈ slot_calls, is_slot_event e = true) ∧
      (∀ j, j < st.virtual_slots.length → slot_of_reader st reader j = true →
        st.context ≠ none → Event.close_all_sessions (j : Int) ∈ slot_calls) ∧
      (∀ fw, card.framework = some fw → unbind_calls = [Event.unbind fw reader]) ∧
      (card.framework = none → unbind_calls = []) ∧
      (∀ hd, card.card = some hd → disconnect_calls = [Event.disconnect_card hd]) ∧
      (card.card = none → disconnect_calls = []) := by
  obtain ⟨_, _, card, hcard, _, _, _, evs, hev, _, hlog⟩ := card_removed_spec st st' reader rv h
  refine ⟨card, evs, unbind_events card reader, disconnect_events card, hcard, hlog, hev, ?_,
    ?_, ?_, ?_, ?_⟩
  · intro j hj hsor hctx
    have h0 := h
    unfold card_removed at h0
    simp only [SC_PKCS11_MAX_VIRTUAL_SLOTS] at h0
    cases hloop : card_removed_slots reader
        (List.range (st.emit (Event.debug_smartcard_removed reader)).virtual_slots.length)
        (st.emit (Event.debug_smartcard_removed reader)) with
    | none => simp [hloop] at h0
    | some st1 =>
      have hloop' : card_removed_slots reader (List.range st.virtual_slots.length)
          (st.emit (Event.debug_smartcard_removed reader)) = some st1 := hloop
      obtain ⟨_, hk1, _, _, evs1, hlog1, _, _⟩ := card_removed_slots_spec reader _ _ st1 hloop
      have hcard1 : st1.card_table[reader]? = some card := by
        rw [hk1]; exact hcard
      rw [card_removed_of_loop st st1 reader card hloop' hcard1] at h
      simp only [Option.some.injEq, Prod.mk.injEq] at h
      have hlog' : st'.log = st1.log ++ (unbind_events card reader ++ disconnect_events card) := by
        rw [← h.2]
      have hevs : evs1 = evs := by
        rw [hlog1] at hlog'
        rw [hlog'] at hlog
        simp only [State.emit, List.append_assoc, List.singleton_append] at hlog
        have h1 := List.append_cancel_left hlog
        simp only [List.cons_append, List.cons.injEq, true_and] at h1
        exact List.append_cancel_right h1
      rw [← hevs]
      exact card_removed_slots_closes reader _ _ st1 hloop evs1 hlog1 j (List.mem_range.2 hj)
        hsor hctx
  · intro fw hfw; simp [unbind_events, hfw]
  · intro hfw; simp [unbind_events, hfw]
  · intro hd hhd; simp [disconnect_events, hhd]
  · intro hhd; simp [disconnect_events, hhd]

theorem card_removed_teardown_order_witness :
    ∃ (card : sc_pkcs11_card) (slot_calls unbind_calls disconnect_calls : List Event),
      ex_state.card_table[0]? = some card ∧
      ex_state_removed.log = ex_state.log ++ Event.debug_smartcard_removed 0 ::
        (slot_calls ++ (unbind_calls ++ disconnect_calls)) ∧
      (∀ e ∈ slot_calls, is_slot_event e = true) ∧
      (∀ j, j < ex_state.virtual_slots.length → slot_of_reader ex_state 0 j = true →
        ex_state.context ≠ none → Event.close_all_sessions (j : Int) ∈ slot_calls) ∧
      (∀ fw, card.framework = some fw → unbind_calls = [Event.unbind fw 0]) ∧
      (card.framework = none → unbind_calls = []) ∧
      (∀ hd, card.card = some hd → disconnect_calls = [Event.disconnect_card hd]) ∧
      (card.card = none → disconnect_calls = []) :=
  card_removed_teardown_order ex_state ex_state_removed 0 CKR_OK (by decide)

theorem drain_events_count_delete (o x : sc_pkcs11_object) :
    (drain_events x).count (Event.pool_delete o) = if x = o then 1 else 0 := by
  unfold drain_events
  by_cases ho : x = o
  · subst ho
    by_cases hr : x.has_release = true <;> simp [hr, List.count_cons]
  · by_cases hr : x.has_release = true <;> simp [hr, ho, List.count_cons]

theorem drain_events_count_release (o x : sc_pkcs11_object) :
    (drain_events x).count (Event.object_release o) =
      if x = o ∧ o.has_release = true then 1 else 0 := by
  unfold drain_events
  by_cases ho : x = o
  · subst ho
    by_cases hr : x.has_release = true <;> simp [hr, List.count_cons]
  · by_cases hr : x.has_release = true <;> simp [hr, ho, List.count_cons]

theorem pool_events_count_delete (o : sc_pkcs11_object) (pool : sc_pkcs11_pool) :
    (pool_events pool).count (Event.pool_delete o) = (pool_objects pool).count o := by
  induction pool with
  | nil => simp [pool_events, pool_objects]
  | cons item rest ih =>
    simp only [pool_objects] at ih
    simp only [pool_events, pool_objects, List.count_append, List.map_cons, List.count_cons, ih,
      drain_events_count_delete, beq_iff_eq]
    omega

theorem pool_events_count_release (o : sc_pkcs11_object) (pool : sc_pkcs11_pool) :
    (pool_events pool).count (Event.object_release o) =
      if o.has_release = true then (pool_objects pool).count o else 0 := by
  induction pool with
  | nil => simp [pool_events, pool_objects]
  | cons item rest ih =>
    simp only [pool_objects] at ih
    simp only [pool_events, pool_objects, List.count_append, List.map_cons, List.count_cons, ih,
      drain_events_count_release, beq_iff_eq]
    by_cases hr : o.has_release = true <;> by_cases ho : item.item = o <;> simp [hr, ho]
    omega

theorem slot_teardown_eq (st : State) (i : Nat) (slot : sc_pkcs11_slot)
    (hslot : st.virtual_slots[i]? = some slot) :
    slot_teardown st (i : Int) i =
      if release_safe st slot then
        some { st with virtual_slots := st.virtual_slots.set i { slot with object_pool := [] },
                       log := st.log ++ teardown_events st (i : Int) slot }
      else none := by
  have hsafe : ∀ (vs : List sc_pkcs11_slot) (lg : List Event),
      release_safe { st with virtual_slots := vs, log := lg } slot = release_safe st slot := by
    intro vs lg; rfl
  have hrel : ∀ (vs : List sc_pkcs11_slot) (lg : List Event),
      release_events { st with virtual_slots := vs, log := lg } slot = release_events st slot := by
    intro vs lg; rfl
  unfold slot_teardown
  simp only [hslot]
  rw [drain_object_pool_total slot.object_pool _ _ (Nat.lt_succ_self _)]
  simp only [release_framework_stuff_eq, State.emit, hsafe, hrel]
  by_cases hs : release_safe st slot = true
  · simp [hs, teardown_events, List.append_assoc]
  · simp [hs]

/-- C10, as stated, fails when the context is not initialised: for the
in-range id 0, `slot_token_removed` returns `CKR_CRYPTOKI_NOT_INITIALIZED`
from the guard of `slot_get_slot`, calls nothing and leaves the two objects in
the pool. -/
theorem slot_token_removed_uninitialized_counterexample :
    (0 : Int) < (SC_PKCS11_MAX_VIRTUAL_SLOTS ex_state_no_context_pool : Int) ∧
    slot_token_removed ex_state_no_context_pool 0 =
      some (CKR_CRYPTOKI_NOT_INITIALIZED, ex_state_no_context_pool) ∧
    CKR_CRYPTOKI_NOT_INITIALIZED ≠ CKR_OK ∧
    ex_state_no_context_pool.log = [] ∧
    ex_state_no_context_pool.virtual_slots.map (fun slot => slot.object_pool.length) = [2] := by
  decide

/-- C10 (amended): with the context initialised, for every in-range slot
whose card entry, when the slot has a card reference and a framework context,
has a framework, `slot_token_removed` returns `CKR_OK`.  Before the final
`memset` (state `s1`) the slot still has its card reference, its pool is empty,
and the calls made are close-all-sessions, then for each object of the pool in
turn its removal and, when it has one, its release hook, each exactly once per
occurrence, then release_token.  Afterwards the slot has no card reference,
`login_user` is -1 and the slot info is the "no token" default. -/
theorem slot_token_removed_drains (st : State) (i : Nat) (slot : sc_pkcs11_slot)
    (ctx : sc_context) (hctx : st.context = some ctx)
    (hslot : st.virtual_slots[i]? = some slot) (hsafe : release_safe st slot = true) :
    ∃ s1 : State,
      slot_teardown st (i : Int) i = some s1 ∧
      s1.virtual_slots[i]? = some { slot with object_pool := [] } ∧
      s1.log = st.log ++ Event.close_all_sessions (i : Int) ::
        (pool_events slot.object_pool ++ release_events st slot) ∧
      (∀ o, (pool_events slot.object_pool).count (Event.pool_delete o) =
        (pool_objects slot.object_pool).count o) ∧
      (∀ o, (pool_events slot.object_pool).count (Event.object_release o) =
        if o.has_release = true then (pool_objects slot.object_pool).count o else 0) ∧
      slot_token_removed st (i : Int) = some (CKR_OK, s1.set_slot i zapped_slot) ∧
      (s1.set_slot i zapped_slot).virtual_slots[i]? = some zapped_slot ∧
      (s1.set_slot i zapped_slot).log = s1.log ∧
      zapped_slot.card = none ∧ zapped_slot.login_user = -1 ∧ zapped_slot.object_pool = [] ∧
      zapped_slot.slot_info.slotDescription =
        String.toList "Virtual slot" ++ List.replicate 52 (Char.ofNat 32) ∧
      zapped_slot.slot_info.flags = CKF_REMOVABLE_DEVICE ||| CKF_HW_SLOT ∧
      zapped_slot.slot_info.flags &&& CKF_TOKEN_PRESENT = 0 ∧
      zapped_slot.slot_info.hardwareVersion = ⟨0, 0⟩ ∧
      zapped_slot.slot_info.firmwareVersion = ⟨0, 0⟩ := by
  have hi : i < st.virtual_slots.length := by
    rcases List.getElem?_eq_some.1 hslot with ⟨h, _⟩
    exact h
  refine ⟨{ st with virtual_slots := st.virtual_slots.set i { slot with object_pool := [] },
                    log := st.log ++ teardown_events st (i : Int) slot }, ?_, ?_, rfl,
    fun o => pool_events_count_delete o _, fun o => pool_events_count_release o _, ?_, ?_, rfl,
    rfl, rfl, rfl, by decide, by decide, by decide, rfl, rfl⟩
  · rw [slot_teardown_eq st i slot hslot, hsafe]; rfl
  · simp [hi]
  · rw [slot_token_removed_eq st i slot ctx hctx hslot, hsafe]
    simp [State.set_slot, List.set_set]
  · simp [State.set_slot, hi]

theorem slot_token_removed_drains_witness :
    ∃ s1 : State,
      slot_teardown ex_state (0 : Nat) 0 = some s1 ∧
      s1.virtual_slots[0]? = some (ex_slot 0 (some 0) (some 5) []) ∧
      s1.log = ex_state.log ++ Event.close_all_sessions (0 : Nat) ::
        (pool_events [⟨1, ex_object_a⟩, ⟨2, ex_object_b⟩] ++
          release_events ex_state (ex_slot 0 (some 0) (some 5) [⟨1, ex_object_a⟩, ⟨2, ex_object_b⟩])) ∧
      (∀ o, (pool_events [⟨1, ex_object_a⟩, ⟨2, ex_object_b⟩]).count (Event.pool_delete o) =
        (pool_objects [⟨1, ex_object_a⟩, ⟨2, ex_object_b⟩]).count o) ∧
      (∀ o, (pool_events [⟨1, ex_object_a⟩, ⟨2, ex_object_b⟩]).count (Event.object_release o) =
        if o.has_release = true then (pool_objects [⟨1, ex_object_a⟩, ⟨2, ex_object_b⟩]).count o
        else 0) ∧
      slot_token_removed ex_state (0 : Nat) = some (CKR_OK, s1.set_slot 0 zapped_slot) ∧
      (s1.set_slot 0 zapped_slot).virtual_slots[0]? = some zapped_slot ∧
      (s1.set_slot 0 zapped_slot).log = s1.log ∧
      zapped_slot.card = none ∧ zapped_slot.login_user = -1 ∧ zapped_slot.object_pool = [] ∧
      zapped_slot.slot_info.slotDescription =
        String.toList "Virtual slot" ++ List.replicate 52 (Char.ofNat 32) ∧
      zapped_slot.slot_info.flags = CKF_REMOVABLE_DEVICE ||| CKF_HW_SLOT ∧
      zapped_slot.slot_info.flags &&& CKF_TOKEN_PRESENT = 0 ∧
      zapped_slot.slot_info.hardwareVersion = ⟨0, 0⟩ ∧
      zapped_slot.slot_info.firmwareVersion = ⟨0, 0⟩ :=
  slot_token_removed_drains ex_state 0
    (ex_slot 0 (some 0) (some 5) [⟨1, ex_object_a⟩, ⟨2, ex_object_b⟩]) { reader_count := 2 }
    rfl rfl (by decide)

/-! ## Lemmas on the framework detection of `card_detect` -/

theorem list_set_same {α : Type} (l : List α) (i : Nat) (a : α) (h : l[i]? = some a) :
    l.set i a = l := by
  apply List.ext_getElem?
  intro j
  by_cases hij : i = j
  · subst hij
    rw [List.getElem?_set, h]
    have hlt : i < l.length := by
      rcases List.getElem?_eq_some.1 h with ⟨hlt, _⟩
      exact hlt
    simp [hlt]
  · rw [List.getElem?_set_ne hij]

theorem slot_allocate_frame (st : State) (c : Nat) (card : sc_pkcs11_card)
    (hcard : st.card_table[c]? = some card) (rv : CK_RV) (r : Option Nat) (st' : State)
    (h : slot_allocate st c = some (rv, r, st')) :
    st'.context = st.context ∧ st'.log = st.log ∧
    (∃ n, st'.card_table = st.card_table.set c { card with num_slots := n }) ∧
    (∀ i, r = some i → i < st'.virtual_slots.length) := by
  rcases slot_allocate_cases st c card hcard rv r st' h with
    ⟨_, hr, hst, _⟩ | ⟨_, _, i, slot, hd, hr, hslot, _, _, _, hst⟩
  · subst hst
    refine ⟨rfl, rfl, ⟨card.num_slots, (list_set_same _ c card hcard).symm⟩, ?_⟩
    intro i hi
    rw [hr] at hi
    exact absurd hi (by simp)
  · subst hst
    refine ⟨rfl, rfl, ⟨card.num_slots + 1, rfl⟩, ?_⟩
    intro j hj
    rw [hr] at hj
    have hji : i = j := Option.some.inj hj
    subst hji
    have hlt : i < st.virtual_slots.length := by
      rcases List.getElem?_eq_some.1 hslot with ⟨hlt, _⟩
      exact hlt
    simpa using hlt

theorem run_create_tokens_frame (c : Nat) :
    ∀ (reqs : List token_request) (rv : CK_RV) (st : State) (rv' : CK_RV) (st' : State)
      (card : sc_pkcs11_card), st.card_table[c]? = some card →
      run_create_tokens c reqs rv st = some (rv', st') →
      st'.context = st.context ∧ st'.log = st.log ∧
      ∃ n, st'.card_table = st.card_table.set c { card with num_slots := n } := by
  intro reqs
  induction reqs with
  | nil =>
    intro rv st rv' st' card hcard h
    simp only [run_create_tokens, Option.some.injEq, Prod.mk.injEq] at h
    obtain ⟨_, hst⟩ := h
    subst hst
    exact ⟨rfl, rfl, card.num_slots, (list_set_same _ c card hcard).symm⟩
  | cons req rest ih =>
    intro rv st rv' st' card hcard h
    simp only [run_create_tokens] at h
    cases ha : slot_allocate st c with
    | none => simp [ha] at h
    | some x =>
      obtain ⟨rv1, r, st1⟩ := x
      obtain ⟨hc1, hl1, ⟨n1, hk1⟩, hr1⟩ := slot_allocate_frame st c card hcard rv1 r st1 ha
      have hclt : c < st.card_table.length := by
        rcases List.getElem?_eq_some.1 hcard with ⟨hlt, _⟩
        exact hlt
      cases r with
      | none =>
        simp only [ha, Option.some.injEq, Prod.mk.injEq] at h
        obtain ⟨_, hst⟩ := h
        subst hst
        exact ⟨hc1, hl1, n1, hk1⟩
      | some i =>
        simp only [ha] at h
        cases hs : st1.virtual_slots[i]? with
        | none => simp [hs] at h
        | some slot =>
          simp only [hs] at h
          have hcard1 : (st1.set_slot i
              { slot with fw_data := req.fw_data,
                          slot_info := { slot.slot_info with
                            flags := if req.token_present = true then
                              slot.slot_info.flags ||| CKF_TOKEN_PRESENT
                              else slot.slot_info.flags } }).card_table[c]? =
              some { card with num_slots := n1 } := by
            show st1.card_table[c]? = _
            rw [hk1]
            simp [hclt]
          obtain ⟨hc2, hl2, n2, hk2⟩ := ih rv _ rv' st' _ hcard1 h
          refine ⟨hc2.trans hc1, hl2.trans hl1, n2, ?_⟩
          rw [hk2]
          show (st1.card_table.set c _) = _
          rw [hk1, List.set_set]

/-- The loop over the registry: it stops at the first framework that
recognises the card, and calls `bind` of no later one. -/
theorem bind_frameworks_spec (reader : Nat) (hd : sc_card) :
    ∀ (fws : List sc_pkcs11_framework_ops) (i0 : Nat) (rv : CK_RV) (st : State)
      (r : Option Nat) (rv' : CK_RV) (st' : State) (card : sc_pkcs11_card),
      st.card_table[reader]? = some card → card.card = some hd →
      bind_frameworks reader fws i0 rv st = some (r, rv', st') →
      st'.context = st.context ∧ st'.virtual_slots = st.virtual_slots ∧
      (∃ d, st'.card_table = st.card_table.set reader { card with fw_data := d }) ∧
      (∃ evs, st'.log = st.log ++ evs ∧
        (∀ e ∈ evs, ∃ j, e = Event.bind j reader ∧ i0 ≤ j ∧ ∀ i, r = some i → j ≤ i) ∧
        (∀ i, r = some i → Event.bind i reader ∈ evs)) ∧
      (∀ i, r = some i → ∃ (k : Nat) (fw : sc_pkcs11_framework_ops), i = i0 + k ∧
        fws[k]? = some fw ∧ recognises fw hd = true ∧
        ∀ (j : Nat) (fw' : sc_pkcs11_framework_ops), j < k → fws[j]? = some fw' →
          recognises fw' hd = false) ∧
      (r = none → ∀ (k : Nat) (fw : sc_pkcs11_framework_ops), fws[k]? = some fw →
        recognises fw hd = false) := by
  intro fws
  induction fws with
  | nil =>
    intro i0 rv st r rv' st' card hcard _ h
    simp only [bind_frameworks, Option.some.injEq, Prod.mk.injEq] at h
    obtain ⟨hr, _, hst⟩ := h
    subst hst
    subst hr
    refine ⟨rfl, rfl, ⟨card.fw_data, (list_set_same _ reader card hcard).symm⟩,
      ⟨[], by simp, by simp, by simp⟩, by simp, ?_⟩
    intro _ k fw hk
    simp at hk
  | cons fw rest ih =>
    intro i0 rv st r rv' st' card hcard hconn h
    obtain ⟨rd, cc, fwk, fd, mx, nm⟩ := card
    simp only at hconn
    subst hconn
    have hconn : (⟨rd, some hd, fwk, fd, mx, nm⟩ : sc_pkcs11_card).card = some hd := rfl
    have hrlt : reader < st.card_table.length := by
      rcases List.getElem?_eq_some.1 hcard with ⟨hlt, _⟩
      exact hlt
    simp only [bind_frameworks] at h
    cases hb : fw.bind with
    | none =>
      simp only [hb] at h
      have hnot : recognises fw hd = false := by simp [recognises, hb]
      obtain ⟨hc, hv, hk, ⟨evs, hlog, hev, hwin⟩, hsome, hnone⟩ :=
        ih (i0 + 1) rv st r rv' st' _ hcard hconn h
      refine ⟨hc, hv, hk, ⟨evs, hlog, ?_, hwin⟩, ?_, ?_⟩
      · intro e he
        obtain ⟨j, hj1, hj2, hj3⟩ := hev e he
        exact ⟨j, hj1, by omega, hj3⟩
      · intro i hi
        obtain ⟨k, fw1, hik, hfw1, hrec, hbefore⟩ := hsome i hi
        refine ⟨k + 1, fw1, by omega, by simpa using hfw1, hrec, ?_⟩
        intro j fw' hj hfw'
        cases j with
        | zero =>
          simp only [List.getElem?_cons_zero, Option.some.injEq] at hfw'
          rw [← hfw']; exact hnot
        | succ j => exact hbefore j fw' (by omega) (by simpa using hfw')
      · intro hr k fw1 hfw1
        cases k with
        | zero =>
          simp only [List.getElem?_cons_zero, Option.some.injEq] at hfw1
          rw [← hfw1]; exact hnot
        | succ k => exact hnone hr k fw1 (by simpa using hfw1)
    | some b =>
      simp only [hb, hcard] at h
      by_cases hok : (b hd).1 = CKR_OK
      · simp only [hok, if_true, Option.some.injEq, Prod.mk.injEq] at h
        obtain ⟨hr, _, hst⟩ := h
        subst hst
        subst hr
        have hrec : recognises fw hd = true := by simp [recognises, hb, hok]
        refine ⟨rfl, rfl, ⟨(b hd).2, rfl⟩, ⟨[Event.bind i0 reader], rfl, ?_, ?_⟩, ?_, by simp⟩
        · intro e he
          simp only [List.mem_singleton] at he
          refine ⟨i0, he, Nat.le_refl _, ?_⟩
          intro i hi
          simp only [Option.some.injEq] at hi
          omega
        · intro i hi
          simp only [Option.some.injEq] at hi
          subst hi
          simp
        · intro i hi
          simp only [Option.some.injEq] at hi
          refine ⟨0, fw, by omega, by simp, hrec, ?_⟩
          intro j _ hj
          exact absurd hj (Nat.not_lt_zero j)
      · simp only [hok, if_false] at h
        have hnot : recognises fw hd = false := by simp [recognises, hb, hok]
        have hcard1 : ((st.emit (Event.bind i0 reader)).set_card reader
            ⟨rd, some hd, fwk, (b hd).2, mx, nm⟩).card_table[reader]? =
            some ⟨rd, some hd, fwk, (b hd).2, mx, nm⟩ := by
          show (st.card_table.set reader _)[reader]? = _
          simp [hrlt]
        obtain ⟨hc, hv, ⟨d, hk⟩, ⟨evs, hlog, hev, hwin⟩, hsome, hnone⟩ :=
          ih (i0 + 1) _ _ r rv' st' _ hcard1 rfl h
        refine ⟨hc, hv, ⟨d, ?_⟩, ⟨Event.bind i0 reader :: evs, ?_, ?_, ?_⟩, ?_, ?_⟩
        · rw [hk]
          show (st.card_table.set reader _).set reader _ = _
          rw [List.set_set]
        · rw [hlog]
          show (st.log ++ [Event.bind i0 reader]) ++ evs = _
          simp
        · intro e he
          rcases List.mem_cons.1 he with he | he
          · refine ⟨i0, he, Nat.le_refl _, ?_⟩
            intro i hi
            obtain ⟨k, _, hik, _⟩ := hsome i hi
            omega
          · obtain ⟨j, hj1, hj2, hj3⟩ := hev e he
            exact ⟨j, hj1, by omega, hj3⟩
        · intro i hi
          exact List.mem_cons_of_mem _ (hwin i hi)
        · intro i hi
          obtain ⟨k, fw1, hik, hfw1, hrec, hbefore⟩ := hsome i hi
          refine ⟨k + 1, fw1, by omega, by simpa using hfw1, hrec, ?_⟩
          intro j fw' hj hfw'
          cases j with
          | zero =>
            simp only [List.getElem?_cons_zero, Option.some.injEq] at hfw'
            rw [← hfw']; exact hnot
          | succ j => exact hbefore j fw' (by omega) (by simpa using hfw')
        · intro hr k fw1 hfw1
          cases k with
          | zero =>
            simp only [List.getElem?_cons_zero, Option.some.injEq] at hfw1
            rw [← hfw1]; exact hnot
          | succ k => exact hnone hr k fw1 (by simpa using hfw1)

/-- The block "Detect the framework": either no framework recognises the
card, or the first one that does is asked to create the tokens, and it is
recorded in the entry exactly when that returns `CKR_OK`. -/
theorem detect_framework_spec (cfg : Config) (st : State) (reader : Nat) (card : sc_pkcs11_card)
    (hd : sc_card) (rv : CK_RV) (st' : State)
    (hcard : st.card_table[reader]? = some card) (hconn : card.card = some hd)
    (h : detect_framework cfg st reader = some (rv, st')) :
    st'.context = st.context ∧
    ∃ binds : List Event, (∀ e ∈ binds, ∃ j, e = Event.bind j reader) ∧
      ((rv = CKR_TOKEN_NOT_RECOGNIZED ∧
        (∀ (k : Nat) (fw : sc_pkcs11_framework_ops), cfg.frameworks[k]? = some fw →
          recognises fw hd = false) ∧
        st'.log = st.log ++ binds ∧ st'.virtual_slots = st.virtual_slots ∧
        ∃ d, st'.card_table = st.card_table.set reader
          { card with max_slots := slot_budget cfg, num_slots := 0, fw_data := d }) ∨
       (∃ (i : Nat) (fw : sc_pkcs11_framework_ops) (st2 : State) (card2 : sc_pkcs11_card)
          (rv3 : CK_RV) (st3 : State) (n : Nat),
          cfg.frameworks[i]? = some fw ∧ recognises fw hd = true ∧
          (∀ (j : Nat) (fw' : sc_pkcs11_framework_ops), j < i → cfg.frameworks[j]? = some fw' →
            recognises fw' hd = false) ∧
          Event.bind i reader ∈ binds ∧ (∀ j, Event.bind j reader ∈ binds → j ≤ i) ∧
          st2.card_table[reader]? = some card2 ∧
          card2 = { card with max_slots := slot_budget cfg, num_slots := 0,
                              fw_data := card2.fw_data } ∧
          st2.context = st.context ∧ st2.virtual_slots = st.virtual_slots ∧
          st2.log = st.log ++ binds ∧
          run_create_tokens reader (fw.create_tokens card2).1 (fw.create_tokens card2).2
            (st2.emit (Event.create_tokens i reader)) = some (rv3, st3) ∧
          st3.card_table = st2.card_table.set reader { card2 with num_slots := n } ∧
          st3.log = st.log ++ binds ++ [Event.create_tokens i reader] ∧
          ((rv3 ≠ CKR_OK ∧ rv = rv3 ∧ st' = st3) ∨
           (rv3 = CKR_OK ∧ rv = CKR_OK ∧
            st' = st3.set_card reader { card2 with num_slots := n, framework := some i })))) := by
  have hrlt : reader < st.card_table.length := by
    rcases List.getElem?_eq_some.1 hcard with ⟨hlt, _⟩
    exact hlt
  unfold detect_framework at h
  simp only [hcard] at h
  have hcard1 : (st.set_card reader
      { card with max_slots := slot_budget cfg, num_slots := 0 }).card_table[reader]? =
      some { card with max_slots := slot_budget cfg, num_slots := 0 } := by
    show (st.card_table.set reader _)[reader]? = _
    simp [hrlt]
  have hfold : (if cfg.conf_num_slots = 0 then cfg.SC_PKCS11_DEF_SLOTS_PER_CARD
      else cfg.conf_num_slots) = slot_budget cfg := rfl
  rw [hfold] at h
  cases hbf : bind_frameworks reader cfg.frameworks 0 CKR_OK
      (st.set_card reader { card with max_slots := slot_budget cfg, num_slots := 0 }) with
  | none => simp [hbf] at h
  | some x =>
    obtain ⟨r, rvb, st2⟩ := x
    obtain ⟨hc2, hv2, ⟨d, hk2⟩, ⟨binds, hlog2, hev2, hwin2⟩, hsome2, hnone2⟩ :=
      bind_frameworks_spec reader hd cfg.frameworks 0 CKR_OK _ r rvb st2 _ hcard1 hconn hbf
    have hk2' : st2.card_table = st.card_table.set reader
        { card with max_slots := slot_budget cfg, num_slots := 0, fw_data := d } := by
      rw [hk2]
      show (st.card_table.set reader _).set reader _ = _
      rw [List.set_set]
    have hbinds : ∀ e ∈ binds, ∃ j, e = Event.bind j reader := by
      intro e he
      obtain ⟨j, hj, _⟩ := hev2 e he
      exact ⟨j, hj⟩
    refine ⟨?_, binds, hbinds, ?_⟩
    · cases r with
      | none =>
        simp only [hbf, Option.some.injEq, Prod.mk.injEq] at h
        rw [← h.2]; exact hc2
      | some i =>
        simp only [hbf] at h
        obtain ⟨k, fw, hik, hfw, _, _⟩ := hsome2 i rfl
        have hki : k = i := by omega
        subst hki
        have hcard2 : st2.card_table[reader]? = some
            { card with max_slots := slot_budget cfg, num_slots := 0, fw_data := d } := by
          rw [hk2']; simp [hrlt]
        simp only [hfw, hcard2] at h
        cases hrun : run_create_tokens reader
            (fw.create_tokens { card with max_slots := slot_budget cfg, num_slots := 0,
                                          fw_data := d }).1
            (fw.create_tokens { card with max_slots := slot_budget cfg, num_slots := 0,
                                          fw_data := d }).2
            (st2.emit (Event.create_tokens k reader)) with
        | none => simp [hrun] at h
        | some y =>
          obtain ⟨rv3, st3⟩ := y
          have hcard2e : (st2.emit (Event.create_tokens k reader)).card_table[reader]? = some
              { card with max_slots := slot_budget cfg, num_slots := 0, fw_data := d } := hcard2
          obtain ⟨hc3, _, n, hk3⟩ := run_create_tokens_frame reader _ _ _ rv3 st3 _ hcard2e hrun
          simp only [hrun] at h
          by_cases hok : rv3 = CKR_OK
          · have hcard3 : st3.card_table[reader]? = some
                { card with max_slots := slot_budget cfg, num_slots := n, fw_data := d } := by
              rw [hk3]
              show (st2.card_table.set reader _)[reader]? = _
              rw [hk2']; simp [hrlt]
            simp only [hok, ne_eq, not_true_eq_false, if_false, hcard3, Option.some.injEq,
              Prod.mk.injEq] at h
            rw [← h.2]
            exact hc3.trans hc2
          · simp only [hok, ne_eq, not_false_eq_true, if_true, Option.some.injEq,
              Prod.mk.injEq] at h
            rw [← h.2]
            exact hc3.trans hc2
    · cases r with
      | none =>
        simp only [hbf, Option.some.injEq, Prod.mk.injEq] at h
        obtain ⟨hrv, hst⟩ := h
        subst hst
        exact Or.inl ⟨hrv.symm, hnone2 rfl, hlog2, hv2, d, hk2'⟩
      | some i =>
        right
        simp only [hbf] at h
        obtain ⟨k, fw, hik, hfw, hrec, hbefore⟩ := hsome2 i rfl
        have hki : k = i := by omega
        subst hki
        have hcard2 : st2.card_table[reader]? = some
            { card with max_slots := slot_budget cfg, num_slots := 0, fw_data := d } := by
          rw [hk2']; simp [hrlt]
        simp only [hfw, hcard2] at h
        cases hrun : run_create_tokens reader
            (fw.create_tokens { card with max_slots := slot_budget cfg, num_slots := 0,
                                          fw_data := d }).1
            (fw.create_tokens { card with max_slots := slot_budget cfg, num_slots := 0,
                                          fw_data := d }).2
            (st2.emit (Event.create_tokens k reader)) with
        | none => simp [hrun] at h
        | some y =>
          obtain ⟨rv3, st3⟩ := y
          have hcard2e : (st2.emit (Event.create_tokens k reader)).card_table[reader]? = some
              { card with max_slots := slot_budget cfg, num_slots := 0, fw_data := d } := hcard2
          obtain ⟨_, hl3, n, hk3⟩ := run_create_tokens_frame reader _ _ _ rv3 st3 _ hcard2e hrun
          have hk3' : st3.card_table = st2.card_table.set reader
              { card with max_slots := slot_budget cfg, num_slots := n, fw_data := d } := hk3
          have hl3' : st3.log = st.log ++ binds ++ [Event.create_tokens k reader] := by
            rw [hl3]
            show st2.log ++ _ = _
            rw [hlog2]
            rfl
          have hle : ∀ j, Event.bind j reader ∈ binds → j ≤ k := by
            intro j hj
            obtain ⟨j', hj1, _, hj3⟩ := hev2 _ hj
            have : j = j' := by
              simp only [Event.bind.injEq, and_true] at hj1
              exact hj1
            subst this
            exact hj3 k rfl
          simp only [hrun] at h
          refine ⟨k, fw, st2, _, rv3, st3, n, hfw, hrec, hbefore, hwin2 k rfl, hle, hcard2, rfl,
            hc2, hv2, hlog2, hrun, hk3', hl3', ?_⟩
          by_cases hok : rv3 = CKR_OK
          · have hcard3 : st3.card_table[reader]? = some
                { card with max_slots := slot_budget cfg, num_slots := n, fw_data := d } := by
              rw [hk3']
              rw [hk2', List.set_set]; simp [hrlt]
            simp only [hok, ne_eq, not_true_eq_false, if_false, hcard3, Option.some.injEq,
              Prod.mk.injEq] at h
            exact Or.inr ⟨hok, h.1.symm, h.2.symm⟩
          · simp only [hok, ne_eq, not_false_eq_true, if_true, Option.some.injEq,
              Prod.mk.injEq] at h
            exact Or.inl ⟨hok, h.1.symm, h.2.symm⟩

/-! ## C4, C5: framework detection -/

theorem card_detect_present (cfg : Config) (tr : Transport) (st : State) (reader : Nat)
    (ctx : sc_context) (hctx : st.context = some ctx) (hreader : reader < ctx.reader_count)
    (hpos : 0 < tr.sc_detect_card_presence 0)
    (hsame : card_changed (tr.sc_detect_card_presence 0) = false) :
    card_detect cfg tr st reader =
      card_detect_known cfg tr (st.emit (Event.detect_card_presence reader)) reader := by
  unfold card_detect card_detect_again
  simp [hctx, hreader, hsame, not_lt_of_gt hpos, ne_of_gt hpos]

theorem card_detect_known_connected (cfg : Config) (tr : Transport) (st : State) (reader : Nat)
    (card : sc_pkcs11_card) (hd : sc_card) (hcard : st.card_table[reader]? = some card)
    (hconn : card.card = some hd) (hfw : card.framework = none) :
    card_detect_known cfg tr st reader = detect_framework cfg st reader := by
  unfold card_detect_known
  simp [hcard, hconn, hfw]

theorem presence_queries_quiet (l : List Event) (h : ∀ e ∈ l, is_quiet e = true) :
    presence_queries l = 0 := by
  unfold presence_queries
  rw [List.countP_eq_zero]
  intro e he
  have := h e he
  simp only [is_quiet, Bool.and_eq_true, Bool.not_eq_true'] at this
  simp [this.1.1]

theorem removals_quiet (l : List Event) (h : ∀ e ∈ l, is_quiet e = true) : removals l = 0 := by
  unfold removals
  rw [List.countP_eq_zero]
  intro e he
  have := h e he
  simp only [is_quiet, Bool.and_eq_true, Bool.not_eq_true'] at this
  simp [this.2]

theorem change_removals_append (l1 l2 : List Event)
    (h : ∀ e ∈ l1, is_card_changed e = false) :
    change_removals (l1 ++ l2) = change_removals l2 := by
  induction l1 with
  | nil => rfl
  | cons a rest ih =>
    have ha : is_card_changed a = false := h a (List.mem_cons_self _ _)
    have hrest := ih (fun e he => h e (List.mem_cons_of_mem _ he))
    show change_removals (a :: (rest ++ l2)) = change_removals l2
    rw [← hrest]
    generalize rest ++ l2 = m
    cases m <;> simp [change_removals, ha]

theorem change_removals_none (l : List Event) (h : ∀ e ∈ l, is_card_changed e = false) :
    change_removals l = 0 := by
  have := change_removals_append l [] h
  simpa [change_removals] using this

theorem quiet_not_changed (l : List Event) (h : ∀ e ∈ l, is_quiet e = true) :
    ∀ e ∈ l, is_card_changed e = false := by
  intro e he
  have := h e he
  simp only [is_quiet, Bool.and_eq_true, Bool.not_eq_true'] at this
  exact this.1.2

theorem slot_event_quiet (e : Event) (h : is_slot_event e = true) : is_quiet e = true := by
  cases e <;> simp [is_slot_event] at h <;> rfl

theorem binding_event_quiet (e : Event) (h : is_binding_event e = true) : is_quiet e = true := by
  cases e <;> simp [is_binding_event] at h <;> rfl

/-- The trace of `card_removed`: its debug line, then quiet events only. -/
theorem card_removed_log (st st' : State) (reader : Nat) (rv : CK_RV)
    (h : card_removed st reader = some (rv, st')) :
    st'.context = st.context ∧
    ∃ R, st'.log = st.log ++ Event.debug_smartcard_removed reader :: R ∧
      ∀ e ∈ R, is_quiet e = true := by
  obtain ⟨_, hc, card, _, _, _, _, evs, hev, _, hlog⟩ := card_removed_spec st st' reader rv h
  refine ⟨hc, evs ++ (unbind_events card reader ++ disconnect_events card), hlog, ?_⟩
  intro e he
  rcases List.mem_append.1 he with he | he
  · exact slot_event_quiet e (hev e he)
  · rcases List.mem_append.1 he with he | he
    · unfold unbind_events at he
      split at he
      · simp only [List.mem_singleton] at he; rw [he]; rfl
      · simp at he
    · unfold disconnect_events at he
      split at he
      · simp only [List.mem_singleton] at he; rw [he]; rfl
      · simp at he

theorem detect_framework_log (cfg : Config) (st st' : State) (reader : Nat)
    (card : sc_pkcs11_card) (hd : sc_card) (rv : CK_RV)
    (hcard : st.card_table[reader]? = some card) (hconn : card.card = some hd)
    (h : detect_framework cfg st reader = some (rv, st')) :
    ∃ K, st'.log = st.log ++ K ∧ ∀ e ∈ K, is_quiet e = true := by
  obtain ⟨_, binds, hbinds, hcases⟩ := detect_framework_spec cfg st reader card hd rv st' hcard hconn h
  have hq : ∀ e ∈ binds, is_quiet e = true := by
    intro e he
    obtain ⟨j, hj⟩ := hbinds e he
    rw [hj]; rfl
  rcases hcases with ⟨_, _, hlog, _⟩ | ⟨i, fw, st2, card2, rv3, st3, n, _, _, _, _, _, _, _, _, _, _,
    _, _, hl3, hfin⟩
  · exact ⟨binds, hlog, hq⟩
  · have hlog : st'.log = st.log ++ (binds ++ [Event.create_tokens i reader]) := by
      rcases hfin with ⟨_, _, hst'⟩ | ⟨_, _, hst'⟩
      · rw [hst', hl3, List.append_assoc]
      · rw [hst']
        show st3.log = _
        rw [hl3, List.append_assoc]
    refine ⟨_, hlog, ?_⟩
    intro e he
    rcases List.mem_append.1 he with he | he
    · exact hq e he
    · simp only [List.mem_singleton] at he; rw [he]; rfl

theorem card_detect_known_bound (cfg : Config) (tr : Transport) (st : State) (reader : Nat)
    (card : sc_pkcs11_card) (hd : sc_card) (fw : Nat) (hcard : st.card_table[reader]? = some card)
    (hconn : card.card = some hd) (hfw : card.framework = some fw) :
    card_detect_known cfg tr st reader = some (CKR_OK, st) := by
  unfold card_detect_known
  simp [hcard, hconn, hfw]

theorem card_detect_known_connect_failed (cfg : Config) (tr : Transport) (st : State)
    (reader : Nat) (card : sc_pkcs11_card) (hcard : st.card_table[reader]? = some card)
    (hconn : card.card = none) (hrc : tr.sc_connect_card.1 ≠ SC_SUCCESS) :
    card_detect_known cfg tr st reader =
      some (cfg.sc_to_cryptoki_error tr.sc_connect_card.1 reader,
        st.emit (Event.connect_card reader)) := by
  unfold card_detect_known
  simp [hcard, hconn, hrc]

theorem card_detect_known_connects (cfg : Config) (tr : Transport) (st : State)
    (reader : Nat) (card : sc_pkcs11_card) (hcard : st.card_table[reader]? = some card)
    (hconn : card.card = none) (hrc : tr.sc_connect_card.1 = SC_SUCCESS) :
    card_detect_known cfg tr st reader =
      if card.framework = none then
        detect_framework cfg ((st.emit (Event.connect_card reader)).set_card reader
          { card with card := some tr.sc_connect_card.2 }) reader
      else some (CKR_OK, (st.emit (Event.connect_card reader)).set_card reader
          { card with card := some tr.sc_connect_card.2 }) := by
  have hrlt : reader < st.card_table.length := by
    rcases List.getElem?_eq_some.1 hcard with ⟨hlt, _⟩
    exact hlt
  have hcard1 : ((st.emit (Event.connect_card reader)).set_card reader
      { card with card := some tr.sc_connect_card.2 }).card_table[reader]? =
      some { card with card := some tr.sc_connect_card.2 } := by
    show (st.card_table.set reader _)[reader]? = _
    simp [hrlt]
  unfold card_detect_known
  simp only [hcard, hconn, if_true, hrc, ne_eq, not_true_eq_false, if_false, hcard1]

theorem card_detect_known_log (cfg : Config) (tr : Transport) (st st' : State) (reader : Nat)
    (rv : CK_RV) (h : card_detect_known cfg tr st reader = some (rv, st')) :
    ∃ K, st'.log = st.log ++ K ∧ ∀ e ∈ K, is_quiet e = true := by
  cases hcard : st.card_table[reader]? with
  | none =>
    unfold card_detect_known at h
    simp [hcard] at h
  | some card =>
    have hrlt : reader < st.card_table.length := by
      rcases List.getElem?_eq_some.1 hcard with ⟨hlt, _⟩
      exact hlt
    cases hconn : card.card with
    | some hd =>
      cases hfw : card.framework with
      | none =>
        rw [card_detect_known_connected cfg tr st reader card hd hcard hconn hfw] at h
        exact detect_framework_log cfg st st' reader card hd rv hcard hconn h
      | some fw =>
        rw [card_detect_known_bound cfg tr st reader card hd fw hcard hconn hfw] at h
        simp only [Option.some.injEq, Prod.mk.injEq] at h
        exact ⟨[], by rw [← h.2]; simp, by simp⟩
    | none =>
      by_cases hrc : tr.sc_connect_card.1 = SC_SUCCESS
      · rw [card_detect_known_connects cfg tr st reader card hcard hconn hrc] at h
        have hcard1 : ((st.emit (Event.connect_card reader)).set_card reader
            { card with card := some tr.sc_connect_card.2 }).card_table[reader]? =
            some { card with card := some tr.sc_connect_card.2 } := by
          show (st.card_table.set reader _)[reader]? = _
          simp [hrlt]
        by_cases hfw : card.framework = none
        · rw [if_pos hfw] at h
          obtain ⟨K, hlog, hq⟩ := detect_framework_log cfg _ st' reader _ tr.sc_connect_card.2 rv
            hcard1 rfl h
          refine ⟨Event.connect_card reader :: K, ?_, ?_⟩
          · rw [hlog]
            show (st.log ++ [Event.connect_card reader]) ++ K = _
            simp
          · intro e he
            rcases List.mem_cons.1 he with he | he
            · rw [he]; rfl
            · exact hq e he
        · rw [if_neg hfw] at h
          simp only [Option.some.injEq, Prod.mk.injEq] at h
          refine ⟨[Event.connect_card reader], by rw [← h.2]; rfl, ?_⟩
          intro e he
          simp only [List.mem_singleton] at he; rw [he]; rfl
      · rw [card_detect_known_connect_failed cfg tr st reader card hcard hconn hrc] at h
        simp only [Option.some.injEq, Prod.mk.injEq] at h
        refine ⟨[Event.connect_card reader], by rw [← h.2]; rfl, ?_⟩
        intro e he
        simp only [List.mem_singleton] at he; rw [he]; rfl

/-- The last round of the presence check (no retry left): one presence query,
no change-triggered removal. -/
theorem card_detect_again_zero (cfg : Config) (tr : Transport) (reader k : Nat) (st st' : State)
    (rv : CK_RV) (h : card_detect_again cfg tr reader 0 k st = some (rv, st')) :
    ∃ evs, st'.log = st.log ++ evs ∧ presence_queries evs = 1 ∧ change_removals evs = 0 ∧
      removals evs ≤ 1 := by
  unfold card_detect_again at h
  cases hctx : st.context with
  | none => simp [hctx] at h
  | some ctx =>
    simp only [hctx] at h
    by_cases hreader : reader < ctx.reader_count
    · simp only [hreader, not_true_eq_false, if_false] at h
      by_cases hneg : tr.sc_detect_card_presence k < 0
      · simp only [hneg, if_true, Option.some.injEq, Prod.mk.injEq] at h
        exact ⟨[Event.detect_card_presence reader], by rw [← h.2]; rfl, rfl, rfl,
          Nat.zero_le _⟩
      · simp only [hneg, if_false] at h
        by_cases hzero : tr.sc_detect_card_presence k = 0
        · simp only [hzero, if_true] at h
          cases hrem : card_removed ((st.emit (Event.detect_card_presence reader)).emit
              (Event.debug_card_absent reader)) reader with
          | none => simp [hrem] at h
          | some x =>
            obtain ⟨rv2, st2⟩ := x
            simp only [hrem, Option.some.injEq, Prod.mk.injEq] at h
            obtain ⟨_, R, hlog, hq⟩ := card_removed_log _ st2 reader rv2 hrem
            have hlog' : st'.log = st.log ++ (Event.detect_card_presence reader ::
                Event.debug_card_absent reader :: Event.debug_smartcard_removed reader :: R) := by
              rw [← h.2, hlog]
              simp [State.emit]
            refine ⟨_, hlog', ?_, ?_, ?_⟩
            · have := presence_queries_quiet R hq
              simp only [presence_queries] at this ⊢
              simp [List.countP_cons, is_presence_query, this]
            · apply change_removals_none
              intro e he
              simp only [List.mem_cons] at he
              rcases he with he | he | he | he
              · rw [he]; rfl
              · rw [he]; rfl
              · rw [he]; rfl
              · exact quiet_not_changed R hq e he
            · have := removals_quiet R hq
              simp only [removals] at this ⊢
              simp [List.countP_cons, is_removal, this]
        · simp only [hzero, if_false] at h
          by_cases hch : card_changed (tr.sc_detect_card_presence k) = true
          · simp only [hch, if_true, Option.some.injEq, Prod.mk.injEq] at h
            exact ⟨[Event.detect_card_presence reader, Event.debug_card_changed reader],
              by rw [← h.2]; simp [State.emit], rfl, rfl, Nat.zero_le _⟩
          · simp only [hch, if_false] at h
            obtain ⟨K, hlog, hq⟩ := card_detect_known_log cfg tr _ st' reader rv h
            have hlog' : st'.log = st.log ++ (Event.detect_card_presence reader :: K) := by
              rw [hlog]
              simp [State.emit]
            refine ⟨_, hlog', ?_, ?_, ?_⟩
            · have := presence_queries_quiet K hq
              simp only [presence_queries] at this ⊢
              simp [List.countP_cons, is_presence_query, this]
            · apply change_removals_none
              intro e he
              rcases List.mem_cons.1 he with he | he
              · rw [he]; rfl
              · exact quiet_not_changed K hq e he
            · have := removals_quiet K hq
              simp only [removals] at this ⊢
              simp [List.countP_cons, is_removal, this]
    · simp [hreader] at h

/-- Unless the transport signals a change, the retry counter plays no part. -/
theorem card_detect_again_unchanged (cfg : Config) (tr : Transport) (reader retry k : Nat)
    (st : State)
    (hno : ¬ (0 < tr.sc_detect_card_presence k ∧
      card_changed (tr.sc_detect_card_presence k) = true)) :
    card_detect_again cfg tr reader retry k st = card_detect_again cfg tr reader 0 k st := by
  cases retry with
  | zero => rfl
  | succ n =>
    unfold card_detect_again
    cases hctx : st.context with
    | none => rfl
    | some ctx =>
      simp only
      by_cases hreader : reader < ctx.reader_count
      · simp only [hreader, not_true_eq_false, if_false]
        by_cases hneg : tr.sc_detect_card_presence k < 0
        · simp only [hneg, if_true]
        · simp only [hneg, if_false]
          by_cases hzero : tr.sc_detect_card_presence k = 0
          · simp only [hzero, if_true]
          · simp only [hzero, if_false]
            have hpos : 0 < tr.sc_detect_card_presence k := by omega
            have hch : card_changed (tr.sc_detect_card_presence k) = false := by
              cases hc : card_changed (tr.sc_detect_card_presence k) with
              | false => rfl
              | true => exact absurd ⟨hpos, hc⟩ hno
            simp [hch]
      · simp only [hreader, not_false_eq_true, if_true]

/-- The round of the presence check that sees a changed card with a retry
left: it removes the card and checks again. -/
theorem card_detect_again_changed (cfg : Config) (tr : Transport) (reader retry k : Nat)
    (st : State) (ctx : sc_context) (hctx : st.context = some ctx)
    (hreader : reader < ctx.reader_count) (hpos : 0 < tr.sc_detect_card_presence k)
    (hch : card_changed (tr.sc_detect_card_presence k) = true) :
    card_detect_again cfg tr reader (retry + 1) k st =
      match card_removed ((st.emit (Event.detect_card_presence reader)).emit
          (Event.debug_card_changed reader)) reader with
      | none => none
      | some (_, st3) => card_detect_again cfg tr reader retry (k + 1) st3 := by
  rw [card_detect_again]
  simp only [hctx, hreader, not_true_eq_false, if_false, not_lt_of_gt hpos, ne_of_gt hpos, hch,
    if_true]

theorem card_detect_again_changed_zero (cfg : Config) (tr : Transport) (reader k : Nat)
    (st : State) (ctx : sc_context) (hctx : st.context = some ctx)
    (hreader : reader < ctx.reader_count) (hpos : 0 < tr.sc_detect_card_presence k)
    (hch : card_changed (tr.sc_detect_card_presence k) = true) :
    card_detect_again cfg tr reader 0 k st =
      some (CKR_TOKEN_NOT_PRESENT, (st.emit (Event.detect_card_presence reader)).emit
          (Event.debug_card_changed reader)) := by
  rw [card_detect_again]
  simp only [hctx, hreader, not_true_eq_false, if_false, not_lt_of_gt hpos, ne_of_gt hpos, hch,
    if_true]

/-- C3: whenever `card_detect` returns, it has made one or two presence
queries and at most one change-triggered removal.  When the transport answers
"changed" to every query (and the one `card_removed` involved returns),
`card_detect` returns `CKR_TOKEN_NOT_PRESENT` after exactly two presence
queries and exactly one run of `card_removed`, which is change-triggered. -/
theorem card_detect_bounded_retry (cfg : Config) (tr : Transport) (st : State) (reader : Nat) :
    (∀ (rv : CK_RV) (st' : State), card_detect cfg tr st reader = some (rv, st') →
      ∃ evs, st'.log = st.log ++ evs ∧ 1 ≤ presence_queries evs ∧ presence_queries evs ≤ 2 ∧
        change_removals evs ≤ 1) ∧
    ((∀ k, 0 < tr.sc_detect_card_presence k ∧
        card_changed (tr.sc_detect_card_presence k) = true) →
      ∀ (ctx : sc_context) (rv1 : CK_RV) (st1 : State), st.context = some ctx →
        reader < ctx.reader_count →
        card_removed ((st.emit (Event.detect_card_presence reader)).emit
          (Event.debug_card_changed reader)) reader = some (rv1, st1) →
        card_detect cfg tr st reader =
          some (CKR_TOKEN_NOT_PRESENT, (st1.emit (Event.detect_card_presence reader)).emit
            (Event.debug_card_changed reader)) ∧
        ∃ evs, ((st1.emit (Event.detect_card_presence reader)).emit
            (Event.debug_card_changed reader)).log = st.log ++ evs ∧
          presence_queries evs = 2 ∧ removals evs = 1 ∧ change_removals evs = 1) := by
  have hshape : ∀ (R evs0 : List Event), (∀ e ∈ R, is_quiet e = true) →
      presence_queries (Event.detect_card_presence reader :: Event.debug_card_changed reader ::
        Event.debug_smartcard_removed reader :: (R ++ evs0)) = 1 + presence_queries evs0 ∧
      removals (Event.detect_card_presence reader :: Event.debug_card_changed reader ::
        Event.debug_smartcard_removed reader :: (R ++ evs0)) = 1 + removals evs0 ∧
      change_removals (Event.detect_card_presence reader :: Event.debug_card_changed reader ::
        Event.debug_smartcard_removed reader :: (R ++ evs0)) = 1 + change_removals evs0 := by
    intro R evs0 hq
    refine ⟨?_, ?_, ?_⟩
    · have := presence_queries_quiet R hq
      simp only [presence_queries] at this ⊢
      simp [List.countP_cons, List.countP_append, is_presence_query, this]
      omega
    · have := removals_quiet R hq
      simp only [removals] at this ⊢
      simp [List.countP_cons, List.countP_append, is_removal, this]
      omega
    · have h1 : change_removals ((Event.debug_smartcard_removed reader :: R) ++ evs0) =
          change_removals evs0 := by
        apply change_removals_append
        intro e he
        rcases List.mem_cons.1 he with he | he
        · rw [he]; rfl
        · exact quiet_not_changed R hq e he
      have h2 : change_removals (Event.detect_card_presence reader ::
          Event.debug_card_changed reader :: Event.debug_smartcard_removed reader :: (R ++ evs0)) =
          0 + (1 + change_removals ((Event.debug_smartcard_removed reader :: R) ++ evs0)) := rfl
      rw [h2, h1]
      omega
  refine ⟨?_, ?_⟩
  · intro rv st' h
    unfold card_detect at h
    by_cases hchg : 0 < tr.sc_detect_card_presence 0 ∧
        card_changed (tr.sc_detect_card_presence 0) = true
    · cases hctx : st.context with
      | none =>
        unfold card_detect_again at h
        simp [hctx] at h
      | some ctx =>
        by_cases hreader : reader < ctx.reader_count
        · rw [card_detect_again_changed cfg tr reader 0 0 st ctx hctx hreader hchg.1 hchg.2] at h
          cases hrem : card_removed ((st.emit (Event.detect_card_presence reader)).emit
              (Event.debug_card_changed reader)) reader with
          | none => simp [hrem] at h
          | some x =>
            obtain ⟨rv2, st3⟩ := x
            simp only [hrem] at h
            obtain ⟨_, R, hlogR, hq⟩ := card_removed_log _ st3 reader rv2 hrem
            obtain ⟨evs0, hlog0, hpq0, hcr0, _⟩ :=
              card_detect_again_zero cfg tr reader (0 + 1) st3 st' rv h
            obtain ⟨h1, _, h3⟩ := hshape R evs0 hq
            refine ⟨Event.detect_card_presence reader :: Event.debug_card_changed reader ::
              Event.debug_smartcard_removed reader :: (R ++ evs0), ?_, ?_, ?_, ?_⟩
            · rw [hlog0, hlogR]
              simp [State.emit]
            · rw [h1]; omega
            · rw [h1, hpq0]
            · rw [h3, hcr0]
        · unfold card_detect_again at h
          simp [hctx, hreader] at h
    · rw [card_detect_again_unchanged cfg tr reader 1 0 st hchg] at h
      obtain ⟨evs, hlog, hpq, hcr, _⟩ := card_detect_again_zero cfg tr reader 0 st st' rv h
      exact ⟨evs, hlog, by omega, by omega, by omega⟩
  · intro hall ctx rv1 st1 hctx hreader hrem
    obtain ⟨hc1, R, hlogR, hq⟩ := card_removed_log _ st1 reader rv1 hrem
    have hctx1 : st1.context = some ctx := by
      rw [hc1]; exact hctx
    refine ⟨?_, Event.detect_card_presence reader :: Event.debug_card_changed reader ::
      Event.debug_smartcard_removed reader ::
        (R ++ [Event.detect_card_presence reader, Event.debug_card_changed reader]), ?_, ?_⟩
    · unfold card_detect
      rw [card_detect_again_changed cfg tr reader 0 0 st ctx hctx hreader (hall 0).1 (hall 0).2]
      simp only [hrem]
      exact card_detect_again_changed_zero cfg tr reader (0 + 1) st1 ctx hctx1 hreader
        (hall _).1 (hall _).2
    · show (st1.log ++ [Event.detect_card_presence reader]) ++
        [Event.debug_card_changed reader] = _
      rw [hlogR]
      simp [State.emit]
    · obtain ⟨h1, h2, h3⟩ := hshape R
        [Event.detect_card_presence reader, Event.debug_card_changed reader] hq
      exact ⟨h1, h2, h3⟩

theorem card_detect_bounded_retry_witness :
    card_detect (ex_config [ex_framework_good]) ex_transport_changed ex_state 0 =
      some (CKR_TOKEN_NOT_PRESENT,
        (({ ex_state_removed with
            log := Event.detect_card_presence 0 :: Event.debug_card_changed 0 ::
              ex_state_removed.log } : State).emit (Event.detect_card_presence 0)).emit
          (Event.debug_card_changed 0)) ∧
    ∃ evs, ((({ ex_state_removed with
            log := Event.detect_card_presence 0 :: Event.debug_card_changed 0 ::
              ex_state_removed.log } : State).emit (Event.detect_card_presence 0)).emit
          (Event.debug_card_changed 0)).log = ex_state.log ++ evs ∧
      presence_queries evs = 2 ∧ removals evs = 1 ∧ change_removals evs = 1 :=
  (card_detect_bounded_retry (ex_config [ex_framework_good]) ex_transport_changed ex_state 0).2
    (fun _ => (show (0 : Int) < 3 ∧ card_changed 3 = true from by decide))
    { reader_count := 2 } CKR_OK _ rfl (by decide) (by decide)

/-! ## C12, C13: slot lookup -/

/-- C12, as stated, fails when the context is not initialised: the guard of
`slot_get_slot` then returns `CKR_CRYPTOKI_NOT_INITIALIZED` both for the
in-range id 0, where the claim promises success, and for the id -1, where it
promises `CKR_SLOT_ID_INVALID`. -/
theorem slot_get_slot_uninitialized_counterexample :
    (0 : Int) < (SC_PKCS11_MAX_VIRTUAL_SLOTS ex_state_no_context : Int) ∧
    slot_get_slot ex_state_no_context 0 = (CKR_CRYPTOKI_NOT_INITIALIZED, none) ∧
    slot_get_slot ex_state_no_context (-1) = (CKR_CRYPTOKI_NOT_INITIALIZED, none) ∧
    CKR_CRYPTOKI_NOT_INITIALIZED ≠ CKR_OK ∧
    CKR_CRYPTOKI_NOT_INITIALIZED ≠ CKR_SLOT_ID_INVALID := by
  decide

/-- C12 (amended): with the context not initialised `slot_get_slot` returns
`CKR_CRYPTOKI_NOT_INITIALIZED` for every id.  With the context initialised it
returns `CKR_SLOT_ID_INVALID` if `id < 0` or `id >= SC_PKCS11_MAX_VIRTUAL_SLOTS`,
and otherwise `CKR_OK` with the slot stored at index `id`, whatever that
slot's card reference is.  It is a function of the state only and returns no
new state. -/
theorem slot_get_slot_spec (st : State) (id : Int) :
    (st.context = none → slot_get_slot st id = (CKR_CRYPTOKI_NOT_INITIALIZED, none)) ∧
    (st.context ≠ none → (id < 0 ∨ id ≥ (SC_PKCS11_MAX_VIRTUAL_SLOTS st : Int)) →
      slot_get_slot st id = (CKR_SLOT_ID_INVALID, none)) ∧
    (st.context ≠ none → 0 ≤ id → id < (SC_PKCS11_MAX_VIRTUAL_SLOTS st : Int) →
      ∃ (i : Nat) (slot : sc_pkcs11_slot), (i : Int) = id ∧
        slot_get_slot st id = (CKR_OK, some i) ∧ st.virtual_slots[i]? = some slot) := by
  refine ⟨?_, ?_, ?_⟩
  · intro hctx
    simp [slot_get_slot, hctx]
  · intro hctx hout
    simp only [slot_get_slot, hctx, if_false, hout, if_true]
  · intro hctx h0 hlt
    have hin : ¬ (id < 0 ∨ id ≥ (SC_PKCS11_MAX_VIRTUAL_SLOTS st : Int)) := by omega
    have hnat : (id.toNat : Int) = id := Int.toNat_of_nonneg h0
    have hlen : id.toNat < st.virtual_slots.length := by
      unfold SC_PKCS11_MAX_VIRTUAL_SLOTS at hlt
      omega
    refine ⟨id.toNat, st.virtual_slots[id.toNat], hnat, ?_, ?_⟩
    · simp only [slot_get_slot, hctx, if_false, hin]
    · exact List.getElem?_eq_getElem hlen

theorem slot_get_slot_spec_witness :
    ∃ (i : Nat) (slot : sc_pkcs11_slot), (i : Int) = 2 ∧
      slot_get_slot ex_state 2 = (CKR_OK, some i) ∧ ex_state.virtual_slots[i]? = some slot :=
  (slot_get_slot_spec ex_state 2).2.2 (by decide) (by decide) (by decide)

/-- C13: `slot_get_token` returns the result of `slot_get_slot` when that is an
error; when `slot_get_slot` returns `CKR_OK` with a slot, it returns `CKR_OK`
with the same slot if the slot's flags contain `CKF_TOKEN_PRESENT`, and
`CKR_TOKEN_NOT_PRESENT` otherwise, so it succeeds if and only if the flag is
set. -/
theorem slot_get_token_spec (st : State) (id : Int) :
    ((slot_get_slot st id).1 ≠ CKR_OK → slot_get_token st id = slot_get_slot st id) ∧
    (∀ (i : Nat) (slot : sc_pkcs11_slot), slot_get_slot st id = (CKR_OK, some i) →
      st.virtual_slots[i]? = some slot →
      (slot.slot_info.flags &&& CKF_TOKEN_PRESENT ≠ 0 →
        slot_get_token st id = (CKR_OK, some i)) ∧
      (slot.slot_info.flags &&& CKF_TOKEN_PRESENT = 0 →
        slot_get_token st id = (CKR_TOKEN_NOT_PRESENT, some i)) ∧
      ((slot_get_token st id).1 = CKR_OK ↔ slot.slot_info.flags &&& CKF_TOKEN_PRESENT ≠ 0)) := by
  refine ⟨?_, ?_⟩
  · intro herr
    unfold slot_get_token
    simp only [herr, ne_eq, not_false_eq_true, if_true]
  · intro i slot hget hslot
    have hyes : slot.slot_info.flags &&& CKF_TOKEN_PRESENT ≠ 0 →
        slot_get_token st id = (CKR_OK, some i) := by
      intro hflag
      unfold slot_get_token
      simp only [hget, ne_eq, not_true_eq_false, if_false, hslot, hflag]
    have hno : slot.slot_info.flags &&& CKF_TOKEN_PRESENT = 0 →
        slot_get_token st id = (CKR_TOKEN_NOT_PRESENT, some i) := by
      intro hflag
      unfold slot_get_token
      simp only [hget, ne_eq, not_true_eq_false, if_false, hslot, hflag, if_true]
    refine ⟨hyes, hno, ?_⟩
    by_cases hflag : slot.slot_info.flags &&& CKF_TOKEN_PRESENT = 0
    · rw [hno hflag]
      exact ⟨fun h => absurd h (show CKR_TOKEN_NOT_PRESENT ≠ CKR_OK from by decide),
        fun h => absurd hflag h⟩
    · rw [hyes hflag]
      exact ⟨fun _ => hflag, fun _ => rfl⟩

theorem slot_get_token_spec_witness :
    slot_get_token (ex_state_detected 1 []) 0 = (CKR_OK, some 0) ∧
    slot_get_token (ex_state_detected 1 []) 1 = (CKR_TOKEN_NOT_PRESENT, some 1) ∧
    slot_get_token (ex_state_detected 1 []) 7 = slot_get_slot (ex_state_detected 1 []) 7 :=
  ⟨((slot_get_token_spec (ex_state_detected 1 []) 0).2 0 (ex_token_slot true) (by decide)
      (by decide)).1 (by decide),
    ((slot_get_token_spec (ex_state_detected 1 []) 1).2 1 (ex_slot 1 none none []) (by decide)
      (by decide)).2.1 (by decide),
    (slot_get_token_spec (ex_state_detected 1 []) 7).1 (by decide)⟩

/-! ## C20, C15, C14: `card_detect` on a bound card, transport errors, the sweep -/

/-- C20: when the transport reports the card present and unchanged and the
entry has a connected card handle and a bound framework, `card_detect`
returns `CKR_OK`; its only call is the presence query (no connect, no `bind`,
no `create_tokens`), and the context, the card table and the slot pool are
unchanged.  A second `card_detect` under the same answer does the same. -/
theorem card_detect_bound_noop (cfg : Config) (tr : Transport) (st : State) (reader : Nat)
    (ctx : sc_context) (card : sc_pkcs11_card) (hd : sc_card) (fw : Nat)
    (hctx : st.context = some ctx) (hreader : reader < ctx.reader_count)
    (hpos : 0 < tr.sc_detect_card_presence 0)
    (hsame : card_changed (tr.sc_detect_card_presence 0) = false)
    (hcard : st.card_table[reader]? = some card) (hconn : card.card = some hd)
    (hfw : card.framework = some fw) :
    ∃ st' st'' : State,
      card_detect cfg tr st reader = some (CKR_OK, st') ∧
      st'.log = st.log ++ [Event.detect_card_presence reader] ∧
      st'.card_table = st.card_table ∧ st'.virtual_slots = st.virtual_slots ∧
      st'.context = st.context ∧
      card_detect cfg tr st' reader = some (CKR_OK, st'') ∧
      st''.log = st'.log ++ [Event.detect_card_presence reader] ∧
      st''.card_table = st.card_table ∧ st''.virtual_slots = st.virtual_slots ∧
      st''.context = st.context := by
  have hstep : ∀ s : State, s.context = some ctx → s.card_table[reader]? = some card →
      card_detect cfg tr s reader = some (CKR_OK, s.emit (Event.detect_card_presence reader)) := by
    intro s hs hc
    rw [card_detect_present cfg tr s reader ctx hs hreader hpos hsame]
    exact card_detect_known_bound cfg tr _ reader card hd fw hc hconn hfw
  exact ⟨st.emit (Event.detect_card_presence reader),
    (st.emit (Event.detect_card_presence reader)).emit (Event.detect_card_presence reader),
    hstep st hctx hcard, rfl, rfl, rfl, rfl, hstep _ hctx hcard, rfl, rfl, rfl, rfl⟩

theorem card_detect_bound_noop_witness :
    ∃ st' st'' : State,
      card_detect (ex_config [ex_framework_good]) ex_transport_present ex_state 0 =
        some (CKR_OK, st') ∧
      st'.log = ex_state.log ++ [Event.detect_card_presence 0] ∧
      st'.card_table = ex_state.card_table ∧ st'.virtual_slots = ex_state.virtual_slots ∧
      st'.context = ex_state.context ∧
      card_detect (ex_config [ex_framework_good]) ex_transport_present st' 0 =
        some (CKR_OK, st'') ∧
      st''.log = st'.log ++ [Event.detect_card_presence 0] ∧
      st''.card_table = ex_state.card_table ∧ st''.virtual_slots = ex_state.virtual_slots ∧
      st''.context = ex_state.context :=
  card_detect_bound_noop (ex_config [ex_framework_good]) ex_transport_present ex_state 0
    { reader_count := 2 }
    { reader := 0, card := some ex_card, framework := some 0, fw_data := some 7,
      max_slots := 4, num_slots := 2 } ex_card 0 rfl (by decide) (by decide) (by decide) rfl rfl
    rfl

theorem card_detect_again_error (cfg : Config) (tr : Transport) (reader retry k : Nat)
    (st : State) (ctx : sc_context) (hctx : st.context = some ctx)
    (hreader : reader < ctx.reader_count) (hneg : tr.sc_detect_card_presence k < 0) :
    card_detect_again cfg tr reader retry k st =
      some (cfg.sc_to_cryptoki_error (tr.sc_detect_card_presence k) reader,
        st.emit (Event.detect_card_presence reader)) := by
  have hno : ¬ (0 < tr.sc_detect_card_presence k ∧
      card_changed (tr.sc_detect_card_presence k) = true) := by
    intro hx
    omega
  rw [card_detect_again_unchanged cfg tr reader retry k st hno, card_detect_again]
  simp only [hctx, hreader, not_true_eq_false, if_false, hneg, if_true]

/-- C15, as stated, fails for the recheck: in `ex_state` reader 0 holds a
bound card with two slots; the transport answers "changed" and then reports
an error.  `card_detect` returns the mapped error 5, but `card_removed` has
already run, so neither the card table nor the slot pool is what it was. -/
theorem card_detect_recheck_error_counterexample :
    (card_detect (ex_config [ex_framework_good]) ex_transport_changed_then_error ex_state 0).map
        (fun r => (r.1, decide (r.2.card_table = ex_state.card_table),
          decide (r.2.virtual_slots = ex_state.virtual_slots))) =
      some (5, false, false) := by
  decide

/-- C15 (amended): when the first presence query reports a transport error,
`card_detect` returns the mapped error and the context, the card table and
the slot pool are what they were before the call.  When the first query
signals a changed card and the recheck reports a transport error,
`card_detect` returns the mapped error and leaves the tables as the
`card_removed` run for the change left them. -/
theorem card_detect_transport_error (cfg : Config) (tr : Transport) (st : State) (reader : Nat)
    (ctx : sc_context) (hctx : st.context = some ctx) (hreader : reader < ctx.reader_count) :
    (tr.sc_detect_card_presence 0 < 0 →
      ∃ st' : State,
        card_detect cfg tr st reader =
          some (cfg.sc_to_cryptoki_error (tr.sc_detect_card_presence 0) reader, st') ∧
        st'.card_table = st.card_table ∧ st'.virtual_slots = st.virtual_slots ∧
        st'.context = st.context ∧ st'.log = st.log ++ [Event.detect_card_presence reader]) ∧
    (0 < tr.sc_detect_card_presence 0 →
      card_changed (tr.sc_detect_card_presence 0) = true →
      tr.sc_detect_card_presence 1 < 0 →
      ∀ (rv1 : CK_RV) (st1 : State),
        card_removed ((st.emit (Event.detect_card_presence reader)).emit
          (Event.debug_card_changed reader)) reader = some (rv1, st1) →
        ∃ st' : State,
          card_detect cfg tr st reader =
            some (cfg.sc_to_cryptoki_error (tr.sc_detect_card_presence 1) reader, st') ∧
          st'.card_table = st1.card_table ∧ st'.virtual_slots = st1.virtual_slots ∧
          st'.context = st.context ∧
          st'.log = st1.log ++ [Event.detect_card_presence reader]) := by
  refine ⟨?_, ?_⟩
  · intro hneg
    exact ⟨st.emit (Event.detect_card_presence reader),
      card_detect_again_error cfg tr reader 1 0 st ctx hctx hreader hneg, rfl, rfl, rfl, rfl⟩
  · intro hpos hch hneg rv1 st1 hrem
    obtain ⟨hc1, _⟩ := card_removed_log _ st1 reader rv1 hrem
    have hctx1 : st1.context = some ctx := by rw [hc1]; exact hctx
    refine ⟨st1.emit (Event.detect_card_presence reader), ?_, rfl, rfl, ?_, rfl⟩
    · unfold card_detect
      rw [card_detect_again_changed cfg tr reader 0 0 st ctx hctx hreader hpos hch]
      simp only [hrem]
      exact card_detect_again_error cfg tr reader 0 (0 + 1) st1 ctx hctx1 hreader hneg
    · show st1.context = st.context
      rw [hc1]; rfl

theorem card_detect_transport_error_witness :
    ∃ st' : State,
      card_detect (ex_config [ex_framework_good]) ex_transport_changed_then_error ex_state 0 =
        some ((ex_config [ex_framework_good]).sc_to_cryptoki_error
          (ex_transport_changed_then_error.sc_detect_card_presence 1) 0, st') ∧
      st'.card_table = ex_state_removed.card_table ∧
      st'.virtual_slots = ex_state_removed.virtual_slots ∧
      st'.context = ex_state.context ∧
      st'.log = (Event.detect_card_presence 0 :: Event.debug_card_changed 0 ::
        ex_state_removed.log) ++ [Event.detect_card_presence 0] :=
  (card_detect_transport_error (ex_config [ex_framework_good]) ex_transport_changed_then_error
    ex_state 0 { reader_count := 2 } rfl (by decide)).2 (by decide) (by decide) (by decide)
    CKR_OK
    { ex_state_removed with
      log := Event.detect_card_presence 0 :: Event.debug_card_changed 0 ::
        ex_state_removed.log } (by decide)

theorem card_detect_readers_chain (cfg : Config) (trs : Nat → Transport) (ss : Nat → State)
    (rvs : Nat → CK_RV) :
    ∀ (m k : Nat),
      (∀ i, k ≤ i → i < k + m → card_detect cfg (trs i) (ss i) i = some (rvs i, ss (i + 1))) →
      card_detect_readers cfg trs (List.range' k m) (ss k) = some (ss (k + m)) := by
  intro m
  induction m with
  | zero => intro k _; rfl
  | succ m ih =>
    intro k h
    rw [List.range'_succ]
    simp only [card_detect_readers, h k (Nat.le_refl k) (by omega)]
    have := ih (k + 1) (fun i h1 h2 => h i (by omega) (by omega))
    rw [this]
    congr 2
    omega

/-- C14, as stated, fails when the context is not initialised:
`card_detect_all` then returns `CKR_CRYPTOKI_NOT_INITIALIZED` and runs no
`card_detect`. -/
theorem card_detect_all_uninitialized_counterexample :
    card_detect_all (ex_config [ex_framework_good]) (fun _ => ex_transport_present)
        ex_state_no_context =
      some (CKR_CRYPTOKI_NOT_INITIALIZED, ex_state_no_context) ∧
    CKR_CRYPTOKI_NOT_INITIALIZED ≠ CKR_OK := by
  decide

/-- C14 (amended): with the context not initialised `card_detect_all` returns
`CKR_CRYPTOKI_NOT_INITIALIZED` and does nothing.  With the context
initialised it runs `card_detect` once on each reader `0 .. reader_count-1`
in turn, each on the state the previous one left, and returns `CKR_OK`
whatever the results `rvs i` of these runs are. -/
theorem card_detect_all_sweep (cfg : Config) (trs : Nat → Transport) (st : State) :
    (st.context = none → card_detect_all cfg trs st = some (CKR_CRYPTOKI_NOT_INITIALIZED, st)) ∧
    (∀ (ctx : sc_context) (ss : Nat → State) (rvs : Nat → CK_RV), st.context = some ctx →
      ss 0 = st →
      (∀ i, i < ctx.reader_count →
        card_detect cfg (trs i) (ss i) i = some (rvs i, ss (i + 1))) →
      card_detect_all cfg trs st = some (CKR_OK, ss ctx.reader_count)) := by
  refine ⟨?_, ?_⟩
  · intro hctx
    simp [card_detect_all, hctx]
  · intro ctx ss rvs hctx h0 hstep
    have hchain := card_detect_readers_chain cfg trs ss rvs ctx.reader_count 0
      (fun i _ h2 => hstep i (by omega))
    rw [h0, Nat.zero_add] at hchain
    unfold card_detect_all
    simp only [hctx, List.range_eq_range', hchain]

theorem card_detect_all_sweep_witness :
    card_detect_all (ex_config [ex_framework_good]) (fun _ => ex_transport_error) ex_state =
      some (CKR_OK, ex_sweep_states 2) :=
  (card_detect_all_sweep (ex_config [ex_framework_good]) (fun _ => ex_transport_error)
    ex_state).2 { reader_count := 2 } ex_sweep_states (fun _ => 5) rfl rfl
    (fun i hi =>
      match i, hi with
      | 0, _ => by decide
      | 1, _ => by decide
      | n + 2, h => absurd h (by simp))

/-! ## C11: unrecognised card -/

theorem bind_frameworks_total (reader : Nat) (hd : sc_card) :
    ∀ (fws : List sc_pkcs11_framework_ops) (i0 : Nat) (rv : CK_RV) (st : State)
      (card : sc_pkcs11_card), st.card_table[reader]? = some card → card.card = some hd →
      ∃ r rv' st', bind_frameworks reader fws i0 rv st = some (r, rv', st') := by
  intro fws
  induction fws with
  | nil => intro i0 rv st card _ _; exact ⟨none, rv, st, rfl⟩
  | cons fw rest ih =>
    intro i0 rv st card hcard hconn
    obtain ⟨rd, cc, fwk, fd, mx, nm⟩ := card
    simp only at hconn
    subst hconn
    have hrlt : reader < st.card_table.length := by
      rcases List.getElem?_eq_some.1 hcard with ⟨hlt, _⟩
      exact hlt
    simp only [bind_frameworks]
    cases hb : fw.bind with
    | none => exact ih (i0 + 1) rv st _ hcard rfl
    | some b =>
      simp only [hcard]
      by_cases hok : (b hd).1 = CKR_OK
      · simp only [hok, if_true]
        exact ⟨_, _, _, rfl⟩
      · simp only [hok, if_false]
        have hcard1 : ((st.emit (Event.bind i0 reader)).set_card reader
            ⟨rd, some hd, fwk, (b hd).2, mx, nm⟩).card_table[reader]? =
            some ⟨rd, some hd, fwk, (b hd).2, mx, nm⟩ := by
          show (st.card_table.set reader _)[reader]? = _
          simp [hrlt]
        exact ih (i0 + 1) _ _ _ hcard1 rfl

/-- The block "Detect the framework" when no framework recognises the
connected card. -/
theorem detect_framework_not_recognized (cfg : Config) (st : State) (reader : Nat)
    (card : sc_pkcs11_card) (hd : sc_card)
    (hcard : st.card_table[reader]? = some card) (hconn : card.card = some hd)
    (hnone : ∀ fw ∈ cfg.frameworks, recognises fw hd = false) :
    ∃ (st' : State) (d : Option Nat) (binds : List Event),
      detect_framework cfg st reader = some (CKR_TOKEN_NOT_RECOGNIZED, st') ∧
      st'.card_table = st.card_table.set reader
        { card with max_slots := slot_budget cfg, num_slots := 0, fw_data := d } ∧
      st'.virtual_slots = st.virtual_slots ∧ st'.context = st.context ∧
      st'.log = st.log ++ binds ∧ ∀ e ∈ binds, ∃ j, e = Event.bind j reader := by
  have hrlt : reader < st.card_table.length := by
    rcases List.getElem?_eq_some.1 hcard with ⟨hlt, _⟩
    exact hlt
  have hcard1 : (st.set_card reader
      { card with max_slots := slot_budget cfg, num_slots := 0 }).card_table[reader]? =
      some { card with max_slots := slot_budget cfg, num_slots := 0 } := by
    show (st.card_table.set reader _)[reader]? = _
    simp [hrlt]
  obtain ⟨r, rv', st2, hbf⟩ := bind_frameworks_total reader hd cfg.frameworks 0 CKR_OK _ _
    hcard1 hconn
  obtain ⟨hc2, hv2, ⟨d, hk2⟩, ⟨binds, hlog2, hev2, _⟩, hsome2, _⟩ :=
    bind_frameworks_spec reader hd cfg.frameworks 0 CKR_OK _ r rv' st2 _ hcard1 hconn hbf
  have hr : r = none := by
    cases r with
    | none => rfl
    | some i =>
      obtain ⟨k, fw, _, hfw, hrec, _⟩ := hsome2 i rfl
      rw [hnone fw (List.getElem?_mem hfw)] at hrec
      exact absurd hrec (by simp)
  subst hr
  have hbf' : bind_frameworks reader cfg.frameworks 0 CKR_OK
      (st.set_card reader
        { card with max_slots := (if cfg.conf_num_slots = 0 then cfg.SC_PKCS11_DEF_SLOTS_PER_CARD
                                   else cfg.conf_num_slots), num_slots := 0 }) =
      some (none, rv', st2) := hbf
  refine ⟨st2, d, binds, ?_, ?_, hv2, hc2, hlog2, ?_⟩
  · unfold detect_framework
    simp only [hcard, hbf']
  · rw [hk2]
    show (st.card_table.set reader _).set reader _ = _
    rw [List.set_set]
  · intro e he
    obtain ⟨j, hj, _⟩ := hev2 e he
    exact ⟨j, hj⟩

/-- The part of `card_detect` after the presence checks, for an entry with no
framework whose card, already connected or connected now, is recognised by no
framework. -/
theorem card_detect_known_not_recognized (cfg : Config) (tr : Transport) (st : State)
    (reader : Nat) (card : sc_pkcs11_card) (hd : sc_card)
    (hcard : st.card_table[reader]? = some card) (hfw : card.framework = none)
    (hhandle : card.card = some hd ∨ (card.card = none ∧ tr.sc_connect_card = (SC_SUCCESS, hd)))
    (hnone : ∀ fw ∈ cfg.frameworks, recognises fw hd = false) :
    ∃ (st' : State) (card' : sc_pkcs11_card),
      card_detect_known cfg tr st reader = some (CKR_TOKEN_NOT_RECOGNIZED, st') ∧
      st'.card_table[reader]? = some card' ∧ card'.card = some hd ∧ card'.framework = none ∧
      card'.reader = card.reader ∧
      st'.virtual_slots = st.virtual_slots ∧ st'.context = st.context := by
  have hrlt : reader < st.card_table.length := by
    rcases List.getElem?_eq_some.1 hcard with ⟨hlt, _⟩
    exact hlt
  rcases hhandle with hconn | ⟨hconn, htr⟩
  · obtain ⟨st', d, _, hdf, hk, hv, hc, _, _⟩ :=
      detect_framework_not_recognized cfg st reader card hd hcard hconn hnone
    refine ⟨st', { card with max_slots := slot_budget cfg, num_slots := 0, fw_data := d },
      ?_, ?_, hconn, hfw, rfl, hv, hc⟩
    · rw [card_detect_known_connected cfg tr st reader card hd hcard hconn hfw]
      exact hdf
    · rw [hk]
      simp [hrlt]
  · have hrc : tr.sc_connect_card.1 = SC_SUCCESS := by rw [htr]
    have hh : tr.sc_connect_card.2 = hd := by rw [htr]
    have hcard1 : ((st.emit (Event.connect_card reader)).set_card reader
        { card with card := some tr.sc_connect_card.2 }).card_table[reader]? =
        some { card with card := some tr.sc_connect_card.2 } := by
      show (st.card_table.set reader _)[reader]? = _
      simp [hrlt]
    obtain ⟨st', d, _, hdf, hk, hv, hc, _, _⟩ :=
      detect_framework_not_recognized cfg _ reader _ hd hcard1 (by rw [← hh]) hnone
    refine ⟨st', { card with card := some tr.sc_connect_card.2, max_slots := slot_budget cfg,
                             num_slots := 0, fw_data := d }, ?_, ?_, ?_, hfw, rfl, hv, hc⟩
    · rw [card_detect_known_connects cfg tr st reader card hcard hconn hrc, if_pos hfw]
      exact hdf
    · rw [hk]
      show ((st.card_table.set reader _).set reader _)[reader]? = _
      rw [List.set_set]
      simp [hrlt]
    · show some tr.sc_connect_card.2 = some hd
      rw [hh]

theorem card_detect_again_present (cfg : Config) (tr : Transport) (reader retry k : Nat)
    (st : State) (ctx : sc_context) (hctx : st.context = some ctx)
    (hreader : reader < ctx.reader_count) (hpos : 0 < tr.sc_detect_card_presence k)
    (hsame : card_changed (tr.sc_detect_card_presence k) = false) :
    card_detect_again cfg tr reader retry k st =
      card_detect_known cfg tr (st.emit (Event.detect_card_presence reader)) reader := by
  have hno : ¬ (0 < tr.sc_detect_card_presence k ∧
      card_changed (tr.sc_detect_card_presence k) = true) := by
    intro hx
    rw [hsame] at hx
    exact absurd hx.2 (by simp)
  rw [card_detect_again_unchanged cfg tr reader retry k st hno, card_detect_again]
  simp [hctx, hreader, hsame, not_lt_of_gt hpos, ne_of_gt hpos]

/-- After `card_removed(reader)`, with the context initialised and the
entry's `reader` field set, no slot refers to the entry of `reader`. -/
theorem card_removed_no_reference (st st' : State) (reader : Nat) (rv : CK_RV)
    (hctx : st.context ≠ none)
    (hrd : ∀ card, st.card_table[reader]? = some card → card.reader = reader)
    (h : card_removed st reader = some (rv, st')) :
    ∀ (i : Nat) (slot : sc_pkcs11_slot), st'.virtual_slots[i]? = some slot →
      slot.card ≠ some reader := by
  obtain ⟨_, _, card, hcard, _, hs, _, _⟩ := card_removed_spec st st' reader rv h
  intro i slot hslot hc
  rw [hs i] at hslot
  split at hslot
  · simp only [Option.some.injEq] at hslot
    rw [← hslot] at hc
    simp [zapped_slot, zero_slot] at hc
  · rename_i hcond
    apply hcond
    refine ⟨?_, ?_, hctx⟩
    · rcases List.getElem?_eq_some.1 hslot with ⟨hi, _⟩
      exact hi
    · rw [slot_of_reader_intro st reader i slot reader card hslot hc hcard]
      simp [hrd card hcard]

/-- C11: when the card of a reader is present and no framework recognises it
(the entry has no framework bound and the card is connected or connects now),
`card_detect` returns `CKR_TOKEN_NOT_RECOGNIZED` and leaves the entry with the
card handle connected and no framework, the slot pool untouched.  When the
transport first signals a changed card, `card_detect` first runs
`card_removed` and then does the same on the state that this left: it returns
`CKR_TOKEN_NOT_RECOGNIZED` with the new card connected, no framework, the
slot pool as `card_removed` left it and no slot referring to the entry. -/
theorem card_detect_not_recognized (cfg : Config) (tr : Transport) (st : State) (reader : Nat)
    (ctx : sc_context) (hd : sc_card) (hctx : st.context = some ctx)
    (hreader : reader < ctx.reader_count)
    (hnone : ∀ fw ∈ cfg.frameworks, recognises fw hd = false) :
    (0 < tr.sc_detect_card_presence 0 → card_changed (tr.sc_detect_card_presence 0) = false →
      ∀ card : sc_pkcs11_card, st.card_table[reader]? = some card → card.framework = none →
        (card.card = some hd ∨ (card.card = none ∧ tr.sc_connect_card = (SC_SUCCESS, hd))) →
        ∃ (st' : State) (card' : sc_pkcs11_card),
          card_detect cfg tr st reader = some (CKR_TOKEN_NOT_RECOGNIZED, st') ∧
          st'.card_table[reader]? = some card' ∧ card'.card = some hd ∧
          card'.framework = none ∧ st'.virtual_slots = st.virtual_slots) ∧
    (0 < tr.sc_detect_card_presence 0 → card_changed (tr.sc_detect_card_presence 0) = true →
      0 < tr.sc_detect_card_presence 1 → card_changed (tr.sc_detect_card_presence 1) = false →
      tr.sc_connect_card = (SC_SUCCESS, hd) →
      (∀ card, st.card_table[reader]? = some card → card.reader = reader) →
      ∀ (rv1 : CK_RV) (st1 : State),
        card_removed ((st.emit (Event.detect_card_presence reader)).emit
          (Event.debug_card_changed reader)) reader = some (rv1, st1) →
        ∃ (st' : State) (card' : sc_pkcs11_card) (evs : List Event),
          card_detect cfg tr st reader = some (CKR_TOKEN_NOT_RECOGNIZED, st') ∧
          st'.log = st1.log ++ evs ∧
          st'.virtual_slots = st1.virtual_slots ∧
          st'.card_table[reader]? = some card' ∧ card'.card = some hd ∧
          card'.framework = none ∧
          ∀ (i : Nat) (slot : sc_pkcs11_slot), st'.virtual_slots[i]? = some slot →
            slot.card ≠ some reader) := by
  refine ⟨?_, ?_⟩
  · intro hpos hsame card hcard hfw hhandle
    have hcard0 : (st.emit (Event.detect_card_presence reader)).card_table[reader]? =
        some card := hcard
    obtain ⟨st', card', hdet, hc', hconn', hfw', _, hv, _⟩ :=
      card_detect_known_not_recognized cfg tr _ reader card hd hcard0 hfw hhandle hnone
    refine ⟨st', card', ?_, hc', hconn', hfw', hv⟩
    rw [card_detect_present cfg tr st reader ctx hctx hreader hpos hsame]
    exact hdet
  · intro hpos0 hch0 hpos1 hsame1 htr hrd rv1 st1 hrem
    obtain ⟨_, hc1, card, hcard, hk1, _⟩ := card_removed_spec _ st1 reader rv1 hrem
    have hcard' : st.card_table[reader]? = some card := hcard
    have hrlt : reader < st.card_table.length := by
      rcases List.getElem?_eq_some.1 hcard' with ⟨hlt, _⟩
      exact hlt
    have hctx1 : st1.context = some ctx := by rw [hc1]; exact hctx
    have hcard1 : (st1.emit (Event.detect_card_presence reader)).card_table[reader]? =
        some (removed_card card) := by
      show st1.card_table[reader]? = _
      rw [hk1]
      show (st.card_table.set reader _)[reader]? = _
      simp [hrlt]
    obtain ⟨st', card', hdet, hc', hconn', hfw', _, hv, _⟩ :=
      card_detect_known_not_recognized cfg tr _ reader (removed_card card) hd hcard1 rfl
        (Or.inr ⟨rfl, htr⟩) hnone
    obtain ⟨K, hlogK, _⟩ := card_detect_known_log cfg tr _ st' reader _ hdet
    have hnoref := card_removed_no_reference _ st1 reader rv1
      (show ((st.emit (Event.detect_card_presence reader)).emit
        (Event.debug_card_changed reader)).context ≠ none by
          show st.context ≠ none
          rw [hctx]; simp)
      (show ∀ c, ((st.emit (Event.detect_card_presence reader)).emit
        (Event.debug_card_changed reader)).card_table[reader]? = some c → c.reader = reader
        from hrd) hrem
    refine ⟨st', card', Event.detect_card_presence reader :: K, ?_, ?_, hv, hc', hconn', hfw',
      ?_⟩
    · unfold card_detect
      rw [card_detect_again_changed cfg tr reader 0 0 st ctx hctx hreader hpos0 hch0]
      simp only [hrem]
      rw [card_detect_again_present cfg tr reader 0 (0 + 1) st1 ctx hctx1 hreader hpos1 hsame1]
      exact hdet
    · rw [hlogK]
      show (st1.log ++ [Event.detect_card_presence reader]) ++ K = _
      simp
    · intro i slot hslot
      have hv' : st'.virtual_slots = st1.virtual_slots := hv
      rw [hv'] at hslot
      exact hnoref i slot hslot

theorem card_detect_not_recognized_witness :
    ∃ (st' : State) (card' : sc_pkcs11_card) (evs : List Event),
      card_detect (ex_config [ex_framework_blind]) ex_transport_swapped ex_state 0 =
        some (CKR_TOKEN_NOT_RECOGNIZED, st') ∧
      st'.log = (Event.detect_card_presence 0 :: Event.debug_card_changed 0 ::
        ex_state_removed.log) ++ evs ∧
      st'.virtual_slots = ex_state_removed.virtual_slots ∧
      st'.card_table[0]? = some card' ∧ card'.card = some ex_card ∧
      card'.framework = none ∧
      ∀ (i : Nat) (slot : sc_pkcs11_slot), st'.virtual_slots[i]? = some slot →
        slot.card ≠ some 0 :=
  (card_detect_not_recognized (ex_config [ex_framework_blind]) ex_transport_swapped ex_state 0
    { reader_count := 2 } ex_card rfl (by decide) (by decide)).2 (by decide) (by decide)
    (by decide) (by decide) rfl (by decide) CKR_OK
    { ex_state_removed with
      log := Event.detect_card_presence 0 :: Event.debug_card_changed 0 ::
        ex_state_removed.log } (by decide)

/-! ## Invariants of the operations -/

theorem slot_token_removed_frame (st st' : State) (id : Int) (rv : CK_RV)
    (h : slot_token_removed st id = some (rv, st')) :
    st'.card_table = st.card_table ∧ st'.context = st.context ∧
    (st'.virtual_slots = st.virtual_slots ∨
      ∃ i : Nat, (i : Int) = id ∧ i < st.virtual_slots.length ∧ st.context ≠ none ∧
        st'.virtual_slots = st.virtual_slots.set i zapped_slot) := by
  by_cases hctx : st.context = none
  · rw [slot_token_removed_uninitialized st id hctx] at h
    simp only [Option.some.injEq, Prod.mk.injEq] at h
    rw [← h.2]
    exact ⟨rfl, rfl, Or.inl rfl⟩
  · obtain ⟨ctx, hsome⟩ := Option.ne_none_iff_exists'.1 hctx
    by_cases hout : id < 0 ∨ id ≥ (SC_PKCS11_MAX_VIRTUAL_SLOTS st : Int)
    · simp [slot_token_removed, slot_get_slot, hsome, hout] at h
      rw [← h.2]
      exact ⟨rfl, rfl, Or.inl rfl⟩
    · have h0 : 0 ≤ id := by omega
      have hnat : (id.toNat : Int) = id := Int.toNat_of_nonneg h0
      have hlen : id.toNat < st.virtual_slots.length := by
        unfold SC_PKCS11_MAX_VIRTUAL_SLOTS at hout
        omega
      have hslot : st.virtual_slots[id.toNat]? = some st.virtual_slots[id.toNat] :=
        List.getElem?_eq_getElem hlen
      rw [← hnat, slot_token_removed_eq st id.toNat _ ctx hsome hslot] at h
      by_cases hs : release_safe st st.virtual_slots[id.toNat] = true
      · simp only [hs, if_true, Option.some.injEq, Prod.mk.injEq] at h
        rw [← h.2]
        exact ⟨rfl, rfl, Or.inr ⟨id.toNat, hnat, hlen, hctx, rfl⟩⟩
      · simp [hs] at h

theorem budget_ok_set_card (st : State) (i : Nat) (c : sc_pkcs11_card) (h : budget_ok st)
    (hc : c.num_slots ≤ c.max_slots) : budget_ok (st.set_card i c) := by
  intro card hmem
  rcases List.mem_or_eq_of_mem_set hmem with hm | hm
  · exact h card hm
  · rw [hm]; exact hc

theorem budget_ok_congr (st st' : State) (hk : st'.card_table = st.card_table)
    (h : budget_ok st) : budget_ok st' := by
  intro card hmem
  rw [hk] at hmem
  exact h card hmem

theorem slot_allocate_budget (st st' : State) (c : Nat) (rv : CK_RV) (r : Option Nat)
    (hinv : budget_ok st) (h : slot_allocate st c = some (rv, r, st')) : budget_ok st' := by
  obtain ⟨card, hcard⟩ := slot_allocate_some_card st c _ h
  rcases slot_allocate_cases st c card hcard rv r st' h with
    ⟨_, _, hst, _⟩ | ⟨_, hlt, i, slot, hd, _, _, _, _, _, hst⟩
  · rw [hst]; exact hinv
  · rw [hst]
    intro k hk
    rcases List.mem_or_eq_of_mem_set hk with hm | hm
    · exact hinv k hm
    · rw [hm]
      show card.num_slots + 1 ≤ card.max_slots
      omega

theorem run_create_tokens_budget (c : Nat) :
    ∀ (reqs : List token_request) (rv : CK_RV) (st : State) (rv' : CK_RV) (st' : State),
      budget_ok st → run_create_tokens c reqs rv st = some (rv', st') → budget_ok st' := by
  intro reqs
  induction reqs with
  | nil =>
    intro rv st rv' st' hinv h
    simp only [run_create_tokens, Option.some.injEq, Prod.mk.injEq] at h
    rw [← h.2]; exact hinv
  | cons req rest ih =>
    intro rv st rv' st' hinv h
    simp only [run_create_tokens] at h
    cases ha : slot_allocate st c with
    | none => simp [ha] at h
    | some x =>
      obtain ⟨rv1, r, st1⟩ := x
      have hinv1 := slot_allocate_budget st st1 c rv1 r hinv ha
      cases r with
      | none =>
        simp only [ha, Option.some.injEq, Prod.mk.injEq] at h
        rw [← h.2]; exact hinv1
      | some i =>
        simp only [ha] at h
        cases hs : st1.virtual_slots[i]? with
        | none => simp [hs] at h
        | some slot =>
          simp only [hs] at h
          refine ih rv _ rv' st' ?_ h
          exact budget_ok_congr st1 _ rfl hinv1

theorem bind_frameworks_budget (reader : Nat) :
    ∀ (fws : List sc_pkcs11_framework_ops) (i0 : Nat) (rv : CK_RV) (st : State)
      (r : Option Nat) (rv' : CK_RV) (st' : State),
      budget_ok st → bind_frameworks reader fws i0 rv st = some (r, rv', st') → budget_ok st' := by
  intro fws
  induction fws with
  | nil =>
    intro i0 rv st r rv' st' hinv h
    simp only [bind_frameworks, Option.some.injEq, Prod.mk.injEq] at h
    rw [← h.2.2]; exact hinv
  | cons fw rest ih =>
    intro i0 rv st r rv' st' hinv h
    simp only [bind_frameworks] at h
    cases hb : fw.bind with
    | none =>
      simp only [hb] at h
      exact ih (i0 + 1) rv st r rv' st' hinv h
    | some b =>
      simp only [hb] at h
      cases hcard : st.card_table[reader]? with
      | none => simp [hcard] at h
      | some card =>
        simp only [hcard] at h
        cases hconn : card.card with
        | none => simp [hconn] at h
        | some hd =>
          simp only [hconn] at h
          have hinv1 : ∀ c : sc_pkcs11_card, c.num_slots = card.num_slots →
              c.max_slots = card.max_slots →
              budget_ok ((st.emit (Event.bind i0 reader)).set_card reader c) := by
            intro c h1 h2
            apply budget_ok_set_card _ reader _ (budget_ok_congr st _ rfl hinv)
            rw [h1, h2]
            exact hinv card (List.getElem?_mem hcard)
          by_cases hok : (b hd).1 = CKR_OK
          · simp only [hok, if_true, Option.some.injEq, Prod.mk.injEq] at h
            rw [← h.2.2]; exact hinv1 _ rfl rfl
          · simp only [hok, if_false] at h
            refine ih (i0 + 1) _ _ r rv' st' ?_ h
            exact hinv1 _ rfl rfl

theorem detect_framework_budget (cfg : Config) (st st' : State) (reader : Nat) (rv : CK_RV)
    (hinv : budget_ok st) (h : detect_framework cfg st reader = some (rv, st')) :
    budget_ok st' := by
  unfold detect_framework at h
  cases hcard : st.card_table[reader]? with
  | none => simp [hcard] at h
  | some card =>
    simp only [hcard] at h
    have hinv1 : budget_ok (st.set_card reader
        { card with
          max_slots := (if cfg.conf_num_slots = 0 then cfg.SC_PKCS11_DEF_SLOTS_PER_CARD
                        else cfg.conf_num_slots), num_slots := 0 }) :=
      budget_ok_set_card st reader _ hinv (Nat.zero_le _)
    cases hbf : bind_frameworks reader cfg.frameworks 0 CKR_OK (st.set_card reader
        { card with
          max_slots := (if cfg.conf_num_slots = 0 then cfg.SC_PKCS11_DEF_SLOTS_PER_CARD
                        else cfg.conf_num_slots), num_slots := 0 }) with
    | none => simp [hbf] at h
    | some x =>
      obtain ⟨r, rvb, st2⟩ := x
      have hinv2 := bind_frameworks_budget reader _ _ _ _ r rvb st2 hinv1 hbf
      cases r with
      | none =>
        simp only [hbf, Option.some.injEq, Prod.mk.injEq] at h
        rw [← h.2]; exact hinv2
      | some i =>
        simp only [hbf] at h
        cases hfw : cfg.frameworks[i]? with
        | none => simp [hfw] at h
        | some fw =>
          cases hcard2 : st2.card_table[reader]? with
          | none => simp [hfw, hcard2] at h
          | some card2 =>
            simp only [hfw, hcard2] at h
            cases hrun : run_create_tokens reader (fw.create_tokens card2).1
                (fw.create_tokens card2).2 (st2.emit (Event.create_tokens i reader)) with
            | none => simp [hrun] at h
            | some y =>
              obtain ⟨rv3, st3⟩ := y
              have hinv2e : budget_ok (st2.emit (Event.create_tokens i reader)) :=
                budget_ok_congr st2 _ rfl hinv2
              have hinv3 := run_create_tokens_budget reader _ _ _ rv3 st3 hinv2e hrun
              simp only [hrun] at h
              by_cases hok : rv3 = CKR_OK
              · simp only [hok, ne_eq, not_true_eq_false, if_false] at h
                cases hcard3 : st3.card_table[reader]? with
                | none => simp [hcard3] at h
                | some card3 =>
                  simp only [hcard3, Option.some.injEq, Prod.mk.injEq] at h
                  rw [← h.2]
                  exact budget_ok_set_card st3 reader _ hinv3
                    (hinv3 card3 (List.getElem?_mem hcard3))
              · simp only [hok, ne_eq, not_false_eq_true, if_true, Option.some.injEq,
                  Prod.mk.injEq] at h
                rw [← h.2]; exact hinv3

theorem card_detect_known_budget (cfg : Config) (tr : Transport) (st st' : State)
    (reader : Nat) (rv : CK_RV) (hinv : budget_ok st)
    (h : card_detect_known cfg tr st reader = some (rv, st')) : budget_ok st' := by
  cases hcard : st.card_table[reader]? with
  | none =>
    unfold card_detect_known at h
    simp [hcard] at h
  | some card =>
    have hmem : card.num_slots ≤ card.max_slots := hinv card (List.getElem?_mem hcard)
    cases hconn : card.card with
    | some hd =>
      cases hfw : card.framework with
      | none =>
        rw [card_detect_known_connected cfg tr st reader card hd hcard hconn hfw] at h
        exact detect_framework_budget cfg st st' reader rv hinv h
      | some fw =>
        rw [card_detect_known_bound cfg tr st reader card hd fw hcard hconn hfw] at h
        simp only [Option.some.injEq, Prod.mk.injEq] at h
        rw [← h.2]; exact hinv
    | none =>
      by_cases hrc : tr.sc_connect_card.1 = SC_SUCCESS
      · rw [card_detect_known_connects cfg tr st reader card hcard hconn hrc] at h
        have hinv1 : budget_ok ((st.emit (Event.connect_card reader)).set_card reader
            { card with card := some tr.sc_connect_card.2 }) :=
          budget_ok_set_card _ reader _ (budget_ok_congr st _ rfl hinv) hmem
        by_cases hfw : card.framework = none
        · rw [if_pos hfw] at h
          exact detect_framework_budget cfg _ st' reader rv hinv1 h
        · rw [if_neg hfw] at h
          simp only [Option.some.injEq, Prod.mk.injEq] at h
          rw [← h.2]; exact hinv1
      · rw [card_detect_known_connect_failed cfg tr st reader card hcard hconn hrc] at h
        simp only [Option.some.injEq, Prod.mk.injEq] at h
        rw [← h.2]
        exact budget_ok_congr st _ rfl hinv

/-- A property of states that is kept by writing to the log, by `card_removed`
and by the part of `card_detect` after the presence checks is kept by the
presence checks of `card_detect`. -/
theorem card_detect_again_invariant (cfg : Config) (tr : Transport) (reader : Nat)
    (Inv : State → Prop) (hemit : ∀ (st : State) (e : Event), Inv st → Inv (st.emit e))
    (hrem : ∀ (st : State) (rv : CK_RV) (st' : State), Inv st →
      card_removed st reader = some (rv, st') → Inv st')
    (hknown : ∀ (st : State) (rv : CK_RV) (st' : State), Inv st →
      card_detect_known cfg tr st reader = some (rv, st') → Inv st') :
    ∀ (retry k : Nat) (st : State) (rv : CK_RV) (st' : State), Inv st →
      card_detect_again cfg tr reader retry k st = some (rv, st') → Inv st' := by
  have hzero : ∀ (k : Nat) (st : State) (rv : CK_RV) (st' : State), Inv st →
      card_detect_again cfg tr reader 0 k st = some (rv, st') → Inv st' := by
    intro k st rv st' hinv h
    unfold card_detect_again at h
    cases hctx : st.context with
    | none => simp [hctx] at h
    | some ctx =>
      simp only [hctx] at h
      by_cases hreader : reader < ctx.reader_count
      · simp only [hreader, not_true_eq_false, if_false] at h
        by_cases hneg : tr.sc_detect_card_presence k < 0
        · simp only [hneg, if_true, Option.some.injEq, Prod.mk.injEq] at h
          rw [← h.2]; exact hemit _ _ hinv
        · simp only [hneg, if_false] at h
          by_cases hz : tr.sc_detect_card_presence k = 0
          · simp only [hz, if_true] at h
            cases hr : card_removed ((st.emit (Event.detect_card_presence reader)).emit
                (Event.debug_card_absent reader)) reader with
            | none => simp [hr] at h
            | some x =>
              obtain ⟨rv2, st2⟩ := x
              simp only [hr, Option.some.injEq, Prod.mk.injEq] at h
              rw [← h.2]
              exact hrem _ rv2 st2 (hemit _ _ (hemit _ _ hinv)) hr
          · simp only [hz, if_false] at h
            by_cases hch : card_changed (tr.sc_detect_card_presence k) = true
            · simp only [hch, if_true, Option.some.injEq, Prod.mk.injEq] at h
              rw [← h.2]; exact hemit _ _ (hemit _ _ hinv)
            · simp only [hch, if_false] at h
              exact hknown _ rv st' (hemit _ _ hinv) h
      · simp [hreader] at h
  intro retry
  induction retry with
  | zero => exact hzero
  | succ n ih =>
    intro k st rv st' hinv h
    by_cases hchg : 0 < tr.sc_detect_card_presence k ∧
        card_changed (tr.sc_detect_card_presence k) = true
    · cases hctx : st.context with
      | none =>
        unfold card_detect_again at h
        simp [hctx] at h
      | some ctx =>
        by_cases hreader : reader < ctx.reader_count
        · rw [card_detect_again_changed cfg tr reader n k st ctx hctx hreader hchg.1 hchg.2] at h
          cases hr : card_removed ((st.emit (Event.detect_card_presence reader)).emit
              (Event.debug_card_changed reader)) reader with
          | none => simp [hr] at h
          | some x =>
            obtain ⟨rv2, st3⟩ := x
            simp only [hr] at h
            exact ih (k + 1) st3 rv st' (hrem _ rv2 st3 (hemit _ _ (hemit _ _ hinv)) hr) h
        · unfold card_detect_again at h
          simp [hctx, hreader] at h
    · rw [card_detect_again_unchanged cfg tr reader (n + 1) k st hchg] at h
      exact hzero k st rv st' hinv h

theorem card_removed_budget (st st' : State) (reader : Nat) (rv : CK_RV) (hinv : budget_ok st)
    (h : card_removed st reader = some (rv, st')) : budget_ok st' := by
  obtain ⟨_, _, card, hcard, hk, _⟩ := card_removed_spec st st' reader rv h
  intro c hc
  rw [hk] at hc
  rcases List.mem_or_eq_of_mem_set hc with hm | hm
  · exact hinv c hm
  · rw [hm]
    exact hinv card (List.getElem?_mem hcard)

theorem card_detect_budget (cfg : Config) (tr : Transport) (st st' : State) (reader : Nat)
    (rv : CK_RV) (hinv : budget_ok st) (h : card_detect cfg tr st reader = some (rv, st')) :
    budget_ok st' :=
  card_detect_again_invariant cfg tr reader budget_ok
    (fun s _ hs => budget_ok_congr s _ rfl hs)
    (fun s rv1 s1 hs hr => card_removed_budget s s1 reader rv1 hs hr)
    (fun s rv1 s1 hs hk => card_detect_known_budget cfg tr s s1 reader rv1 hs hk)
    1 0 st rv st' hinv h

theorem startup_cards_budget :
    ∀ (rs : List Nat) (st st' : State), budget_ok st → startup_cards rs st = some st' →
      budget_ok st' := by
  intro rs
  induction rs with
  | nil =>
    intro st st' hinv h
    simp only [startup_cards, Option.some.injEq] at h
    rw [← h]; exact hinv
  | cons r rest ih =>
    intro st st' hinv h
    simp only [startup_cards, card_initialize] at h
    by_cases hr : r < st.card_table.length
    · simp only [hr, if_true] at h
      exact ih _ st' (budget_ok_set_card st r _ hinv (Nat.le_refl 0)) h
    · simp [hr] at h

theorem startup_slots_card_table :
    ∀ (is : List Nat) (st st' : State), startup_slots is st = some st' →
      st'.card_table = st.card_table := by
  intro is
  induction is with
  | nil =>
    intro st st' h
    simp only [startup_slots, Option.some.injEq] at h
    rw [← h]
  | cons i rest ih =>
    intro st st' h
    simp only [startup_slots] at h
    cases hs : st.virtual_slots[i]? with
    | none => simp [hs] at h
    | some slot =>
      simp only [hs] at h
      have hrest := ih _ st' h
      rw [hrest]
      rfl

theorem startup_budget (ctx : sc_context) (n_slots : Nat) (st : State)
    (h : startup ctx n_slots = some st) : budget_ok st := by
  unfold startup at h
  cases h1 : startup_cards (List.range ctx.reader_count) (zero_state ctx n_slots) with
  | none => simp [h1] at h
  | some st1 =>
    simp only [h1] at h
    have hz : budget_ok (zero_state ctx n_slots) := by
      intro card hc
      simp only [zero_state] at hc
      rw [List.eq_of_mem_replicate hc]
      exact Nat.le_refl 0
    exact budget_ok_congr st1 st (startup_slots_card_table _ st1 st h)
      (startup_cards_budget _ _ st1 hz h1)

theorem reachable_budget (cfg : Config) (st : State) (h : reachable cfg st) : budget_ok st := by
  induction h with
  | init ctx n_slots st hst => exact startup_budget ctx n_slots st hst
  | allocate st st' c rv r _ ha ih => exact slot_allocate_budget st st' c rv r ih ha
  | token_removed st st' id rv _ ha ih =>
    exact budget_ok_congr st st' (slot_token_removed_frame st st' id rv ha).1 ih
  | removed st st' reader rv _ ha ih => exact card_removed_budget st st' reader rv ih ha
  | detect st st' tr reader rv _ ha ih => exact card_detect_budget cfg tr st st' reader rv ih ha

/-- The block "Detect the framework" of `card_detect` leaves the entry of the
reader with `max_slots` at the configured budget; `num_slots` is zero unless a
framework recognised the card and went on to create tokens. -/
theorem card_detect_sets_budget (cfg : Config) (tr : Transport) (st st' : State) (reader : Nat)
    (ctx : sc_context) (card : sc_pkcs11_card) (hd : sc_card) (rv : CK_RV)
    (hctx : st.context = some ctx) (hreader : reader < ctx.reader_count)
    (hpos : 0 < tr.sc_detect_card_presence 0)
    (hsame : card_changed (tr.sc_detect_card_presence 0) = false)
    (hcard : st.card_table[reader]? = some card) (hconn : card.card = some hd)
    (hfw : card.framework = none) (h : card_detect cfg tr st reader = some (rv, st')) :
    ∃ card', st'.card_table[reader]? = some card' ∧ card'.max_slots = slot_budget cfg ∧
      ((∀ fw ∈ cfg.frameworks, recognises fw hd = false) → card'.num_slots = 0) := by
  rw [card_detect_present cfg tr st reader ctx hctx hreader hpos hsame] at h
  have hcard0 : (st.emit (Event.detect_card_presence reader)).card_table[reader]? = some card :=
    hcard
  rw [card_detect_known_connected cfg tr _ reader card hd hcard0 hconn hfw] at h
  have hrlt : reader < st.card_table.length := (List.getElem?_eq_some.1 hcard).1
  obtain ⟨_, binds, _, hcase⟩ := detect_framework_spec cfg _ reader card hd rv st' hcard0 hconn h
  rcases hcase with ⟨_, _, _, _, d, hk⟩ |
    ⟨i, fw, st2, card2, rv3, st3, n, hfwi, hrec, _, _, _, hc2, hcard2, _, _, _, _, hk3, _, hfin⟩
  · refine ⟨{ card with max_slots := slot_budget cfg, num_slots := 0, fw_data := d }, ?_, rfl,
      fun _ => rfl⟩
    rw [hk]
    show (st.card_table.set reader _)[reader]? = _
    rw [List.getElem?_set, if_pos rfl]
    simp [hrlt]
  · have hrlt2 : reader < st2.card_table.length := (List.getElem?_eq_some.1 hc2).1
    have hmax : card2.max_slots = slot_budget cfg := by rw [hcard2]
    have hblind : (∀ fw ∈ cfg.frameworks, recognises fw hd = false) →
        ∀ m : Nat, m = 0 := by
      intro hall
      rw [hall fw (List.getElem?_mem hfwi)] at hrec
      exact absurd hrec (by decide)
    rcases hfin with ⟨_, _, hst⟩ | ⟨_, _, hst⟩
    · refine ⟨{ card2 with num_slots := n }, ?_, hmax, fun hall => hblind hall n⟩
      rw [hst, hk3, List.getElem?_set, if_pos rfl]
      simp [hrlt2]
    · refine ⟨{ card2 with num_slots := n, framework := some i }, ?_, hmax,
        fun hall => hblind hall n⟩
      rw [hst]
      show (st3.card_table.set reader _)[reader]? = _
      have hlen : reader < st3.card_table.length := by
        rw [hk3, List.length_set]; exact hrlt2
      rw [List.getElem?_set, if_pos rfl]
      simp [hlen]

/-! ## C18: slot ids -/

/-- C18: the stored id of a slot does not survive `slot_token_removed`.  When
the library is initialised and `slot_token_removed(i)` returns for a valid
index `i`, the final `memset(slot, 0, sizeof(*slot))` has cleared the whole
slot and nothing writes `id` again, so the stored id of slot `i` is 0 whatever
`i` is; only `slot_initialize` sets `slot->id = id`. -/
theorem slot_token_removed_zeroes_id (st st' : State) (i : Nat) (slot : sc_pkcs11_slot)
    (ctx : sc_context) (rv : CK_RV) (hctx : st.context = some ctx)
    (hslot : st.virtual_slots[i]? = some slot)
    (h : slot_token_removed st (i : Int) = some (rv, st')) :
    rv = CKR_OK ∧ ∃ slot', st'.virtual_slots[i]? = some slot' ∧ slot'.id = 0 := by
  have hi : i < st.virtual_slots.length := (List.getElem?_eq_some.1 hslot).1
  rw [slot_token_removed_eq st i slot ctx hctx hslot] at h
  by_cases hsafe : release_safe st slot = true
  · simp only [hsafe, if_true, Option.some.injEq, Prod.mk.injEq] at h
    refine ⟨h.1.symm, zapped_slot, ?_, rfl⟩
    rw [← h.2]
    show (st.virtual_slots.set i zapped_slot)[i]? = _
    rw [List.getElem?_set, if_pos rfl]
    simp [hi]
  · simp [hsafe] at h

theorem slot_token_removed_zeroes_id_witness :
    startup { reader_count := 2 } 4 = some ex_initial ∧
    ex_initial.virtual_slots.map (fun slot => slot.id) = [0, 1, 2, 3] ∧
    slot_token_removed ex_initial 1 =
      some (CKR_OK, { ex_initial with
        virtual_slots := ex_initial.virtual_slots.set 1 zapped_slot
        log := [Event.close_all_sessions 1] }) ∧
    CKR_OK = CKR_OK ∧
    ∃ slot', ({ ex_initial with
        virtual_slots := ex_initial.virtual_slots.set 1 zapped_slot
        log := [Event.close_all_sessions 1] } : State).virtual_slots[1]? = some slot' ∧
      slot'.id = 0 :=
  ⟨by decide, by decide, by decide,
    slot_token_removed_zeroes_id ex_initial _ 1 (ex_slot 1 none none []) { reader_count := 2 }
      CKR_OK rfl (by decide) (by decide)⟩

/-! ## C19: the framework lookup of `slot_token_removed` -/

/-- C19: the guard before `release_token` in `slot_token_removed` tests the
card reference and the framework context of the slot but not the framework of
the card entry.  In an initialised state, for a slot that has a card reference
and a framework context while the referenced entry has no framework bound,
`slot_token_removed` has no defined result: it reads `release_token` through
the NULL `slot->card->framework`.  Such a state is reachable: `card_detect`
returns on a failed `create_tokens` before it records the framework. -/
theorem slot_token_removed_missing_framework (st : State) (i : Nat) (slot : sc_pkcs11_slot)
    (ctx : sc_context) (c d : Nat) (card : sc_pkcs11_card) (hctx : st.context = some ctx)
    (hslot : st.virtual_slots[i]? = some slot) (hc : slot.card = some c)
    (hd : slot.fw_data = some d) (hcard : st.card_table[c]? = some card)
    (hfw : card.framework = none) :
    slot_token_removed st (i : Int) = none := by
  rw [slot_token_removed_eq st i slot ctx hctx hslot]
  have hsafe : release_safe st slot = false := by
    unfold release_safe
    simp [hc, hd, hcard, hfw]
  simp [hsafe]

theorem slot_token_removed_missing_framework_witness :
    reachable (ex_config [ex_framework_failing])
      { ex_state_failed with
        log := [Event.detect_card_presence 0, Event.connect_card 0, Event.bind 0 0,
          Event.create_tokens 0 0] } ∧
    card_removed
      { ex_state_failed with
        log := [Event.detect_card_presence 0, Event.connect_card 0, Event.bind 0 0,
          Event.create_tokens 0 0] } 0 = none ∧
    slot_token_removed
      { ex_state_failed with
        log := [Event.detect_card_presence 0, Event.connect_card 0, Event.bind 0 0,
          Event.create_tokens 0 0] } ((0 : Nat) : Int) = none :=
  ⟨reachable.detect ex_initial _ ex_transport_present 0 5
      (reachable.init { reader_count := 2 } 4 ex_initial (by decide)) (by decide),
    by decide,
    slot_token_removed_missing_framework _ 0 (ex_token_slot false) { reader_count := 2 } 0 9
      { reader := 0, card := some ex_card, framework := none, fw_data := some 1,
        max_slots := 4, num_slots := 1 } rfl (by decide) rfl rfl (by decide) rfl⟩

/-! ## Slot references and `num_slots` -/

theorem countP_set_add {α : Type} (p : α → Bool) :
    ∀ (l : List α) (i : Nat) (a b : α), l[i]? = some a →
      (l.set i b).countP p + (if p a = true then 1 else 0) =
        l.countP p + (if p b = true then 1 else 0) := by
  intro l
  induction l with
  | nil =>
    intro i a b h
    simp at h
  | cons x xs ih =>
    intro i a b h
    cases i with
    | zero =>
      simp only [List.getElem?_cons_zero, Option.some.injEq] at h
      rw [h]
      simp only [List.set_cons_zero, List.countP_cons]
      omega
    | succ j =>
      simp only [List.getElem?_cons_succ] at h
      have hj := ih j a b h
      simp only [List.set_cons_succ, List.countP_cons]
      omega

theorem countP_le_of_pointwise {α : Type} (p : α → Bool) :
    ∀ (l l' : List α),
      (∀ j, l'[j]? = l[j]? ∨ ∃ z, l'[j]? = some z ∧ p z = false ∧ j < l.length) →
      l'.countP p ≤ l.countP p := by
  intro l
  induction l with
  | nil =>
    intro l' h
    cases l' with
    | nil => exact Nat.le_refl _
    | cons b bs =>
      rcases h 0 with h0 | ⟨_, _, _, hlt⟩
      · simp at h0
      · simp at hlt
  | cons a as ih =>
    intro l' h
    cases l' with
    | nil =>
      rcases h 0 with h0 | ⟨_, h0, _, _⟩
      · simp at h0
      · simp at h0
    | cons b bs =>
      have htail : bs.countP p ≤ as.countP p := by
        apply ih
        intro j
        rcases h (j + 1) with hj | ⟨z, hz, hp, hlt⟩
        · left
          simpa using hj
        · right
          refine ⟨z, ?_, hp, ?_⟩
          · simpa using hz
          · simpa using hlt
      have hhead : (if p b = true then 1 else 0) ≤ (if p a = true then 1 else 0) := by
        rcases h 0 with h0 | ⟨z, hz, hp, _⟩
        · simp only [List.getElem?_cons_zero, Option.some.injEq] at h0
          rw [h0]
        · simp only [List.getElem?_cons_zero, Option.some.injEq] at hz
          rw [hz, hp]
          simp
      simp only [List.countP_cons]
      omega

theorem referencing_slots_zapped (st st' : State) (i c : Nat)
    (hi : i < st.virtual_slots.length)
    (hv : st'.virtual_slots = st.virtual_slots.set i zapped_slot) :
    referencing_slots st' c ≤ referencing_slots st c := by
  obtain ⟨slot, hslot⟩ : ∃ slot, st.virtual_slots[i]? = some slot :=
    ⟨st.virtual_slots[i], List.getElem?_eq_getElem hi⟩
  have h := countP_set_add (fun slot => decide (slot.card = some c)) st.virtual_slots i slot
    zapped_slot hslot
  have hz : decide (zapped_slot.card = some c) = false := by
    have hnone : zapped_slot.card = none := rfl
    simp [hnone]
  unfold referencing_slots
  rw [hv]
  simp only [hz] at h
  split at h <;> simp at h <;> omega

theorem slot_token_removed_references (st st' : State) (id : Int) (rv : CK_RV) (c : Nat)
    (h : slot_token_removed st id = some (rv, st')) :
    referencing_slots st' c ≤ referencing_slots st c := by
  rcases (slot_token_removed_frame st st' id rv h).2.2 with hv | ⟨i, _, hi, _, hv⟩
  · unfold referencing_slots
    rw [hv]
  · exact referencing_slots_zapped st st' i c hi hv

theorem card_removed_references (st st' : State) (reader : Nat) (rv : CK_RV) (c : Nat)
    (h : card_removed st reader = some (rv, st')) :
    referencing_slots st' c ≤ referencing_slots st c := by
  obtain ⟨_, _, card, _, _, hslots, _⟩ := card_removed_spec st st' reader rv h
  unfold referencing_slots
  apply countP_le_of_pointwise
  intro j
  by_cases hcond : j < st.virtual_slots.length ∧ slot_of_reader st reader j = true ∧
      st.context ≠ none
  · right
    have hnone : zapped_slot.card = none := rfl
    refine ⟨zapped_slot, ?_, by simp [hnone], hcond.1⟩
    rw [hslots j, if_pos hcond]
  · left
    rw [hslots j, if_neg hcond]

theorem card_removed_num_slots (st st' : State) (reader : Nat) (rv : CK_RV)
    (h : card_removed st reader = some (rv, st')) (c : Nat) (card : sc_pkcs11_card)
    (hc : st.card_table[c]? = some card) :
    ∃ card', st'.card_table[c]? = some card' ∧ card'.num_slots = card.num_slots := by
  obtain ⟨_, _, card0, hcard0, hk, _⟩ := card_removed_spec st st' reader rv h
  have hlt : c < st.card_table.length := (List.getElem?_eq_some.1 hc).1
  by_cases hcr : reader = c
  · subst hcr
    refine ⟨removed_card card0, ?_, ?_⟩
    · rw [hk, List.getElem?_set, if_pos rfl]
      simp [hlt]
    · rw [hcard0] at hc
      simp only [Option.some.injEq] at hc
      rw [← hc]
      rfl
  · refine ⟨card, ?_, rfl⟩
    rw [hk, List.getElem?_set_ne hcr]
    exact hc

theorem startup_cards_zero :
    ∀ (rs : List Nat) (st st' : State), (∀ card ∈ st.card_table, card.num_slots = 0) →
      startup_cards rs st = some st' →
      (∀ card ∈ st'.card_table, card.num_slots = 0) ∧ st'.virtual_slots = st.virtual_slots := by
  intro rs
  induction rs with
  | nil =>
    intro st st' hz h
    simp only [startup_cards, Option.some.injEq] at h
    rw [← h]
    exact ⟨hz, rfl⟩
  | cons r rest ih =>
    intro st st' hz h
    simp only [startup_cards, card_initialize] at h
    by_cases hr : r < st.card_table.length
    · simp only [hr, if_true] at h
      have hz1 : ∀ card ∈ (st.set_card r { zero_card with reader := r }).card_table,
          card.num_slots = 0 := by
        intro card hmem
        rcases List.mem_or_eq_of_mem_set hmem with hm | hm
        · exact hz card hm
        · rw [hm]
          rfl
      have hrest := ih _ st' hz1 h
      exact ⟨hrest.1, hrest.2⟩
    · simp [hr] at h

theorem startup_slots_free :
    ∀ (is : List Nat) (st st' : State), (∀ slot ∈ st.virtual_slots, slot.card = none) →
      startup_slots is st = some st' → ∀ slot ∈ st'.virtual_slots, slot.card = none := by
  intro is
  induction is with
  | nil =>
    intro st st' hf h
    simp only [startup_slots, Option.some.injEq] at h
    rw [← h]
    exact hf
  | cons i rest ih =>
    intro st st' hf h
    simp only [startup_slots] at h
    cases hs : st.virtual_slots[i]? with
    | none => simp [hs] at h
    | some slot =>
      simp only [hs] at h
      refine ih _ st' ?_ h
      intro s hmem
      rcases List.mem_or_eq_of_mem_set hmem with hm | hm
      · exact hf s hm
      · rw [hm]
        exact hf slot (List.getElem?_mem hs)

theorem startup_accounting (ctx : sc_context) (n_slots : Nat) (st : State)
    (h : startup ctx n_slots = some st) :
    accounting_ok st ∧ ∀ slot ∈ st.virtual_slots, slot.card = none := by
  unfold startup at h
  cases h1 : startup_cards (List.range ctx.reader_count) (zero_state ctx n_slots) with
  | none => simp [h1] at h
  | some st1 =>
    simp only [h1] at h
    have hz : ∀ card ∈ (zero_state ctx n_slots).card_table, card.num_slots = 0 := by
      intro card hc
      simp only [zero_state] at hc
      rw [List.eq_of_mem_replicate hc]
      rfl
    obtain ⟨hz1, hv1⟩ := startup_cards_zero _ _ st1 hz h1
    have hf1 : ∀ slot ∈ st1.virtual_slots, slot.card = none := by
      intro slot hs
      rw [hv1] at hs
      simp only [zero_state] at hs
      rw [List.eq_of_mem_replicate hs]
      rfl
    have hf := startup_slots_free _ st1 st hf1 h
    refine ⟨?_, hf⟩
    intro c card hc
    rw [startup_slots_card_table _ st1 st h] at hc
    rw [hz1 card (List.getElem?_mem hc)]
    unfold referencing_slots
    symm
    rw [List.countP_eq_zero]
    intro slot hs
    rw [hf slot hs]
    simp

/-- A successful `slot_allocate` for the entry `c` raises `num_slots` of `c`
and the number of slots referring to `c` by one each, and changes neither for
another entry. -/
theorem slot_allocate_counts (st st' : State) (c : Nat) (r : Option Nat)
    (h : slot_allocate st c = some (CKR_OK, r, st')) :
    referencing_slots st' c = referencing_slots st c + 1 ∧
    (∃ card card', st.card_table[c]? = some card ∧ st'.card_table[c]? = some card' ∧
      card'.num_slots = card.num_slots + 1) ∧
    ∀ c', c' ≠ c → referencing_slots st' c' = referencing_slots st c' ∧
      st'.card_table[c']? = st.card_table[c']? := by
  obtain ⟨card, hcard⟩ := slot_allocate_some_card st c _ h
  have hclt : c < st.card_table.length := (List.getElem?_eq_some.1 hcard).1
  rcases slot_allocate_cases st c card hcard CKR_OK r st' h with
    ⟨hrv, _⟩ | ⟨_, _, i, slot, hd, _, hslot, hfree, _, _, hst⟩
  · exact absurd hrv (by decide)
  · have hcount : ∀ c', referencing_slots st' c' + 0 =
        referencing_slots st c' + (if c = c' then 1 else 0) := by
      intro c'
      have hadd := countP_set_add (fun s => decide (s.card = some c')) st.virtual_slots i slot
        (claimed_slot slot c hd) hslot
      have hp : decide (slot.card = some c') = false := by simp [hfree]
      have hcl : (claimed_slot slot c hd).card = some c := rfl
      unfold referencing_slots
      rw [hst]
      simp only [hp, hcl, Option.some.injEq, decide_eq_true_eq] at hadd
      simpa using hadd
    refine ⟨?_, ⟨card, { card with num_slots := card.num_slots + 1 }, hcard, ?_, rfl⟩, ?_⟩
    · have := hcount c
      simp only [if_true] at this
      omega
    · rw [hst]
      show (st.card_table.set c _)[c]? = _
      rw [List.getElem?_set, if_pos rfl]
      simp [hclt]
    · intro c' hne
      refine ⟨?_, ?_⟩
      · have := hcount c'
        rw [if_neg (Ne.symm hne)] at this
        omega
      · rw [hst]
        show (st.card_table.set c _)[c']? = _
        rw [List.getElem?_set_ne (Ne.symm hne)]

theorem slot_allocate_accounting (st st' : State) (c : Nat) (rv : CK_RV) (r : Option Nat)
    (h : slot_allocate st c = some (rv, r, st')) (hacc : accounting_ok st) :
    accounting_ok st' := by
  obtain ⟨card, hcard⟩ := slot_allocate_some_card st c _ h
  rcases slot_allocate_cases st c card hcard rv r st' h with
    ⟨_, _, hst, _⟩ | ⟨hrv, _⟩
  · rw [hst]; exact hacc
  · rw [hrv] at h
    obtain ⟨hc, ⟨card0, card', hcard0, hcard', hn⟩, hother⟩ := slot_allocate_counts st st' c r h
    intro c' x hx
    by_cases hcc : c' = c
    · subst hcc
      rw [hcard'] at hx
      simp only [Option.some.injEq] at hx
      rw [← hx, hn, hc, hacc c' card0 hcard0]
    · obtain ⟨hr, hk⟩ := hother c' hcc
      rw [hk] at hx
      rw [hr]
      exact hacc c' x hx

/-! ## C16: slot accounting -/

/-- C16, counterexample: a state reachable from the initialisation in which
`num_slots` of an entry differs from the number of slots that refer to it.
`card_detect` binds a framework that creates one token, then
`slot_token_removed` releases the slot; the entry still counts one slot and no
slot refers to it. -/
theorem slot_accounting_counterexample :
    reachable (ex_config [ex_framework_good]) ex_state_released ∧
    (∃ card, ex_state_released.card_table[0]? = some card ∧ card.num_slots = 1) ∧
    referencing_slots ex_state_released 0 = 0 ∧
    ¬ accounting_ok ex_state_released :=
  ⟨reachable.token_removed (ex_state_detected 0 [Event.connect_card 0, Event.bind 0 0])
      ex_state_released 0 CKR_OK
      (reachable.detect ex_initial _ ex_transport_present 0 CKR_OK
        (reachable.init { reader_count := 2 } 4 ex_initial (by decide)) (by decide))
      (by decide),
    ⟨_, rfl, rfl⟩, by decide,
    fun h => absurd
      (h 0
        { reader := 0, card := some ex_card, framework := some 0, fw_data := some 1,
          max_slots := 4, num_slots := 1 } rfl)
      (by decide)⟩

/-- C16, amended: the initialisation leaves `num_slots` of every entry equal
to the number of slots that refer to the entry, with no slot referring to any
entry.  `slot_allocate` keeps this equality; a successful call for the entry
`c` raises `num_slots` of `c` and the number of slots referring to `c` by one
each and changes neither for another entry.  `slot_token_removed` and
`card_removed` leave `num_slots` of every entry as it was and never raise the
number of slots referring to an entry. -/
theorem slot_accounting_steps :
    (∀ (ctx : sc_context) (n_slots : Nat) (st : State), startup ctx n_slots = some st →
      accounting_ok st ∧ ∀ slot ∈ st.virtual_slots, slot.card = none) ∧
    (∀ (st st' : State) (c : Nat) (rv : CK_RV) (r : Option Nat),
      slot_allocate st c = some (rv, r, st') → accounting_ok st → accounting_ok st') ∧
    (∀ (st st' : State) (c : Nat) (r : Option Nat),
      slot_allocate st c = some (CKR_OK, r, st') →
      referencing_slots st' c = referencing_slots st c + 1 ∧
      (∃ card card', st.card_table[c]? = some card ∧ st'.card_table[c]? = some card' ∧
        card'.num_slots = card.num_slots + 1) ∧
      ∀ c', c' ≠ c → referencing_slots st' c' = referencing_slots st c' ∧
        st'.card_table[c']? = st.card_table[c']?) ∧
    (∀ (st st' : State) (id : Int) (rv : CK_RV), slot_token_removed st id = some (rv, st') →
      st'.card_table = st.card_table ∧
      ∀ c, referencing_slots st' c ≤ referencing_slots st c) ∧
    (∀ (st st' : State) (reader : Nat) (rv : CK_RV), card_removed st reader = some (rv, st') →
      (∀ (c : Nat) (card : sc_pkcs11_card), st.card_table[c]? = some card →
        ∃ card', st'.card_table[c]? = some card' ∧ card'.num_slots = card.num_slots) ∧
      ∀ c, referencing_slots st' c ≤ referencing_slots st c) := by
  refine ⟨?_, ?_, ?_, ?_, ?_⟩
  · intro ctx n_slots st h
    exact startup_accounting ctx n_slots st h
  · intro st st' c rv r h hacc
    exact slot_allocate_accounting st st' c rv r h hacc
  · intro st st' c r h
    exact slot_allocate_counts st st' c r h
  · intro st st' id rv h
    exact ⟨(slot_token_removed_frame st st' id rv h).1,
      fun c => slot_token_removed_references st st' id rv c h⟩
  · intro st st' reader rv h
    exact ⟨fun c card hc => card_removed_num_slots st st' reader rv h c card hc,
      fun c => card_removed_references st st' reader rv c h⟩

theorem slot_accounting_steps_witness :
    startup { reader_count := 2 } 4 = some ex_initial ∧
    (accounting_ok ex_initial ∧ ∀ slot ∈ ex_initial.virtual_slots, slot.card = none) ∧
    slot_token_removed (ex_state_detected 0 [Event.connect_card 0, Event.bind 0 0]) 0 =
      some (CKR_OK, ex_state_released) ∧
    referencing_slots ex_state_released 0 ≤
      referencing_slots (ex_state_detected 0 [Event.connect_card 0, Event.bind 0 0]) 0 :=
  ⟨by decide, slot_accounting_steps.1 { reader_count := 2 } 4 ex_initial (by decide),
    by decide,
    (slot_accounting_steps.2.2.2.1 (ex_state_detected 0 [Event.connect_card 0, Event.bind 0 0])
      ex_state_released 0 CKR_OK (by decide)).2 0⟩

/-! ## The context and the `reader` fields are never written after start-up -/

theorem wellformed_congr (st st' : State) (hk : st'.card_table = st.card_table)
    (hc : st'.context = st.context) (h : wellformed st) : wellformed st' := by
  refine ⟨?_, ?_⟩
  · rw [hc]; exact h.1
  · intro c card hcard
    rw [hk] at hcard
    exact h.2 c card hcard

theorem wellformed_set_card (st : State) (i : Nat) (c : sc_pkcs11_card) (h : wellformed st)
    (hc : ∀ card, st.card_table[i]? = some card → c.reader = card.reader) :
    wellformed (st.set_card i c) := by
  refine ⟨h.1, ?_⟩
  intro k card hcard
  have hcard' : (st.card_table.set i c)[k]? = some card := hcard
  by_cases hik : i = k
  · subst hik
    rw [List.getElem?_set, if_pos rfl] at hcard'
    by_cases hlt : i < st.card_table.length
    · simp only [hlt, if_true, Option.some.injEq] at hcard'
      have hold : st.card_table[i]? = some st.card_table[i] := List.getElem?_eq_getElem hlt
      rw [← hcard', hc _ hold]
      exact h.2 i _ hold
    · simp [hlt] at hcard'
  · rw [List.getElem?_set_ne hik] at hcard'
    exact h.2 k card hcard'

theorem slot_allocate_wellformed (st st' : State) (c : Nat) (rv : CK_RV) (r : Option Nat)
    (hinv : wellformed st) (h : slot_allocate st c = some (rv, r, st')) : wellformed st' := by
  obtain ⟨card, hcard⟩ := slot_allocate_some_card st c _ h
  obtain ⟨hc, _, ⟨n, hk⟩, _⟩ := slot_allocate_frame st c card hcard rv r st' h
  have hset : wellformed (st.set_card c { card with num_slots := n }) := by
    apply wellformed_set_card st c _ hinv
    intro card0 h0
    rw [hcard] at h0
    simp only [Option.some.injEq] at h0
    rw [← h0]
  exact wellformed_congr (st.set_card c { card with num_slots := n }) st' hk hc hset

theorem run_create_tokens_wellformed (c : Nat) :
    ∀ (reqs : List token_request) (rv : CK_RV) (st : State) (rv' : CK_RV) (st' : State),
      wellformed st → run_create_tokens c reqs rv st = some (rv', st') → wellformed st' := by
  intro reqs
  induction reqs with
  | nil =>
    intro rv st rv' st' hinv h
    simp only [run_create_tokens, Option.some.injEq, Prod.mk.injEq] at h
    rw [← h.2]; exact hinv
  | cons req rest ih =>
    intro rv st rv' st' hinv h
    simp only [run_create_tokens] at h
    cases ha : slot_allocate st c with
    | none => simp [ha] at h
    | some x =>
      obtain ⟨rv1, r, st1⟩ := x
      have hinv1 := slot_allocate_wellformed st st1 c rv1 r hinv ha
      cases r with
      | none =>
        simp only [ha, Option.some.injEq, Prod.mk.injEq] at h
        rw [← h.2]; exact hinv1
      | some i =>
        simp only [ha] at h
        cases hs : st1.virtual_slots[i]? with
        | none => simp [hs] at h
        | some slot =>
          simp only [hs] at h
          refine ih rv _ rv' st' ?_ h
          exact wellformed_congr st1 _ rfl rfl hinv1

theorem bind_frameworks_wellformed (reader : Nat) :
    ∀ (fws : List sc_pkcs11_framework_ops) (i0 : Nat) (rv : CK_RV) (st : State)
      (r : Option Nat) (rv' : CK_RV) (st' : State),
      wellformed st → bind_frameworks reader fws i0 rv st = some (r, rv', st') →
      wellformed st' := by
  intro fws
  induction fws with
  | nil =>
    intro i0 rv st r rv' st' hinv h
    simp only [bind_frameworks, Option.some.injEq, Prod.mk.injEq] at h
    rw [← h.2.2]; exact hinv
  | cons fw rest ih =>
    intro i0 rv st r rv' st' hinv h
    simp only [bind_frameworks] at h
    cases hb : fw.bind with
    | none =>
      simp only [hb] at h
      exact ih (i0 + 1) rv st r rv' st' hinv h
    | some b =>
      simp only [hb] at h
      cases hcard : st.card_table[reader]? with
      | none => simp [hcard] at h
      | some card =>
        simp only [hcard] at h
        cases hconn : card.card with
        | none => simp [hconn] at h
        | some hd =>
          simp only [hconn] at h
          have hinv1 : ∀ c : sc_pkcs11_card, c.reader = card.reader →
              wellformed ((st.emit (Event.bind i0 reader)).set_card reader c) := by
            intro c h1
            apply wellformed_set_card _ reader _ (wellformed_congr st _ rfl rfl hinv)
            intro card0 h0
            have h0' : st.card_table[reader]? = some card0 := h0
            rw [hcard] at h0'
            simp only [Option.some.injEq] at h0'
            rw [← h0', h1]
          by_cases hok : (b hd).1 = CKR_OK
          · simp only [hok, if_true, Option.some.injEq, Prod.mk.injEq] at h
            rw [← h.2.2]; exact hinv1 _ rfl
          · simp only [hok, if_false] at h
            refine ih (i0 + 1) _ _ r rv' st' ?_ h
            exact hinv1 _ rfl

theorem wellformed_update (st : State) (reader : Nat) (card c : sc_pkcs11_card)
    (hinv : wellformed st) (hcard : st.card_table[reader]? = some card)
    (hc : c.reader = card.reader) : wellformed (st.set_card reader c) := by
  apply wellformed_set_card st reader c hinv
  intro card0 h0
  rw [hcard] at h0
  simp only [Option.some.injEq] at h0
  rw [← h0, hc]

theorem detect_framework_wellformed (cfg : Config) (st st' : State) (reader : Nat) (rv : CK_RV)
    (hinv : wellformed st) (h : detect_framework cfg st reader = some (rv, st')) :
    wellformed st' := by
  unfold detect_framework at h
  cases hcard : st.card_table[reader]? with
  | none => simp [hcard] at h
  | some card =>
    simp only [hcard] at h
    have hinv1 : wellformed (st.set_card reader
        { card with
          max_slots := (if cfg.conf_num_slots = 0 then cfg.SC_PKCS11_DEF_SLOTS_PER_CARD
                        else cfg.conf_num_slots), num_slots := 0 }) :=
      wellformed_update st reader card _ hinv hcard rfl
    cases hbf : bind_frameworks reader cfg.frameworks 0 CKR_OK (st.set_card reader
        { card with
          max_slots := (if cfg.conf_num_slots = 0 then cfg.SC_PKCS11_DEF_SLOTS_PER_CARD
                        else cfg.conf_num_slots), num_slots := 0 }) with
    | none => simp [hbf] at h
    | some x =>
      obtain ⟨r, rvb, st2⟩ := x
      have hinv2 := bind_frameworks_wellformed reader _ _ _ _ r rvb st2 hinv1 hbf
      cases r with
      | none =>
        simp only [hbf, Option.some.injEq, Prod.mk.injEq] at h
        rw [← h.2]; exact hinv2
      | some i =>
        simp only [hbf] at h
        cases hfw : cfg.frameworks[i]? with
        | none => simp [hfw] at h
        | some fw =>
          cases hcard2 : st2.card_table[reader]? with
          | none => simp [hfw, hcard2] at h
          | some card2 =>
            simp only [hfw, hcard2] at h
            cases hrun : run_create_tokens reader (fw.create_tokens card2).1
                (fw.create_tokens card2).2 (st2.emit (Event.create_tokens i reader)) with
            | none => simp [hrun] at h
            | some y =>
              obtain ⟨rv3, st3⟩ := y
              have hinv2e : wellformed (st2.emit (Event.create_tokens i reader)) :=
                wellformed_congr st2 _ rfl rfl hinv2
              have hinv3 := run_create_tokens_wellformed reader _ _ _ rv3 st3 hinv2e hrun
              simp only [hrun] at h
              by_cases hok : rv3 = CKR_OK
              · simp only [hok, ne_eq, not_true_eq_false, if_false] at h
                cases hcard3 : st3.card_table[reader]? with
                | none => simp [hcard3] at h
                | some card3 =>
                  simp only [hcard3, Option.some.injEq, Prod.mk.injEq] at h
                  rw [← h.2]
                  exact wellformed_update st3 reader card3 _ hinv3 hcard3 rfl
              · simp only [hok, ne_eq, not_false_eq_true, if_true, Option.some.injEq,
                  Prod.mk.injEq] at h
                rw [← h.2]; exact hinv3

theorem card_detect_known_wellformed (cfg : Config) (tr : Transport) (st st' : State)
    (reader : Nat) (rv : CK_RV) (hinv : wellformed st)
    (h : card_detect_known cfg tr st reader = some (rv, st')) : wellformed st' := by
  cases hcard : st.card_table[reader]? with
  | none =>
    unfold card_detect_known at h
    simp [hcard] at h
  | some card =>
    cases hconn : card.card with
    | some hd =>
      cases hfw : card.framework with
      | none =>
        rw [card_detect_known_connected cfg tr st reader card hd hcard hconn hfw] at h
        exact detect_framework_wellformed cfg st st' reader rv hinv h
      | some fw =>
        rw [card_detect_known_bound cfg tr st reader card hd fw hcard hconn hfw] at h
        simp only [Option.some.injEq, Prod.mk.injEq] at h
        rw [← h.2]; exact hinv
    | none =>
      by_cases hrc : tr.sc_connect_card.1 = SC_SUCCESS
      · rw [card_detect_known_connects cfg tr st reader card hcard hconn hrc] at h
        have hinv1 : wellformed ((st.emit (Event.connect_card reader)).set_card reader
            { card with card := some tr.sc_connect_card.2 }) :=
          wellformed_update _ reader card _ (wellformed_congr st _ rfl rfl hinv) hcard rfl
        by_cases hfw : card.framework = none
        · rw [if_pos hfw] at h
          exact detect_framework_wellformed cfg _ st' reader rv hinv1 h
        · rw [if_neg hfw] at h
          simp only [Option.some.injEq, Prod.mk.injEq] at h
          rw [← h.2]; exact hinv1
      · rw [card_detect_known_connect_failed cfg tr st reader card hcard hconn hrc] at h
        simp only [Option.some.injEq, Prod.mk.injEq] at h
        rw [← h.2]
        exact wellformed_congr st _ rfl rfl hinv

theorem card_removed_wellformed (st st' : State) (reader : Nat) (rv : CK_RV)
    (hinv : wellformed st) (h : card_removed st reader = some (rv, st')) : wellformed st' := by
  obtain ⟨_, hc, card, hcard, hk, _⟩ := card_removed_spec st st' reader rv h
  exact wellformed_congr (st.set_card reader (removed_card card)) st' hk hc
    (wellformed_update st reader card _ hinv hcard rfl)

theorem card_detect_wellformed (cfg : Config) (tr : Transport) (st st' : State) (reader : Nat)
    (rv : CK_RV) (hinv : wellformed st) (h : card_detect cfg tr st reader = some (rv, st')) :
    wellformed st' :=
  card_detect_again_invariant cfg tr reader wellformed
    (fun s _ hs => wellformed_congr s _ rfl rfl hs)
    (fun s rv1 s1 hs hr => card_removed_wellformed s s1 reader rv1 hs hr)
    (fun s rv1 s1 hs hk => card_detect_known_wellformed cfg tr s s1 reader rv1 hs hk)
    1 0 st rv st' hinv h

theorem startup_cards_readers :
    ∀ (rs : List Nat) (st st' : State), startup_cards rs st = some st' →
      st'.context = st.context ∧ st'.card_table.length = st.card_table.length ∧
      ∀ (c : Nat) (card : sc_pkcs11_card), st'.card_table[c]? = some card →
        card.reader = c ∨ (c ∉ rs ∧ st.card_table[c]? = some card) := by
  intro rs
  induction rs with
  | nil =>
    intro st st' h
    simp only [startup_cards, Option.some.injEq] at h
    rw [← h]
    exact ⟨rfl, rfl, fun c card hc => Or.inr ⟨by simp, hc⟩⟩
  | cons r rest ih =>
    intro st st' h
    simp only [startup_cards, card_initialize] at h
    by_cases hr : r < st.card_table.length
    · simp only [hr, if_true] at h
      obtain ⟨hc1, hl1, he1⟩ := ih _ st' h
      refine ⟨hc1, ?_, ?_⟩
      · rw [hl1]
        show (st.card_table.set r _).length = _
        rw [List.length_set]
      · intro c card hcard
        rcases he1 c card hcard with hrd | ⟨hnot, hold⟩
        · exact Or.inl hrd
        · have hold' : (st.card_table.set r { zero_card with reader := r })[c]? = some card :=
            hold
          by_cases hrc : r = c
          · subst hrc
            rw [List.getElem?_set, if_pos rfl] at hold'
            simp only [hr, if_true, Option.some.injEq] at hold'
            left
            rw [← hold']
          · rw [List.getElem?_set_ne hrc] at hold'
            right
            refine ⟨?_, hold'⟩
            intro hmem
            rcases List.mem_cons.1 hmem with hm | hm
            · exact hrc hm.symm
            · exact hnot hm
    · simp [hr] at h

theorem startup_slots_context :
    ∀ (is : List Nat) (st st' : State), startup_slots is st = some st' →
      st'.context = st.context := by
  intro is
  induction is with
  | nil =>
    intro st st' h
    simp only [startup_slots, Option.some.injEq] at h
    rw [← h]
  | cons i rest ih =>
    intro st st' h
    simp only [startup_slots] at h
    cases hs : st.virtual_slots[i]? with
    | none => simp [hs] at h
    | some slot =>
      simp only [hs] at h
      have hrest := ih _ st' h
      rw [hrest]
      rfl

theorem startup_wellformed (ctx : sc_context) (n_slots : Nat) (st : State)
    (h : startup ctx n_slots = some st) : wellformed st := by
  unfold startup at h
  cases h1 : startup_cards (List.range ctx.reader_count) (zero_state ctx n_slots) with
  | none => simp [h1] at h
  | some st1 =>
    simp only [h1] at h
    obtain ⟨hc1, hl1, he1⟩ := startup_cards_readers _ _ st1 h1
    refine ⟨?_, ?_⟩
    · rw [startup_slots_context _ st1 st h, hc1]
      simp [zero_state]
    · intro c card hcard
      rw [startup_slots_card_table _ st1 st h] at hcard
      rcases he1 c card hcard with hrd | ⟨hnot, _⟩
      · exact hrd
      · have hlt : c < st1.card_table.length := (List.getElem?_eq_some.1 hcard).1
        rw [hl1] at hlt
        simp only [zero_state, List.length_replicate] at hlt
        exact absurd (List.mem_range.2 hlt) hnot

theorem reachable_wellformed (cfg : Config) (st : State) (h : reachable cfg st) :
    wellformed st := by
  induction h with
  | init ctx n_slots st hst => exact startup_wellformed ctx n_slots st hst
  | allocate st st' c rv r _ ha ih => exact slot_allocate_wellformed st st' c rv r ih ha
  | token_removed st st' id rv _ ha ih =>
    have hf := slot_token_removed_frame st st' id rv ha
    exact wellformed_congr st st' hf.1 hf.2.1 ih
  | removed st st' reader rv _ ha ih => exact card_removed_wellformed st st' reader rv ih ha
  | detect st st' tr reader rv _ ha ih =>
    exact card_detect_wellformed cfg tr st st' reader rv ih ha

/-! ## C1: `card_removed` clears the reader -/

/-- C1: in every state reachable from the initialisation, and more generally
in every state in which the context is initialised and the entry of `reader`
carries `reader` in its `reader` field (only `card_initialize` writes that
field and nothing writes the context, so both hold in every reachable state),
after `card_removed(reader)` returns no virtual slot refers to the entry of
`reader`, the entry's framework, framework context and card handle are
unset, and every slot that referred to the entry before the call has an empty
object pool. -/
theorem card_removed_clears_reader (cfg : Config) (st st' : State) (reader : Nat) (rv : CK_RV)
    (hst : reachable cfg st ∨
      (st.context ≠ none ∧
        ∀ card, st.card_table[reader]? = some card → card.reader = reader))
    (h : card_removed st reader = some (rv, st')) :
    (∀ (i : Nat) (slot : sc_pkcs11_slot), st'.virtual_slots[i]? = some slot →
      slot.card ≠ some reader) ∧
    (∃ card, st'.card_table[reader]? = some card ∧ card.framework = none ∧
      card.fw_data = none ∧ card.card = none) ∧
    (∀ (i : Nat) (slot : sc_pkcs11_slot), st.virtual_slots[i]? = some slot →
      slot.card = some reader →
      ∃ slot', st'.virtual_slots[i]? = some slot' ∧ slot'.object_pool = []) := by
  have hwf : st.context ≠ none ∧
      ∀ card, st.card_table[reader]? = some card → card.reader = reader := by
    rcases hst with hreach | hpre
    · have hw := reachable_wellformed cfg st hreach
      exact ⟨hw.1, fun card hc => hw.2 reader card hc⟩
    · exact hpre
  obtain ⟨hctx, hrd⟩ := hwf
  obtain ⟨_, _, card, hcard, hk, hs, _, _⟩ := card_removed_spec st st' reader rv h
  have hlt : reader < st.card_table.length := by
    rcases List.getElem?_eq_some.1 hcard with ⟨hlt, _⟩
    exact hlt
  have hmatch : ∀ i slot, st.virtual_slots[i]? = some slot → slot.card = some reader →
      i < st.virtual_slots.length ∧ slot_of_reader st reader i = true ∧ st.context ≠ none := by
    intro i slot hslot hc
    refine ⟨?_, ?_, hctx⟩
    · rcases List.getElem?_eq_some.1 hslot with ⟨hi, _⟩
      exact hi
    · rw [slot_of_reader_intro st reader i slot reader card hslot hc hcard]
      simp [hrd card hcard]
  refine ⟨?_, ?_, ?_⟩
  · intro i slot hslot hc
    rw [hs i] at hslot
    split at hslot
    · simp only [Option.some.injEq] at hslot
      rw [← hslot] at hc
      simp [zapped_slot, zero_slot] at hc
    · rename_i hcond
      exact hcond (hmatch i slot hslot hc)
  · refine ⟨removed_card card, ?_, rfl, rfl, rfl⟩
    rw [hk]
    simp [hlt]
  · intro i slot hslot hc
    refine ⟨zapped_slot, ?_, rfl⟩
    rw [hs i, if_pos (hmatch i slot hslot hc)]

theorem card_removed_clears_reader_witness :
    ((∀ (i : Nat) (slot : sc_pkcs11_slot), ex_state_removed.virtual_slots[i]? = some slot →
        slot.card ≠ some 0) ∧
      (∃ card, ex_state_removed.card_table[0]? = some card ∧ card.framework = none ∧
        card.fw_data = none ∧ card.card = none) ∧
      (∀ (i : Nat) (slot : sc_pkcs11_slot), ex_state.virtual_slots[i]? = some slot →
        slot.card = some 0 →
        ∃ slot', ex_state_removed.virtual_slots[i]? = some slot' ∧ slot'.object_pool = [])) ∧
    reachable (ex_config [ex_framework_good])
      (ex_state_detected 0 [Event.connect_card 0, Event.bind 0 0]) ∧
    ∃ st', card_removed (ex_state_detected 0 [Event.connect_card 0, Event.bind 0 0]) 0 =
        some (CKR_OK, st') ∧
      (∀ (i : Nat) (slot : sc_pkcs11_slot), st'.virtual_slots[i]? = some slot →
        slot.card ≠ some 0) ∧
      ∃ card, st'.card_table[0]? = some card ∧ card.framework = none ∧
        card.fw_data = none ∧ card.card = none :=
  have hreach : reachable (ex_config [ex_framework_good])
      (ex_state_detected 0 [Event.connect_card 0, Event.bind 0 0]) :=
    reachable.detect ex_initial _ ex_transport_present 0 CKR_OK
      (reachable.init { reader_count := 2 } 4 ex_initial (by decide)) (by decide)
  have hrun : card_removed (ex_state_detected 0 [Event.connect_card 0, Event.bind 0 0]) 0 =
      some (CKR_OK, { ex_state_released with
        card_table :=
          [ { reader := 0, card := none, framework := none, fw_data := none,
              max_slots := 4, num_slots := 1 },
            { zero_card with reader := 1 } ]
        log := [Event.detect_card_presence 0, Event.connect_card 0, Event.bind 0 0,
          Event.create_tokens 0 0, Event.debug_smartcard_removed 0,
          Event.close_all_sessions 0, Event.release_token 0 0 9, Event.unbind 0 0,
          Event.disconnect_card ex_card] }) := by decide
  ⟨card_removed_clears_reader (ex_config []) ex_state ex_state_removed 0 CKR_OK
      (Or.inr ⟨by decide, by decide⟩) (by decide),
    hreach,
    _, hrun,
    (card_removed_clears_reader (ex_config [ex_framework_good]) _ _ 0 CKR_OK (Or.inl hreach)
      hrun).1,
    (card_removed_clears_reader (ex_config [ex_framework_good]) _ _ 0 CKR_OK (Or.inl hreach)
      hrun).2.1⟩

/-! ## C5: a failing `create_tokens` -/

theorem referencing_slots_set_same (st : State) (i c : Nat) (slot slot1 : sc_pkcs11_slot)
    (hslot : st.virtual_slots[i]? = some slot) (hc : slot1.card = slot.card) :
    referencing_slots (st.set_slot i slot1) c = referencing_slots st c := by
  have h := countP_set_add (fun s => decide (s.card = some c)) st.virtual_slots i slot slot1
    hslot
  simp only [hc] at h
  unfold referencing_slots
  show (st.virtual_slots.set i slot1).countP _ = _
  omega

/-- A run of `create_tokens` for the entry `c` raises `num_slots` of the
entry and the number of slots that refer to it by the same amount, the number
of slots it allocated, and leaves `max_slots` as it was. -/
theorem run_create_tokens_counts (c : Nat) :
    ∀ (reqs : List token_request) (rv : CK_RV) (st : State) (rv' : CK_RV) (st' : State)
      (card : sc_pkcs11_card), st.card_table[c]? = some card →
      run_create_tokens c reqs rv st = some (rv', st') →
      ∃ (n : Nat) (card' : sc_pkcs11_card), st'.card_table[c]? = some card' ∧
        card'.num_slots = card.num_slots + n ∧ card'.max_slots = card.max_slots ∧
        referencing_slots st' c = referencing_slots st c + n := by
  intro reqs
  induction reqs with
  | nil =>
    intro rv st rv' st' card hcard h
    simp only [run_create_tokens, Option.some.injEq, Prod.mk.injEq] at h
    rw [← h.2]
    exact ⟨0, card, hcard, rfl, rfl, rfl⟩
  | cons req rest ih =>
    intro rv st rv' st' card hcard h
    simp only [run_create_tokens] at h
    have hclt : c < st.card_table.length := (List.getElem?_eq_some.1 hcard).1
    cases ha : slot_allocate st c with
    | none => simp [ha] at h
    | some x =>
      obtain ⟨rv1, r, st1⟩ := x
      rcases slot_allocate_cases st c card hcard rv1 r st1 ha with
        ⟨_, hr, hst, _⟩ | ⟨hrv, _, i, slot, hd, hr, hslot, _, _, _, hst⟩
      · subst hr
        simp only [ha, Option.some.injEq, Prod.mk.injEq] at h
        rw [← h.2, hst]
        exact ⟨0, card, hcard, rfl, rfl, rfl⟩
      · subst hr
        subst hrv
        obtain ⟨hcount, _, _⟩ := slot_allocate_counts st st1 c (some i) ha
        simp only [ha] at h
        cases hs : st1.virtual_slots[i]? with
        | none => simp [hs] at h
        | some slot' =>
          simp only [hs] at h
          have hcard1 : st1.card_table[c]? =
              some { card with num_slots := card.num_slots + 1 } := by
            rw [hst]
            show (st.card_table.set c _)[c]? = _
            rw [List.getElem?_set, if_pos rfl]
            simp [hclt]
          obtain ⟨n2, card', hc', hn', hm', hr'⟩ := by
            refine ih rv _ rv' st' { card with num_slots := card.num_slots + 1 } ?_ h
            exact hcard1
          refine ⟨n2 + 1, card', hc', ?_, hm', ?_⟩
          · rw [hn']
            show card.num_slots + 1 + n2 = _
            omega
          · have hr2 : referencing_slots st' c = referencing_slots st1 c + n2 := by
              rw [hr']
              congr 1
              exact referencing_slots_set_same st1 i c slot' _ hs rfl
            rw [hr2, hcount]
            omega

theorem detect_framework_counts (cfg : Config) (st st' : State) (reader : Nat)
    (card : sc_pkcs11_card) (hd : sc_card) (rv : CK_RV)
    (hcard : st.card_table[reader]? = some card) (hconn : card.card = some hd)
    (h : detect_framework cfg st reader = some (rv, st')) :
    ∃ card', st'.card_table[reader]? = some card' ∧ card'.max_slots = slot_budget cfg ∧
      referencing_slots st' reader = referencing_slots st reader + card'.num_slots := by
  have hrlt : reader < st.card_table.length := (List.getElem?_eq_some.1 hcard).1
  obtain ⟨_, binds, _, hcase⟩ := detect_framework_spec cfg st reader card hd rv st' hcard hconn h
  rcases hcase with ⟨_, _, _, hv, d, hk⟩ |
    ⟨i, fw, st2, card2, rv3, st3, n, _, _, _, _, _, hc2, hcard2, _, hv2, _, hrun, hk3, _, hfin⟩
  · refine ⟨{ card with max_slots := slot_budget cfg, num_slots := 0, fw_data := d }, ?_, rfl,
      ?_⟩
    · rw [hk, List.getElem?_set, if_pos rfl]
      simp [hrlt]
    · unfold referencing_slots
      rw [hv]
      rfl
  · have hrlt2 : reader < st2.card_table.length := (List.getElem?_eq_some.1 hc2).1
    have hmax : card2.max_slots = slot_budget cfg := by rw [hcard2]
    have hnum : card2.num_slots = 0 := by rw [hcard2]
    have hc2e : (st2.emit (Event.create_tokens i reader)).card_table[reader]? = some card2 := hc2
    obtain ⟨m, card3, hc3, hn3, hm3, hr3⟩ :=
      run_create_tokens_counts reader _ _ _ rv3 st3 card2 hc2e hrun
    have h3 : st3.card_table[reader]? = some { card2 with num_slots := n } := by
      rw [hk3, List.getElem?_set, if_pos rfl]
      simp [hrlt2]
    have hcard3 : card3 = { card2 with num_slots := n } := by
      rw [hc3] at h3
      simpa using h3
    have hnm : n = m := by
      have := hn3
      rw [hcard3, hnum] at this
      simpa using this
    have hrefs : referencing_slots st3 reader = referencing_slots st reader + n := by
      rw [hr3, hnm]
      unfold referencing_slots
      show st2.virtual_slots.countP _ + m = _
      rw [hv2]
    rcases hfin with ⟨_, _, hst⟩ | ⟨_, _, hst⟩
    · refine ⟨{ card2 with num_slots := n }, ?_, hmax, ?_⟩
      · rw [hst]; exact h3
      · rw [hst]; exact hrefs
    · refine ⟨{ card2 with num_slots := n, framework := some i }, ?_, hmax, ?_⟩
      · rw [hst]
        show (st3.card_table.set reader _)[reader]? = _
        have hlen : reader < st3.card_table.length := (List.getElem?_eq_some.1 h3).1
        rw [List.getElem?_set, if_pos rfl]
        simp [hlen]
      · rw [hst]
        exact hrefs

theorem card_detect_known_counts (cfg : Config) (tr : Transport) (st st' : State)
    (reader : Nat) (card : sc_pkcs11_card) (rv : CK_RV)
    (hcard : st.card_table[reader]? = some card) (hfw : card.framework = none)
    (hconn : card.card ≠ none ∨ tr.sc_connect_card.1 = SC_SUCCESS)
    (h : card_detect_known cfg tr st reader = some (rv, st')) :
    ∃ card', st'.card_table[reader]? = some card' ∧ card'.max_slots = slot_budget cfg ∧
      referencing_slots st' reader = referencing_slots st reader + card'.num_slots := by
  have hrlt : reader < st.card_table.length := (List.getElem?_eq_some.1 hcard).1
  cases hc : card.card with
  | some hd =>
    rw [card_detect_known_connected cfg tr st reader card hd hcard hc hfw] at h
    exact detect_framework_counts cfg st st' reader card hd rv hcard hc h
  | none =>
    have hrc : tr.sc_connect_card.1 = SC_SUCCESS := by
      rcases hconn with hne | hrc
      · exact absurd hc hne
      · exact hrc
    rw [card_detect_known_connects cfg tr st reader card hcard hc hrc, if_pos hfw] at h
    have hcard1 : ((st.emit (Event.connect_card reader)).set_card reader
        { card with card := some tr.sc_connect_card.2 }).card_table[reader]? =
        some { card with card := some tr.sc_connect_card.2 } := by
      show (st.card_table.set reader _)[reader]? = _
      rw [List.getElem?_set, if_pos rfl]
      simp [hrlt]
    exact detect_framework_counts cfg ((st.emit (Event.connect_card reader)).set_card reader
      { card with card := some tr.sc_connect_card.2 }) st' reader _ tr.sc_connect_card.2 rv
      hcard1 rfl h

/-- The first detection of a card: the presence query reports an unchanged
card, the entry has no framework, and the card is connected or connects now.
`card_detect` leaves the budget in `max_slots`, and `num_slots` counts the
slots allocated since. -/
theorem card_detect_budget_written (cfg : Config) (tr : Transport) (st st' : State)
    (reader : Nat) (ctx : sc_context) (card : sc_pkcs11_card) (rv : CK_RV)
    (hctx : st.context = some ctx) (hreader : reader < ctx.reader_count)
    (hpos : 0 < tr.sc_detect_card_presence 0)
    (hsame : card_changed (tr.sc_detect_card_presence 0) = false)
    (hcard : st.card_table[reader]? = some card) (hfw : card.framework = none)
    (hconn : card.card ≠ none ∨ tr.sc_connect_card.1 = SC_SUCCESS)
    (h : card_detect cfg tr st reader = some (rv, st')) :
    ∃ card', st'.card_table[reader]? = some card' ∧ card'.max_slots = slot_budget cfg ∧
      referencing_slots st' reader = referencing_slots st reader + card'.num_slots := by
  rw [card_detect_present cfg tr st reader ctx hctx hreader hpos hsame] at h
  have hcard0 : (st.emit (Event.detect_card_presence reader)).card_table[reader]? = some card :=
    hcard
  exact card_detect_known_counts cfg tr (st.emit (Event.detect_card_presence reader)) st' reader
    card rv hcard0 hfw hconn h

/-- The detection of a changed card: `card_removed` has left the state `st1`,
the second presence query reports an unchanged card and the new card connects.
`card_detect` leaves the budget in `max_slots`, and `num_slots` counts the
slots allocated since. -/
theorem card_detect_budget_rewritten (cfg : Config) (tr : Transport) (st st1 st' : State)
    (reader : Nat) (ctx : sc_context) (rv1 rv : CK_RV)
    (hctx : st.context = some ctx) (hreader : reader < ctx.reader_count)
    (hpos0 : 0 < tr.sc_detect_card_presence 0)
    (hch0 : card_changed (tr.sc_detect_card_presence 0) = true)
    (hpos1 : 0 < tr.sc_detect_card_presence 1)
    (hsame1 : card_changed (tr.sc_detect_card_presence 1) = false)
    (hrc : tr.sc_connect_card.1 = SC_SUCCESS)
    (hrem : card_removed ((st.emit (Event.detect_card_presence reader)).emit
      (Event.debug_card_changed reader)) reader = some (rv1, st1))
    (h : card_detect cfg tr st reader = some (rv, st')) :
    ∃ card', st'.card_table[reader]? = some card' ∧ card'.max_slots = slot_budget cfg ∧
      referencing_slots st' reader = referencing_slots st1 reader + card'.num_slots := by
  obtain ⟨_, hc1, card, hcard, hk1, _⟩ := card_removed_spec _ st1 reader rv1 hrem
  have hrlt : reader < st.card_table.length := (List.getElem?_eq_some.1 hcard).1
  have hctx1 : st1.context = some ctx := by rw [hc1]; exact hctx
  unfold card_detect at h
  rw [card_detect_again_changed cfg tr reader 0 0 st ctx hctx hreader hpos0 hch0] at h
  simp only [hrem] at h
  rw [card_detect_again_present cfg tr reader 0 1 st1 ctx hctx1 hreader hpos1 hsame1] at h
  have hcard1 : (st1.emit (Event.detect_card_presence reader)).card_table[reader]? =
      some (removed_card card) := by
    show st1.card_table[reader]? = _
    rw [hk1]
    show (st.card_table.set reader _)[reader]? = _
    rw [List.getElem?_set, if_pos rfl]
    simp [hrlt]
  exact card_detect_known_counts cfg tr (st1.emit (Event.detect_card_presence reader)) st'
    reader (removed_card card) rv hcard1 rfl (Or.inr hrc) h

/-! ## C17: the budget invariant -/

/-- C17: `num_slots ≤ max_slots` holds for every card table entry at all
times.  `card_initialize` leaves the entry with both counters zero and keeps
the invariant; `card_detect`, `slot_allocate`, `slot_token_removed` and
`card_removed` keep it; so it holds in every state reachable from the
initialisation.  Whenever `card_detect` reaches the framework detection (the
entry has no framework and the card is connected or connects now, on an
unchanged signal or after the removal that a changed signal causes), it leaves
`max_slots` at the configured override, or at the built-in default when the
override is 0, and `num_slots` restarts from 0: afterwards it counts exactly
the slots allocated for the entry since, and it is 0 when no framework
recognised the card. -/
theorem budget_invariant (cfg : Config) :
    (∀ (st st' : State) (reader : Nat) (rv : CK_RV),
      card_initialize st reader = some (rv, st') →
      (∃ card, st'.card_table[reader]? = some card ∧ card.num_slots = 0 ∧ card.max_slots = 0) ∧
      (budget_ok st → budget_ok st')) ∧
    (∀ (tr : Transport) (st st' : State) (reader : Nat) (rv : CK_RV), budget_ok st →
      card_detect cfg tr st reader = some (rv, st') → budget_ok st') ∧
    (∀ (st st' : State) (c : Nat) (rv : CK_RV) (r : Option Nat), budget_ok st →
      slot_allocate st c = some (rv, r, st') → budget_ok st') ∧
    (∀ (st st' : State) (id : Int) (rv : CK_RV), budget_ok st →
      slot_token_removed st id = some (rv, st') → budget_ok st') ∧
    (∀ (st st' : State) (reader : Nat) (rv : CK_RV), budget_ok st →
      card_removed st reader = some (rv, st') → budget_ok st') ∧
    (∀ st : State, reachable cfg st → budget_ok st) ∧
    (∀ (tr : Transport) (st st' : State) (reader : Nat) (ctx : sc_context)
      (card : sc_pkcs11_card) (hd : sc_card) (rv : CK_RV),
      st.context = some ctx → reader < ctx.reader_count →
      0 < tr.sc_detect_card_presence 0 →
      card_changed (tr.sc_detect_card_presence 0) = false →
      st.card_table[reader]? = some card → card.card = some hd → card.framework = none →
      card_detect cfg tr st reader = some (rv, st') →
      ∃ card', st'.card_table[reader]? = some card' ∧
        card'.max_slots = (if cfg.conf_num_slots = 0 then cfg.SC_PKCS11_DEF_SLOTS_PER_CARD
          else cfg.conf_num_slots) ∧
        ((∀ fw ∈ cfg.frameworks, recognises fw hd = false) → card'.num_slots = 0)) ∧
    (∀ (tr : Transport) (st st' : State) (reader : Nat) (ctx : sc_context)
      (card : sc_pkcs11_card) (rv : CK_RV),
      st.context = some ctx → reader < ctx.reader_count →
      0 < tr.sc_detect_card_presence 0 →
      card_changed (tr.sc_detect_card_presence 0) = false →
      st.card_table[reader]? = some card → card.framework = none →
      (card.card ≠ none ∨ tr.sc_connect_card.1 = SC_SUCCESS) →
      card_detect cfg tr st reader = some (rv, st') →
      ∃ card', st'.card_table[reader]? = some card' ∧
        card'.max_slots = (if cfg.conf_num_slots = 0 then cfg.SC_PKCS11_DEF_SLOTS_PER_CARD
          else cfg.conf_num_slots) ∧
        referencing_slots st' reader = referencing_slots st reader + card'.num_slots) ∧
    (∀ (tr : Transport) (st st1 st' : State) (reader : Nat) (ctx : sc_context)
      (rv1 rv : CK_RV),
      st.context = some ctx → reader < ctx.reader_count →
      0 < tr.sc_detect_card_presence 0 →
      card_changed (tr.sc_detect_card_presence 0) = true →
      0 < tr.sc_detect_card_presence 1 →
      card_changed (tr.sc_detect_card_presence 1) = false →
      tr.sc_connect_card.1 = SC_SUCCESS →
      card_removed ((st.emit (Event.detect_card_presence reader)).emit
        (Event.debug_card_changed reader)) reader = some (rv1, st1) →
      card_detect cfg tr st reader = some (rv, st') →
      ∃ card', st'.card_table[reader]? = some card' ∧
        card'.max_slots = (if cfg.conf_num_slots = 0 then cfg.SC_PKCS11_DEF_SLOTS_PER_CARD
          else cfg.conf_num_slots) ∧
        referencing_slots st' reader = referencing_slots st1 reader + card'.num_slots) := by
  refine ⟨?_, ?_, ?_, ?_, ?_, ?_, ?_, ?_, ?_⟩
  · intro st st' reader rv h
    unfold card_initialize at h
    by_cases hr : reader < st.card_table.length
    · simp only [hr, if_true, Option.some.injEq, Prod.mk.injEq] at h
      rw [← h.2]
      refine ⟨⟨{ zero_card with reader := reader }, ?_, rfl, rfl⟩, ?_⟩
      · show (st.card_table.set reader _)[reader]? = _
        rw [List.getElem?_set, if_pos rfl]
        simp [hr]
      · intro hinv
        exact budget_ok_set_card st reader _ hinv (Nat.le_refl 0)
    · simp [hr] at h
  · intro tr st st' reader rv hinv h
    exact card_detect_budget cfg tr st st' reader rv hinv h
  · intro st st' c rv r hinv h
    exact slot_allocate_budget st st' c rv r hinv h
  · intro st st' id rv hinv h
    exact budget_ok_congr st st' (slot_token_removed_frame st st' id rv h).1 hinv
  · intro st st' reader rv hinv h
    exact card_removed_budget st st' reader rv hinv h
  · intro st h
    exact reachable_budget cfg st h
  · intro tr st st' reader ctx card hd rv hctx hreader hpos hsame hcard hconn hfw h
    exact card_detect_sets_budget cfg tr st st' reader ctx card hd rv hctx hreader hpos hsame
      hcard hconn hfw h
  · intro tr st st' reader ctx card rv hctx hreader hpos hsame hcard hfw hconn h
    exact card_detect_budget_written cfg tr st st' reader ctx card rv hctx hreader hpos hsame
      hcard hfw hconn h
  · intro tr st st1 st' reader ctx rv1 rv hctx hreader hpos0 hch0 hpos1 hsame1 hrc hrem h
    exact card_detect_budget_rewritten cfg tr st st1 st' reader ctx rv1 rv hctx hreader hpos0
      hch0 hpos1 hsame1 hrc hrem h

theorem budget_invariant_witness :
    budget_ok ex_initial ∧
    card_detect ex_config_override ex_transport_present ex_initial 0 =
      some (CKR_OK, ex_state_detected_override) ∧
    budget_ok ex_state_detected_override ∧
    ∃ card', ex_state_detected_override.card_table[0]? = some card' ∧
      card'.max_slots = 7 ∧
      referencing_slots ex_state_detected_override 0 =
        referencing_slots ex_initial 0 + card'.num_slots :=
  ⟨by unfold budget_ok; decide, by decide,
    (budget_invariant ex_config_override).2.1 ex_transport_present ex_initial
      ex_state_detected_override 0 CKR_OK (by unfold budget_ok; decide) (by decide),
    (budget_invariant ex_config_override).2.2.2.2.2.2.2.1 ex_transport_present ex_initial
      ex_state_detected_override 0 { reader_count := 2 } { zero_card with reader := 0 } CKR_OK
      rfl (by decide) (by decide) (by decide) rfl rfl (Or.inr (by decide)) (by decide)⟩

end Slot
